import Mathlib

/-!
# RowFlow: a verification development of the four-in-a-row server

Shallow embedding of the Go backend (`backend-go/internal/...`) and theorems about it.

* `game/game.go`            : board engine (`MakeMove`, `CheckWinner`, ...)
* `bot/bot.go`              : automated opponent (`SelectBotMove`, ...)
* `matchmaking/matchmaking.go` : waiting queue and game registry
* `websocket/hub.go`        : connection hub (`HandleMove`, ...)

Go `int` values that are used as array indices inside loops whose bounds keep them
non-negative are `Nat`; values that come from callers (`column`) are `Int`.
Go pointers are addresses (`Ptr`) into explicit object memories, so that in-place
mutation through a pointer is a memory update.
-/

namespace RowFlow

/-! ## game/game.go -/

/-- Number of rows of the board (`Rows = 6`). -/
def Rows : Nat := 6

/-- Number of columns of the board (`Cols = 7`). -/
def Cols : Nat := 7

/-- Length of a winning line (`WinLength = 4`). -/
def WinLength : Nat := 4

/-- Go: `type Player int`. -/
abbrev Player := Int

/-- Go: `Empty Player = 0`. -/
def Empty : Player := 0

/-- Go: `Player1 Player = 1`. -/
def Player1 : Player := 1

/-- Go: `Player2 Player = 2`. -/
def Player2 : Player := 2

/-- Go: `type Board [Rows][Cols]Player`, a fixed 6x7 array of cells. -/
abbrev Board := Fin Rows → Fin Cols → Player

/-- Read of `board[r][c]`. Every index expression of the source is inside the array
bounds (loop bounds or an explicit range check precede each access); outside the bounds,
where Go would stop with an index error, the read is `Empty`. -/
def Board.get (b : Board) (r c : Nat) : Player :=
  if h : r < Rows ∧ c < Cols then b ⟨r, h.1⟩ ⟨c, h.2⟩ else Empty

/-- Write `board[r][c] = p`. -/
def Board.set (b : Board) (r c : Nat) (p : Player) : Board :=
  fun i j => if i.val = r ∧ j.val = c then p else b i j

/-- Go: `type Move struct { Column int; Row int; Player Player }`. -/
structure Move where
  Column : Int
  Row : Int
  Player : Player
  deriving DecidableEq, Repr

/-- Go: `type GameState struct`. -/
structure GameState where
  ID : String
  Player1 : String
  Player2 : String
  Board : Board
  CurrentTurn : Player
  Winner : String
  IsFinished : Bool

deriving instance DecidableEq for Except

/-- Go: `CreateBoard`, the zero value `Board{}`: every cell is `Empty`. -/
def CreateBoard : Board := fun _ _ => Empty

/-- The loop `for row := Rows - 1; row >= 0; row--` of `MakeMove`; `n` is `row + 1`,
so the rows still to visit are `n - 1, ..., 0`. The result is the board after the call
together with the returned `(*Move, error)` pair. -/
def MakeMove.loop (board : Board) (column : Nat) (player : Player) :
    Nat → Board × Except String Move
  | 0 => (board, .error "column is full")
  | row + 1 =>
    if board.get row column = Empty then
      (board.set row column player,
        .ok { Column := (column : Int), Row := (row : Int), Player := player })
    else MakeMove.loop board column player row

/-- Go: `MakeMove(board *Board, column int, player Player) (*Move, error)`.
The board is mutated in place, so the board after the call is part of the result. -/
def MakeMove (board : Board) (column : Int) (player : Player) : Board × Except String Move :=
  if column < 0 ∨ column ≥ (Cols : Int) then (board, .error "invalid column")
  else MakeMove.loop board column.toNat player Rows

/-- The inner loop `for i := 1; i < WinLength; i++` of each scan of `CheckWinner`:
`win` stays true when every one of the three further cells holds `player`. -/
def lineWin (cell : Nat → Player) (player : Player) : Bool :=
  (List.range' 1 (WinLength - 1)).all (fun i => decide (cell i = player))

/-- Body of the two nested loops of a scan at the start cell `(row, col)`:
`some player` when the scan returns `player, false` there. -/
def winAt (board : Board) (row col : Nat) (cell : Nat → Player) : Option Player :=
  let player := board.get row col
  if player ≠ Empty then
    if lineWin cell player then some player else none
  else none

/-- First loop nest of `CheckWinner`: rows, cells `board[row][col+i]`. -/
def scanHorizontal (board : Board) : Option Player :=
  (List.range Rows).findSome? fun row =>
    (List.range (Cols - WinLength + 1)).findSome? fun col =>
      winAt board row col (fun i => board.get row (col + i))

/-- Second loop nest of `CheckWinner`: columns, cells `board[row+i][col]`. -/
def scanVertical (board : Board) : Option Player :=
  (List.range Cols).findSome? fun col =>
    (List.range (Rows - WinLength + 1)).findSome? fun row =>
      winAt board row col (fun i => board.get (row + i) col)

/-- Third loop nest of `CheckWinner`: cells `board[row+i][col+i]`. -/
def scanDiagDown (board : Board) : Option Player :=
  (List.range (Rows - WinLength + 1)).findSome? fun row =>
    (List.range (Cols - WinLength + 1)).findSome? fun col =>
      winAt board row col (fun i => board.get (row + i) (col + i))

/-- Fourth loop nest of `CheckWinner`: `col` runs from `WinLength - 1` to `Cols - 1`,
cells `board[row+i][col-i]`. -/
def scanDiagUp (board : Board) : Option Player :=
  (List.range (Rows - WinLength + 1)).findSome? fun row =>
    (List.range' (WinLength - 1) (Cols - (WinLength - 1))).findSome? fun col =>
      winAt board row col (fun i => board.get (row + i) (col - i))

/-- The loop computing `isFull` in `CheckWinner`: no cell of row 0 is `Empty`. -/
def topRowFull (board : Board) : Bool :=
  (List.range Cols).all (fun col => decide (board.get 0 col ≠ Empty))

/-- Go: `CheckWinner(board *Board) (Player, bool)`. -/
def CheckWinner (board : Board) : Player × Bool :=
  match scanHorizontal board with
  | some player => (player, false)
  | none =>
    match scanVertical board with
    | some player => (player, false)
    | none =>
      match scanDiagDown board with
      | some player => (player, false)
      | none =>
        match scanDiagUp board with
        | some player => (player, false)
        | none => if topRowFull board then (Empty, true) else (Empty, false)

/-- Go: `IsValidMove(board *Board, column int) bool`. -/
def IsValidMove (board : Board) (column : Int) : Bool :=
  if column < 0 ∨ column ≥ (Cols : Int) then false
  else decide (board.get 0 column.toNat = Empty)

/-- Go: `GetValidColumns(board *Board) []int`. -/
def GetValidColumns (board : Board) : List Int :=
  ((List.range Cols).filter (fun col => decide (board.get 0 col = Empty))).map Int.ofNat

/-! ## Four-in-a-row, stated on the board (the words of the specification) -/

/-- Four contiguous cells of some row hold `p`. -/
def HasRowLine (b : Board) (p : Player) : Prop :=
  ∃ r, r < Rows ∧ ∃ c, c < Cols ∧ c + WinLength ≤ Cols ∧
    ∀ i, i < WinLength → b.get r (c + i) = p

/-- Four contiguous cells of some column hold `p`. -/
def HasColLine (b : Board) (p : Player) : Prop :=
  ∃ r, r < Rows ∧ ∃ c, c < Cols ∧ r + WinLength ≤ Rows ∧
    ∀ i, i < WinLength → b.get (r + i) c = p

/-- Four contiguous cells of some down-right diagonal hold `p`. -/
def HasDiagDownRightLine (b : Board) (p : Player) : Prop :=
  ∃ r, r < Rows ∧ ∃ c, c < Cols ∧ r + WinLength ≤ Rows ∧ c + WinLength ≤ Cols ∧
    ∀ i, i < WinLength → b.get (r + i) (c + i) = p

/-- Four contiguous cells of some down-left diagonal hold `p`. -/
def HasDiagDownLeftLine (b : Board) (p : Player) : Prop :=
  ∃ r, r < Rows ∧ ∃ c, c < Cols ∧ r + WinLength ≤ Rows ∧ WinLength ≤ c + 1 ∧
    ∀ i, i < WinLength → b.get (r + i) (c - i) = p

/-- The side `p` (not `Empty`) owns four contiguous cells in a row, a column or a
diagonal of `b`. -/
def FourInRow (b : Board) (p : Player) : Prop :=
  p ≠ Empty ∧
    (HasRowLine b p ∨ HasColLine b p ∨ HasDiagDownRightLine b p ∨ HasDiagDownLeftLine b p)

/-- Some side has four in a row on `b`. -/
def AnyFourInRow (b : Board) : Prop := ∃ p, FourInRow b p

/-! ## Boards and histories reachable by play -/

/-- Number of pieces (moves of a side other than `Empty`) that the history `ms` put into
column `c`. -/
def piecesIn (ms : List Move) (c : Int) : Nat :=
  (ms.filter (fun m => decide (m.Column = c ∧ m.Player ≠ Empty))).length

/-- The board `b` is what the empty board becomes after the successful `MakeMove` calls
whose returned moves are `ms`, in that order. -/
inductive Plays : List Move → Board → Prop
  | nil : Plays [] CreateBoard
  | snoc {ms : List Move} {b : Board} (c : Int) (p : Player) (m : Move) :
      Plays ms b → (MakeMove b c p).2 = .ok m → Plays (ms ++ [m]) (MakeMove b c p).1

/-- The board is built from the empty board by successful `MakeMove` calls. -/
def Reachable (b : Board) : Prop := ∃ ms, Plays ms b

/-- No floating pieces: below an occupied cell every cell of the column is occupied. -/
def NoFloating (b : Board) : Prop :=
  ∀ r c, r < Rows → c < Cols → b.get r c ≠ Empty →
    ∀ r', r < r' → r' < Rows → b.get r' c ≠ Empty

/-- Columns of a played board are filled from the bottom: a cell of column `c` is
occupied exactly when it is one of the lowest `piecesIn ms c` cells. -/
def FilledFromBottom (ms : List Move) (b : Board) : Prop :=
  ∀ r c, r < Rows → c < Cols → (b.get r c ≠ Empty ↔ Rows ≤ r + piecesIn ms (c : Int))

instance (b : Board) (p : Player) : Decidable (HasRowLine b p) := by
  unfold HasRowLine; infer_instance

instance (b : Board) (p : Player) : Decidable (HasColLine b p) := by
  unfold HasColLine; infer_instance

instance (b : Board) (p : Player) : Decidable (HasDiagDownRightLine b p) := by
  unfold HasDiagDownRightLine; infer_instance

instance (b : Board) (p : Player) : Decidable (HasDiagDownLeftLine b p) := by
  unfold HasDiagDownLeftLine; infer_instance

instance (b : Board) (p : Player) : Decidable (FourInRow b p) := by
  unfold FourInRow; infer_instance

/-! ## bot/bot.go -/

/-- Go: `const BotUsername = "AI Bot"`. -/
def BotUsername : String := "AI Bot"

/-- Go: `findWinningMove(board *Board, player Player) int`. Each candidate column is tried
on `testBoard := *board`, a copy; `-1` when no column wins. -/
def findWinningMove (board : Board) (player : Player) : Int :=
  match (GetValidColumns board).find? (fun col =>
      let testBoard := MakeMove board col player
      match testBoard.2 with
      | .error _ => false
      | .ok _ => decide ((CheckWinner testBoard.1).1 = player)) with
  | some col => col
  | none => -1

/-- The inner loop `for i := 1; i < 4; i++` of `evaluateLine` for one direction `dir`;
`fuel` is the number of iterations left, `(count, empty)` the two counters. -/
def evaluateLine.walk (board : Board) (row col dRow dCol : Int) (player : Player) (dir : Int) :
    Nat → Int → Nat × Nat → Nat × Nat
  | 0, _, acc => acc
  | fuel + 1, i, (count, empty) =>
    let r := row + dRow * i * dir
    let c := col + dCol * i * dir
    if r < 0 ∨ r ≥ (Rows : Int) ∨ c < 0 ∨ c ≥ (Cols : Int) then (count, empty)
    else
      let cell := board.get r.toNat c.toNat
      if cell = player then evaluateLine.walk board row col dRow dCol player dir fuel (i + 1) (count + 1, empty)
      else if cell = Empty then (count, empty + 1)
      else (count, empty)

/-- Go: `evaluateLine(board, row, col, dRow, dCol, player) float64`. The results are the
whole numbers `count*10`, `count*5` and `count`, which `float64` holds exactly. -/
def evaluateLine (board : Board) (row col dRow dCol : Int) (player : Player) : Int :=
  let acc1 := evaluateLine.walk board row col dRow dCol player (-1) 3 1 (0, 0)
  let acc2 := evaluateLine.walk board row col dRow dCol player 1 3 1 acc1
  let count := acc2.1
  let empty := acc2.2
  if count ≥ 2 ∧ empty ≥ 1 then ((count * 10 : Nat) : Int)
  else if count ≥ 1 ∧ empty ≥ 2 then ((count * 5 : Nat) : Int)
  else (count : Int)

/-- Go: `evaluateColumn(board, column, player) float64`; `none` is `math.Inf(-1)`. -/
def evaluateColumn (board : Board) (column : Int) (player : Player) : Option Int :=
  let testBoard := MakeMove board column player
  match testBoard.2 with
  | .error _ => none
  | .ok move =>
    let row := move.Row
    some (evaluateLine testBoard.1 row column 0 1 player
      + evaluateLine testBoard.1 row column 1 0 player
      + evaluateLine testBoard.1 row column 1 1 player
      + evaluateLine testBoard.1 row column 1 (-1) player)

/-- The comparison `score > bestScore` on `float64` scores, `none` being `-Inf`. -/
def scoreGt : Option Int → Option Int → Bool
  | some a, some b => decide (a > b)
  | some _, none => true
  | none, _ => false

/-- Go: `findStrategicMove(board, player) int`; the loop state is `(bestScore, bestCol)`. -/
def findStrategicMove (board : Board) (player : Player) : Int :=
  ((GetValidColumns board).foldl (fun (best : Option Int × Int) col =>
      let score := evaluateColumn board col player
      if scoreGt score best.1 then (score, col) else best) (none, -1)).2

/-- Go: `SelectBotMove(board *Board, botPlayer Player) int`. `rand` is the value drawn by
`math/rand`, so `rand.Intn(n)` is `rand % n`; the result is `none` where Go stops with a
run-time error (`rand.Intn(0)` when no column is valid). -/
def SelectBotMove (board : Board) (botPlayer : Player) (rand : Nat) : Option Int :=
  let opponent := if botPlayer = Player1 then Player2 else Player1
  let winningMove := findWinningMove board botPlayer
  if winningMove ≠ -1 then some winningMove
  else
    let blockingMove := findWinningMove board opponent
    if blockingMove ≠ -1 then some blockingMove
    else
      let strategicMove := findStrategicMove board botPlayer
      if strategicMove ≠ -1 then some strategicMove
      else
        let validCols := GetValidColumns board
        let centerCols := validCols.filter (fun col => decide (col ≥ 2 ∧ col ≤ 4))
        if centerCols.length > 0 then centerCols[rand % centerCols.length]?
        else if validCols.length = 0 then none
        else validCols[rand % validCols.length]?

/-! ## Object memories

Go pointers (`*ClientConnection`, `*GameState`, `*Client`) are addresses into the three
object memories of `World`; writing through a pointer updates the memory at that address.
Go maps with string keys are functions into `Option`. -/

/-- An address of an object. -/
abbrev Ptr := Nat

/-- The memory `mem` after the object at address `p` became `v`. -/
def setObj {α : Type} (mem : Ptr → α) (p : Ptr) (v : α) : Ptr → α :=
  fun q => if q = p then v else mem q

/-- Go: `m[k] = v` on a map with string keys. -/
def mapSet {β : Type} (m : String → Option β) (k : String) (v : β) : String → Option β :=
  fun x => if x = k then some v else m x

/-- Go: `delete(m, k)` on a map with string keys. -/
def mapDelete {β : Type} (m : String → Option β) (k : String) : String → Option β :=
  fun x => if x = k then none else m x

/-- The JSON messages written to a connection, by their `type` field. -/
inductive Message where
  | waiting (message : String)
  | gameStart (gameId player1 player2 : String) (yourTurn : Bool)
  | move (row column : Int) (player : Player)
  | gameOver (winner : String) (reason : Option String)
  | error (error : String)
  deriving DecidableEq, Repr

/-! ## matchmaking/matchmaking.go -/

/-- Go: `type ClientConnection struct`. -/
structure ClientConnection where
  ID : String
  Username : String
  GameID : String
  PlayerNumber : Player
  deriving DecidableEq, Repr

/-- Go: `type Matchmaker struct`: the waiting queue (`[]*ClientConnection`), the registry
`games` (`map[string]*GameState`) and the index `playerToGame` (`map[string]string`). The
mutex, the two durations and the callback field are left out. -/
structure Matchmaker where
  waitingPlayers : List Ptr
  games : String → Option Ptr
  playerToGame : String → Option String

/-- Go: `type Client struct` of the hub. `Send` holds the content of the buffered channel,
oldest message first; the transport handle and the timestamp are left out. -/
structure Client where
  ID : String
  Send : List Message
  Username : String
  GameID : String
  PlayerNumber : Player
  Disconnected : Bool
  deriving DecidableEq, Repr

/-- A goroutine that waits: one started with `go` whose body runs later, or
(`blockedSend`) a caller that waits in the blocking send `client.Send <- msg` because the
outbound queue of `client` is full. -/
inductive Task where
  | matchTimeout (client : Ptr)
  | gameCreated (gameState : Ptr)
  | disconnectTimeout (client : Ptr)
  | blockedSend (client : Ptr) (msg : Message)
  deriving DecidableEq, Repr

/-- The state of the server: the three object memories, the next unused `GameState`
address, the key set of `Hub.clients`, the matchmaker, and the goroutines started so far.
The `onGameEvent` calls to the external event log are not part of the state.
`nextClient` and `nextConn` are the next unused `Client` and `ClientConnection` addresses;
`sendClosed p` says that the channel `Send` of the connection at `p` was closed (a
connection is closed in the critical section in which it leaves `clients`). -/
structure World where
  clientObj : Ptr → Client
  connObj : Ptr → ClientConnection
  gameObj : Ptr → GameState
  nextGame : Ptr
  clients : Ptr → Bool
  matchmaker : Matchmaker
  tasks : List Task
  nextClient : Ptr := 0
  nextConn : Ptr := 0
  sendClosed : Ptr → Bool := fun _ => false

/-- Go: `Matchmaker.createGame(player1, player2 *ClientConnection) *GameState`;
`gameID` is the value of `uuid.New().String()`. -/
def createGame (w : World) (player1 player2 : Ptr) (gameID : String) : World × Ptr :=
  let g := w.nextGame
  let gameState : GameState :=
    { ID := gameID
      Player1 := (w.connObj player1).Username
      Player2 := (w.connObj player2).Username
      Board := CreateBoard
      CurrentTurn := Player1
      Winner := ""
      IsFinished := false }
  let games := mapSet w.matchmaker.games gameID g
  let c1 := { w.connObj player1 with GameID := gameID, PlayerNumber := Player1 }
  let conn1 := setObj w.connObj player1 c1
  let c2 := { conn1 player2 with GameID := gameID, PlayerNumber := Player2 }
  let conn2 := setObj conn1 player2 c2
  let index1 := mapSet w.matchmaker.playerToGame (conn2 player1).Username gameID
  let index2 := mapSet index1 (conn2 player2).Username gameID
  let newWaiting := w.matchmaker.waitingPlayers.filter (fun p =>
    decide ((conn2 p).ID ≠ (conn2 player1).ID ∧ (conn2 p).ID ≠ (conn2 player2).ID))
  ({ w with
      gameObj := setObj w.gameObj g gameState
      nextGame := g + 1
      connObj := conn2
      matchmaker := { waitingPlayers := newWaiting, games := games, playerToGame := index2 } },
    g)

/-- Go: `Matchmaker.createGameWithBot(player *ClientConnection) *GameState`. -/
def createGameWithBot (w : World) (player : Ptr) (gameID : String) : World × Ptr :=
  let g := w.nextGame
  let gameState : GameState :=
    { ID := gameID
      Player1 := (w.connObj player).Username
      Player2 := BotUsername
      Board := CreateBoard
      CurrentTurn := Player1
      Winner := ""
      IsFinished := false }
  let games := mapSet w.matchmaker.games gameID g
  let c1 := { w.connObj player with GameID := gameID, PlayerNumber := Player1 }
  let conn1 := setObj w.connObj player c1
  let index1 := mapSet w.matchmaker.playerToGame (conn1 player).Username gameID
  let newWaiting := w.matchmaker.waitingPlayers.filter (fun p =>
    decide ((conn1 p).ID ≠ (conn1 player).ID))
  ({ w with
      gameObj := setObj w.gameObj g gameState
      nextGame := g + 1
      connObj := conn1
      matchmaker := { waitingPlayers := newWaiting, games := games, playerToGame := index1 } },
    g)

/-- The scan of `tryMatch` for `otherPlayer`: the first queue entry with another
connection ID and no assigned game. -/
def findOtherPlayer (w : World) (client : Ptr) : Option Ptr :=
  w.matchmaker.waitingPlayers.find? (fun p =>
    decide ((w.connObj p).ID ≠ (w.connObj client).ID ∧ (w.connObj p).GameID = ""))

/-- Go: `Matchmaker.tryMatch(client *ClientConnection)`, one critical section. The
callback `onGameCreated` (installed by `NewHub`) and the timeout run in goroutines of their
own and are recorded in `tasks`. -/
def tryMatch (w : World) (client : Ptr) (gameID : String) : World :=
  match findOtherPlayer w client with
  | some otherPlayer =>
    let r := createGame w client otherPlayer gameID
    { r.1 with tasks := r.1.tasks ++ [Task.gameCreated r.2] }
  | none => { w with tasks := w.tasks ++ [Task.matchTimeout client] }

/-- The body of the goroutine that `tryMatch` starts when nobody is waiting, after its
`time.Sleep`: one critical section. -/
def matchTimeout (w : World) (client : Ptr) (gameID : String) : World :=
  if (w.connObj client).GameID = "" then
    match w.matchmaker.waitingPlayers.find? (fun p =>
        decide ((w.connObj p).ID = (w.connObj client).ID)) with
    | some _ =>
      let r := createGameWithBot w client gameID
      { r.1 with tasks := r.1.tasks ++ [Task.gameCreated r.2] }
    | none => w
  else w

/-- The first critical section of `AddToQueue`: the append to the waiting queue. -/
def enqueue (w : World) (client : Ptr) : World :=
  { w with matchmaker :=
      { w.matchmaker with waitingPlayers := w.matchmaker.waitingPlayers ++ [client] } }

/-- Go: `Matchmaker.AddToQueue(client *ClientConnection)`, run without interleaving. -/
def AddToQueue (w : World) (client : Ptr) (gameID : String) : World :=
  tryMatch (enqueue w client) client gameID

/-- Go: `Matchmaker.GetGame(gameID string) (*GameState, bool)`. -/
def GetGame (w : World) (gameID : String) : Option Ptr :=
  w.matchmaker.games gameID

/-- Go: `Matchmaker.GetGameByPlayer(username string) (*GameState, bool)`. -/
def GetGameByPlayer (w : World) (username : String) : Option Ptr :=
  match w.matchmaker.playerToGame username with
  | none => none
  | some gameID => w.matchmaker.games gameID

/-- Go: `Matchmaker.UpdateGame(gameID string, gameState *GameState)`. -/
def UpdateGame (w : World) (gameID : String) (gameState : Ptr) : World :=
  { w with matchmaker := { w.matchmaker with games := mapSet w.matchmaker.games gameID gameState } }

/-- Go: `Matchmaker.RemoveGame(gameID string)`. -/
def RemoveGame (w : World) (gameID : String) : World :=
  match w.matchmaker.games gameID with
  | some g =>
    let index1 := mapDelete w.matchmaker.playerToGame (w.gameObj g).Player1
    let index2 := mapDelete index1 (w.gameObj g).Player2
    { w with matchmaker :=
        { w.matchmaker with playerToGame := index2, games := mapDelete w.matchmaker.games gameID } }
  | none => w

/-- Go: `Matchmaker.RemoveFromQueue(clientID string)`. -/
def RemoveFromQueue (w : World) (clientID : String) : World :=
  { w with matchmaker :=
      { w.matchmaker with
        waitingPlayers := w.matchmaker.waitingPlayers.filter (fun p =>
          decide ((w.connObj p).ID ≠ clientID)) } }

/-! ## websocket/hub.go -/

/-- Capacity of a connection's outbound queue: `make(chan []byte, 256)` in `ServeWS`. -/
def SendCapacity : Nat := 256

/-- The send `select { case client.Send <- msg: default: }`: the message is queued when
the buffer has room and dropped otherwise. -/
def trySend (c : Client) (msg : Message) : Client :=
  if c.Send.length < SendCapacity then { c with Send := c.Send ++ [msg] } else c

/-- The blocking send `client.Send <- msg` on the channel of capacity `SendCapacity`. With
room in the queue the message is queued and the caller goes on. With a full queue nothing
is queued: the caller waits in the send, which is recorded as `Task.blockedSend`, and goes
on only when the writer of the connection has taken a message out. -/
def sendBlocking (w : World) (client : Ptr) (msg : Message) : World :=
  let c := w.clientObj client
  if c.Send.length < SendCapacity then
    { w with clientObj := setObj w.clientObj client { c with Send := c.Send ++ [msg] } }
  else { w with tasks := w.tasks ++ [Task.blockedSend client msg] }

/-- Go: `Hub.sendError(client *Client, message string)`. -/
def sendError (w : World) (client : Ptr) (message : String) : World :=
  sendBlocking w client (Message.error message)

/-- The loop `for client := range h.clients` of `broadcastMove` and `handleGameEnd`: every
registered connection whose `Username` is one of the two participants gets `msg` by a
non-blocking send. Each turn of the loop touches only its own connection. -/
def sendToParticipants (w : World) (gameState : GameState) (msg : Message) : World :=
  { w with clientObj := fun p =>
      if w.clients p = true ∧
          ((w.clientObj p).Username = gameState.Player1 ∨
            (w.clientObj p).Username = gameState.Player2)
      then trySend (w.clientObj p) msg
      else w.clientObj p }

/-- Go: `Hub.broadcastMove(gameState *GameState, move *Move)`. -/
def broadcastMove (w : World) (gameState : Ptr) (move : Move) : World :=
  sendToParticipants w (w.gameObj gameState) (Message.move move.Row move.Column move.Player)

/-- Go: `Hub.handleGameEnd(gameState *GameState, winner Player, isDraw bool)`. -/
def handleGameEnd (w : World) (gameState : Ptr) (winner : Player) (isDraw : Bool) : World :=
  let gs0 := w.gameObj gameState
  let gs1 := { gs0 with IsFinished := true }
  let gs2 := { gs1 with
    Winner := if isDraw then "Draw" else if winner = Player1 then gs1.Player1 else gs1.Player2 }
  let w1 := { w with gameObj := setObj w.gameObj gameState gs2 }
  let w2 := UpdateGame w1 gs2.ID gameState
  sendToParticipants w2 gs2 (Message.gameOver gs2.Winner none)

/-- Go: `Hub.handleBotMove(gameState *GameState)`. The result is `none` where Go stops with
a run-time error: in `SelectBotMove`, or in `broadcastMove` reading the fields of a `nil`
move after a failed `MakeMove`. -/
def handleBotMove (w : World) (gameState : Ptr) (rand : Nat) : Option World :=
  match SelectBotMove (w.gameObj gameState).Board Player2 rand with
  | none => none
  | some botColumn =>
    let r := MakeMove (w.gameObj gameState).Board botColumn Player2
    let gs1 := { w.gameObj gameState with Board := r.1 }
    let gs2 := { gs1 with CurrentTurn := Player1 }
    let w1 := { w with gameObj := setObj w.gameObj gameState gs2 }
    let w2 := UpdateGame w1 gs2.ID gameState
    match r.2 with
    | .error _ => none
    | .ok move =>
      let w3 := broadcastMove w2 gameState move
      let result := CheckWinner (w3.gameObj gameState).Board
      if result.1 ≠ Empty ∨ result.2 = true then
        some (handleGameEnd w3 gameState result.1 result.2)
      else some w3

/-- The side `HandleMove` computes for the display name `username` in `gameState`. -/
def playerNumberOf (gameState : GameState) (username : String) : Player :=
  if gameState.Player1 = username then Player1
  else if gameState.Player2 = username then Player2
  else Player1

/-- Go: `Hub.HandleMove(client *Client, column int)`, run without another call in between;
`rand` is the random value the automated opponent may draw. The result is `none` where Go
stops with a run-time error; where the call waits in a blocking send on a full queue, the
result is the state with that send recorded in `tasks`. -/
def HandleMove (w : World) (client : Ptr) (column : Int) (rand : Nat) : Option World :=
  match GetGameByPlayer w (w.clientObj client).Username with
  | none => some (sendError w client "No active game found")
  | some gameState =>
    if (w.gameObj gameState).IsFinished = true then
      some (sendError w client "Game is already finished")
    else
      let playerNumber := playerNumberOf (w.gameObj gameState) (w.clientObj client).Username
      if (w.gameObj gameState).CurrentTurn ≠ playerNumber then
        some (sendError w client "Not your turn")
      else
        let r := MakeMove (w.gameObj gameState).Board column playerNumber
        let gs1 := { w.gameObj gameState with Board := r.1 }
        let w1 := { w with gameObj := setObj w.gameObj gameState gs1 }
        match r.2 with
        | .error err => some (sendError w1 client err)
        | .ok move =>
          let gs2 := { w1.gameObj gameState with
            CurrentTurn := if playerNumber = Player1 then Player2 else Player1 }
          let w2 := { w1 with gameObj := setObj w1.gameObj gameState gs2 }
          let w3 := UpdateGame w2 gs2.ID gameState
          let w4 := broadcastMove w3 gameState move
          let result := CheckWinner (w4.gameObj gameState).Board
          if result.1 ≠ Empty ∨ result.2 = true then
            some (handleGameEnd w4 gameState result.1 result.2)
          else if (w4.gameObj gameState).Player2 = BotUsername ∧
              (w4.gameObj gameState).CurrentTurn = Player2 then
            handleBotMove w4 gameState rand
          else some w4


/-! ## The sections of `HandleMove`

`HandleMove` holds no lock from its first check to the end: the calls of two connections
(each runs in the `ReadPump` goroutine of its connection) can overlap. Each section below
is a run of consecutive statements of one call; between two sections of a call, sections
of other calls may run. -/

/-- How the checks of a `HandleMove` call end: with an error message (`rejected`, the
state after `sendError`), or passed, with the local variables `gameState` and
`playerNumber` of the call. -/
inductive Checked where
  | rejected (w : World)
  | passed (gameState : Ptr) (playerNumber : Player)

/-- Go: `Hub.HandleMove`, the statements up to the turn check: the lookup of the game, the
test of the finished flag, the side of the caller and the test of the side to move. -/
def HandleMove.checks (w : World) (client : Ptr) : Checked :=
  match GetGameByPlayer w (w.clientObj client).Username with
  | none => Checked.rejected (sendError w client "No active game found")
  | some gameState =>
    if (w.gameObj gameState).IsFinished = true then
      Checked.rejected (sendError w client "Game is already finished")
    else
      let playerNumber := playerNumberOf (w.gameObj gameState) (w.clientObj client).Username
      if (w.gameObj gameState).CurrentTurn ≠ playerNumber then
        Checked.rejected (sendError w client "Not your turn")
      else Checked.passed gameState playerNumber

/-- Go: `Hub.HandleMove`, the statements from `game.MakeMove` to `h.broadcastMove`, for a
call whose checks passed: the move on the board, then either the error message (no move is
returned) or the switch of the side to move, `UpdateGame` and the broadcast of the move. -/
def HandleMove.apply (w : World) (client : Ptr) (column : Int) (gameState : Ptr)
    (playerNumber : Player) : World × Option Move :=
  let r := MakeMove (w.gameObj gameState).Board column playerNumber
  let gs1 := { w.gameObj gameState with Board := r.1 }
  let w1 := { w with gameObj := setObj w.gameObj gameState gs1 }
  match r.2 with
  | .error err => (sendError w1 client err, none)
  | .ok move =>
    let gs2 := { w1.gameObj gameState with
      CurrentTurn := if playerNumber = Player1 then Player2 else Player1 }
    let w2 := { w1 with gameObj := setObj w1.gameObj gameState gs2 }
    let w3 := UpdateGame w2 gs2.ID gameState
    (broadcastMove w3 gameState move, some move)

/-- Go: `Hub.HandleMove`, the statements from `game.CheckWinner` to the end, for a call
whose move was made: the end of the game, or the move of the automated opponent. -/
def HandleMove.resolve (w : World) (gameState : Ptr) (rand : Nat) : Option World :=
  let result := CheckWinner (w.gameObj gameState).Board
  if result.1 ≠ Empty ∨ result.2 = true then
    some (handleGameEnd w gameState result.1 result.2)
  else if (w.gameObj gameState).Player2 = BotUsername ∧
      (w.gameObj gameState).CurrentTurn = Player2 then
    handleBotMove w gameState rand
  else some w

/-- The three sections of a `HandleMove` call, one after the other with nothing in
between. -/
def HandleMove.sections (w : World) (client : Ptr) (column : Int) (rand : Nat) : Option World :=
  match HandleMove.checks w client with
  | Checked.rejected w' => some w'
  | Checked.passed gameState playerNumber =>
    match HandleMove.apply w client column gameState playerNumber with
    | (w', none) => some w'
    | (w', some _) => HandleMove.resolve w' gameState rand

/-! ## Words of the specification about the hub -/

/-- The side `side` belongs to the display name `username` in `gameState`. -/
def IsSideOf (gameState : GameState) (username : String) (side : Player) : Prop :=
  (side = Player1 ∧ gameState.Player1 = username) ∨
    (side = Player2 ∧ gameState.Player2 = username)

/-- The five caller-input errors of `HandleMove`, by the state in which the call is made:
`Rejected w client column e` when the call is answered with the error text `e`. -/
inductive Rejected (w : World) (client : Ptr) (column : Int) : String → Prop
  | noActiveGame :
      GetGameByPlayer w (w.clientObj client).Username = none →
      Rejected w client column "No active game found"
  | alreadyFinished (g : Ptr) :
      GetGameByPlayer w (w.clientObj client).Username = some g →
      (w.gameObj g).IsFinished = true →
      Rejected w client column "Game is already finished"
  | notYourTurn (g : Ptr) :
      GetGameByPlayer w (w.clientObj client).Username = some g →
      (w.gameObj g).IsFinished = false →
      (w.gameObj g).CurrentTurn ≠ playerNumberOf (w.gameObj g) (w.clientObj client).Username →
      Rejected w client column "Not your turn"
  | invalidColumn (g : Ptr) :
      GetGameByPlayer w (w.clientObj client).Username = some g →
      (w.gameObj g).IsFinished = false →
      (w.gameObj g).CurrentTurn = playerNumberOf (w.gameObj g) (w.clientObj client).Username →
      (column < 0 ∨ column ≥ 7) →
      Rejected w client column "invalid column"
  | columnFull (g : Ptr) :
      GetGameByPlayer w (w.clientObj client).Username = some g →
      (w.gameObj g).IsFinished = false →
      (w.gameObj g).CurrentTurn = playerNumberOf (w.gameObj g) (w.clientObj client).Username →
      (0 ≤ column ∧ column < 7) →
      (∀ r, r < Rows → (w.gameObj g).Board.get r column.toNat ≠ Empty) →
      Rejected w client column "column is full"

/-- The state in `HandleMove` right after an accepted move `m` of side `p` was applied to
the game at `g` (board `b1`), the turn was switched, the game was stored with `UpdateGame`
and the move was broadcast; the check for a winner comes next. -/
def movedWorld (w : World) (g : Ptr) (b1 : Board) (p : Player) (m : Move) : World :=
  let gs2 : GameState :=
    { w.gameObj g with Board := b1, CurrentTurn := if p = Player1 then Player2 else Player1 }
  broadcastMove (UpdateGame { w with gameObj := setObj w.gameObj g gs2 } gs2.ID g) g m

/-- The state in `handleBotMove` right after the move `m` of the automated opponent was
applied to the game at `g` (board `b2`), the turn went back to side 1, the game was stored
and the move was broadcast. -/
def botMovedWorld (w : World) (g : Ptr) (b2 : Board) (m : Move) : World :=
  let gs2 : GameState := { w.gameObj g with Board := b2, CurrentTurn := Player1 }
  broadcastMove (UpdateGame { w with gameObj := setObj w.gameObj g gs2 } gs2.ID g) g m

/-- Every cell of the top row (row 0) is occupied. -/
def TopRowFilled (b : Board) : Prop := ∀ c, c < Cols → b.get 0 c ≠ Empty

/-- A game as `createGame` and `createGameWithBot` make it: empty board, side 1 to move,
not finished, no winner. -/
def IsFreshGame (gs : GameState) : Prop :=
  gs.Board = CreateBoard ∧ gs.CurrentTurn = Player1 ∧ gs.IsFinished = false ∧ gs.Winner = ""

/-- The state `w` comes from a state in which the game at `g` was fresh by calls of
`HandleMove` only (by any connections, with any columns), each call run to its end before
the next starts. Runs in which two calls overlap are not of this form; they are the runs
of `runCallSteps`. -/
inductive PlayedByHandleMove (g : Ptr) : World → Prop
  | start {w : World} : IsFreshGame (w.gameObj g) → PlayedByHandleMove g w
  | move {w w' : World} (client : Ptr) (column : Int) (rand : Nat) :
      PlayedByHandleMove g w → HandleMove w client column rand = some w' →
      PlayedByHandleMove g w'

/-- While a game is unfinished its board has no four in a row and its winner is unset. -/
def UnfinishedGameOpen (gs : GameState) : Prop :=
  gs.IsFinished = false → (¬ AnyFourInRow gs.Board) ∧ gs.Winner = ""

/-- The automated opponent replies inside the same `HandleMove` call: the second
participant is the automated opponent and the mover was side 1. -/
def BotReplies (gs : GameState) (mover : Player) : Prop :=
  gs.Player2 = BotUsername ∧ mover = Player1

/-- A run of `HandleMove` calls, one after the other, each by `(client, column)`; `none`
when one of them stops with a run-time error. -/
def playMoves (w : World) (rand : Nat) : List (Ptr × Int) → Option World
  | [] => some w
  | (client, column) :: rest =>
    match HandleMove w client column rand with
    | none => none
    | some w' => playMoves w' rand rest

/-- A state with one fresh game "g" between "alice" (connection 0, side 1) and "bob"
(connection 1, side 2), both registered. -/
def scenarioStart : World :=
  { clientObj := fun p =>
      { ID := if p = 0 then "c1" else "c2"
        Send := []
        Username := if p = 0 then "alice" else "bob"
        GameID := ""
        PlayerNumber := Empty
        Disconnected := false }
    connObj := fun _ => { ID := "", Username := "", GameID := "", PlayerNumber := Empty }
    gameObj := fun _ =>
      { ID := "g", Player1 := "alice", Player2 := "bob", Board := CreateBoard,
        CurrentTurn := Player1, Winner := "", IsFinished := false }
    nextGame := 1
    clients := fun p => decide (p < 2)
    matchmaker :=
      { waitingPlayers := []
        games := fun k => if k = "g" then some 0 else none
        playerToGame := fun u => if u = "alice" ∨ u = "bob" then some "g" else none }
    tasks := [] }

/-- The scenario of the specification after six moves: side 1 played column 0 three times,
side 2 column 6 three times, in turns. -/
def scenarioAfterSix : World :=
  (playMoves scenarioStart 0 [(0, 0), (1, 6), (0, 0), (1, 6), (0, 0), (1, 6)]).getD scenarioStart

/-- A state with an empty waiting queue and three `ClientConnection` objects: the objects
at 0 and 1 are two joins of one connection (ID "a", display name "alice"), the object at 2
is a join of another connection (ID "b", display name "bob"). -/
def doubleJoinStart : World :=
  { clientObj := fun _ =>
      { ID := "", Send := [], Username := "", GameID := "", PlayerNumber := Empty,
        Disconnected := false }
    connObj := fun p =>
      { ID := if p = 2 then "b" else "a"
        Username := if p = 2 then "bob" else "alice"
        GameID := ""
        PlayerNumber := Empty }
    gameObj := fun _ =>
      { ID := "", Player1 := "", Player2 := "", Board := CreateBoard,
        CurrentTurn := Empty, Winner := "", IsFinished := false }
    nextGame := 0
    clients := fun _ => false
    matchmaker :=
      { waitingPlayers := []
        games := fun _ => none
        playerToGame := fun _ => none }
    tasks := [] }

/-- The state after the connection "a" joined twice: both joins wait in the queue. -/
def doubleJoinQueued : World :=
  AddToQueue (AddToQueue doubleJoinStart 0 "u0") 1 "u1"

/-- A board after three moves of each side: side 2 holds the cells 0, 1, 2 of the bottom
row, side 1 the cells 5 and 6 of the bottom row and the cell above cell 6. -/
def threeInRowBoard : Board := fun r c =>
  if r.val = 5 ∧ c.val < 3 then Player2
  else if (r.val = 5 ∧ c.val ≥ 5) ∨ (r.val = 4 ∧ c.val = 6) then Player1
  else Empty

/-- Number of cells of the board that hold `p`. -/
def countPieces (b : Board) (p : Player) : Nat :=
  (Finset.univ.filter (fun rc : Fin Rows × Fin Cols => b rc.1 rc.2 = p)).card

/-- In a game against the automated opponent it is the turn of side 1 while the game is
unfinished. -/
def BotGameTurn (gs : GameState) : Prop :=
  gs.Player2 = BotUsername → gs.IsFinished = false → gs.CurrentTurn = Player1

/-- A state with one fresh game "g" between "alice" (connection 0, side 1) and the
automated opponent (side 2). -/
def botScenarioStart : World :=
  { scenarioStart with
    gameObj := fun _ =>
      { ID := "g", Player1 := "alice", Player2 := BotUsername, Board := CreateBoard,
        CurrentTurn := Player1, Winner := "", IsFinished := false } }

/-- The four critical sections of two `AddToQueue` calls, for the connections A and B. -/
inductive EnqueueStep where
  | appendA
  | appendB
  | tryMatchA
  | tryMatchB
  deriving DecidableEq, Repr

/-- One critical section; `gA` and `gB` are the game IDs the two `tryMatch` calls draw. -/
def runEnqueueStep (A B : Ptr) (gA gB : String) (w : World) : EnqueueStep → World
  | .appendA => enqueue w A
  | .appendB => enqueue w B
  | .tryMatchA => tryMatch w A gA
  | .tryMatchB => tryMatch w B gB

/-- The critical sections of a schedule, one after the other. -/
def runEnqueueSteps (A B : Ptr) (gA gB : String) (w : World) (l : List EnqueueStep) : World :=
  l.foldl (runEnqueueStep A B gA gB) w

/-- An interleaving of the two `AddToQueue` calls: each of the four critical sections once,
the append of a call before its own `tryMatch`. -/
def IsInterleaving (l : List EnqueueStep) : Prop :=
  l.Perm [EnqueueStep.appendA, EnqueueStep.tryMatchA, EnqueueStep.appendB,
    EnqueueStep.tryMatchB] ∧
  l.indexOf EnqueueStep.appendA < l.indexOf EnqueueStep.tryMatchA ∧
  l.indexOf EnqueueStep.appendB < l.indexOf EnqueueStep.tryMatchB

/-- The firing of every matchmaking timeout that was armed, in the order of arming;
`timerID c` is the game ID the timeout of `c` draws if it makes a game. -/
def fireTimeouts (w : World) (timerID : Ptr → String) : World :=
  w.tasks.foldl (fun acc t =>
    match t with
    | Task.matchTimeout c => matchTimeout acc c (timerID c)
    | _ => acc) w

/-- Two connections were paired with each other exactly once: from `w0` to `w` one game
object was made, it is a fresh game between `X` (side 1) and `Y` (side 2) stored under
`gid`, nothing else changed in the registry or among the game objects, the queue is empty
and both connections carry the game ID. -/
def PairedOnce (w0 w : World) (X Y : Ptr) (gid : String) : Prop :=
  w.gameObj w0.nextGame =
    { ID := gid
      Player1 := (w0.connObj X).Username
      Player2 := (w0.connObj Y).Username
      Board := CreateBoard
      CurrentTurn := Player1
      Winner := ""
      IsFinished := false } ∧
  (∀ p, p ≠ w0.nextGame → w.gameObj p = w0.gameObj p) ∧
  w.nextGame = w0.nextGame + 1 ∧
  w.matchmaker.games = mapSet w0.matchmaker.games gid w0.nextGame ∧
  w.matchmaker.waitingPlayers = [] ∧
  (w.connObj X).GameID = gid ∧ (w.connObj Y).GameID = gid

/-! ## bot/bot.go with the arrays as state

The functions of bot.go get the board of the game through the pointer `board` and try
moves on `testBoard := *board`. Here the two arrays are the state, and every statement
names the array it reads or writes. -/

/-- The array behind the parameter `board` and the local array `testBoard`. -/
structure BotFrame where
  board : Board
  testBoard : Board

/-- Go: `testBoard := *board`. -/
def BotFrame.copyBoard (σ : BotFrame) : BotFrame :=
  { σ with testBoard := σ.board }

/-- Go: `game.MakeMove(&testBoard, col, player)`: the write goes to `testBoard`. -/
def BotFrame.makeMoveOnTest (σ : BotFrame) (col : Int) (player : Player) :
    BotFrame × Except String Move :=
  let r := MakeMove σ.testBoard col player
  ({ σ with testBoard := r.1 }, r.2)

/-- The loop of `findWinningMove` over the valid columns, on the two arrays. -/
def findWinningMove.run (player : Player) : List Int → BotFrame → BotFrame × Int
  | [], σ => (σ, -1)
  | col :: rest, σ =>
    let r := σ.copyBoard.makeMoveOnTest col player
    match r.2 with
    | .error _ => findWinningMove.run player rest r.1
    | .ok _ =>
      if (CheckWinner r.1.testBoard).1 = player then (r.1, col)
      else findWinningMove.run player rest r.1

/-- Go: `findWinningMove(board, player)`, with the arrays after the call. -/
def findWinningMove.onFrame (σ : BotFrame) (player : Player) : BotFrame × Int :=
  findWinningMove.run player (GetValidColumns σ.board) σ

/-- Go: `evaluateColumn(board, column, player)`, with the arrays after the call. -/
def evaluateColumn.onFrame (σ : BotFrame) (column : Int) (player : Player) :
    BotFrame × Option Int :=
  let r := σ.copyBoard.makeMoveOnTest column player
  match r.2 with
  | .error _ => (r.1, none)
  | .ok move =>
    let row := move.Row
    (r.1, some (evaluateLine r.1.testBoard row column 0 1 player
      + evaluateLine r.1.testBoard row column 1 0 player
      + evaluateLine r.1.testBoard row column 1 1 player
      + evaluateLine r.1.testBoard row column 1 (-1) player))

/-- The loop of `findStrategicMove`, on the two arrays; `best` is `(bestScore, bestCol)`. -/
def findStrategicMove.run (player : Player) :
    List Int → BotFrame → Option Int × Int → BotFrame × Int
  | [], σ, best => (σ, best.2)
  | col :: rest, σ, best =>
    let r := evaluateColumn.onFrame σ col player
    if scoreGt r.2 best.1 then findStrategicMove.run player rest r.1 (r.2, col)
    else findStrategicMove.run player rest r.1 best

/-- Go: `findStrategicMove(board, player)`, with the arrays after the call. -/
def findStrategicMove.onFrame (σ : BotFrame) (player : Player) : BotFrame × Int :=
  findStrategicMove.run player (GetValidColumns σ.board) σ (none, -1)

/-- Go: `SelectBotMove(board, botPlayer)`, with the arrays after the call. -/
def SelectBotMove.onFrame (σ : BotFrame) (botPlayer : Player) (rand : Nat) :
    BotFrame × Option Int :=
  let opponent := if botPlayer = Player1 then Player2 else Player1
  let r1 := findWinningMove.onFrame σ botPlayer
  if r1.2 ≠ -1 then (r1.1, some r1.2)
  else
    let r2 := findWinningMove.onFrame r1.1 opponent
    if r2.2 ≠ -1 then (r2.1, some r2.2)
    else
      let r3 := findStrategicMove.onFrame r2.1 botPlayer
      if r3.2 ≠ -1 then (r3.1, some r3.2)
      else
        let validCols := GetValidColumns r3.1.board
        let centerCols := validCols.filter (fun col => decide (col ≥ 2 ∧ col ≤ 4))
        if centerCols.length > 0 then (r3.1, centerCols[rand % centerCols.length]?)
        else if validCols.length = 0 then (r3.1, none)
        else (r3.1, validCols[rand % validCols.length]?)

/-! ## websocket/hub.go: connections, join, disconnection -/

/-- Go: `NewHub(NewMatchmaker(...))`: no connection, empty queue, empty registry and index,
no goroutine; the object memories hold zero values. -/
def initialWorld : World :=
  { clientObj := fun _ =>
      { ID := "", Send := [], Username := "", GameID := "", PlayerNumber := 0,
        Disconnected := false }
    connObj := fun _ => { ID := "", Username := "", GameID := "", PlayerNumber := 0 }
    gameObj := fun _ =>
      { ID := "", Player1 := "", Player2 := "", Board := CreateBoard, CurrentTurn := 0,
        Winner := "", IsFinished := false }
    nextGame := 0
    clients := fun _ => false
    matchmaker := { waitingPlayers := [], games := fun _ => none, playerToGame := fun _ => none }
    tasks := [] }

/-- Go: `ServeWS(hub, conn)`: the new `Client` (`id` is the value of `uuid.New().String()`,
the other fields are zero values, `Send` is an open empty channel); the send on
`hub.register` is handled by `runRegister`. -/
def ServeWS (w : World) (id : String) : World × Ptr :=
  let client := w.nextClient
  ({ w with
      clientObj := setObj w.clientObj client
        { ID := id, Send := [], Username := "", GameID := "", PlayerNumber := 0,
          Disconnected := false }
      sendClosed := setObj w.sendClosed client false
      nextClient := client + 1 },
    client)

/-- Go: the branch `case client := <-h.register` of `Hub.Run`. -/
def runRegister (w : World) (client : Ptr) : World :=
  { w with clients := setObj w.clients client true }

/-- Go: the branch `case client := <-h.unregister` of `Hub.Run`. -/
def runUnregister (w : World) (client : Ptr) : World :=
  if w.clients client = true then
    if (w.clientObj client).GameID ≠ "" then
      let c := w.clientObj client
      { w with
        clientObj := setObj w.clientObj client { c with Disconnected := true }
        tasks := w.tasks ++ [Task.disconnectTimeout client] }
    else
      let w1 := { w with
        clients := setObj w.clients client false
        sendClosed := setObj w.sendClosed client true }
      RemoveFromQueue w1 (w1.clientObj client).ID
  else w

/-- Go: `Hub.handleGameCreated(gameState)`, the callback the matchmaker starts in a
goroutine after it made a game. -/
def handleGameCreated (w : World) (gameState : Ptr) : World :=
  let gs := w.gameObj gameState
  let msg := fun (yourTurn : Bool) => Message.gameStart gs.ID gs.Player1 gs.Player2 yourTurn
  { w with clientObj := fun p =>
      if w.clients p = true ∧
          ((w.clientObj p).Username = gs.Player1 ∨ (w.clientObj p).Username = gs.Player2)
      then trySend (w.clientObj p) (msg (decide ((w.clientObj p).Username = gs.Player1)))
      else w.clientObj p }

/-- Go: `Hub.HandleJoin(client, username)`; `gameID` is the game ID `AddToQueue` draws if
it pairs the new `ClientConnection`. -/
def HandleJoin (w : World) (client : Ptr) (username : String) (gameID : String) : World :=
  let c := w.clientObj client
  let w1 := { w with clientObj := setObj w.clientObj client { c with Username := username } }
  let conn := w1.nextConn
  let w2 := { w1 with
    connObj := setObj w1.connObj conn
      { ID := (w1.clientObj client).ID, Username := username, GameID := "", PlayerNumber := 0 }
    nextConn := conn + 1 }
  let w3 := AddToQueue w2 conn gameID
  sendBlocking w3 client (Message.waiting "Waiting for opponent...")

/-- The forfeit of `handleDisconnectionTimeout` for the display name `username`: when the
name has an unfinished game, the game is finished with the other participant as winner and
`game_over` with the reason "opponent_disconnected" goes, by a non-blocking send, to the
registered connections of the winner that are not flagged disconnected. -/
def forfeitGame (w : World) (username : String) : World :=
  match GetGameByPlayer w username with
  | none => w
  | some g =>
    if (w.gameObj g).IsFinished = false then
      let gs := w.gameObj g
      let opponent := if gs.Player1 = username then gs.Player2 else gs.Player1
      let gs2 := { gs with IsFinished := true, Winner := opponent }
      let w1 := { w with gameObj := setObj w.gameObj g gs2 }
      let w2 := UpdateGame w1 gs2.ID g
      let msg := Message.gameOver opponent (some "opponent_disconnected")
      { w2 with clientObj := fun p =>
          if w2.clients p = true ∧ (w2.clientObj p).Username = opponent ∧
              (w2.clientObj p).Disconnected = false
          then trySend (w2.clientObj p) msg
          else w2.clientObj p }
    else w

/-- Go: `Hub.handleDisconnectionTimeout(client)` after its `time.Sleep`, one critical
section. -/
def handleDisconnectionTimeout (w : World) (client : Ptr) : World :=
  if w.clients client = true then
    if (w.clientObj client).Disconnected = true then
      let w1 := forfeitGame w (w.clientObj client).Username
      { w1 with
        clients := setObj w1.clients client false
        sendClosed := setObj w1.sendClosed client true }
    else w
  else w

/-- One operation of the hub or of the matchmaker: the served connection, the register and
unregister branches of `Hub.Run`, a join, a move, the game-created callback and the two
timers. A `HandleMove` call that runs without another operation in between is the step
`move`; a call that overlaps other operations takes part with its sections: its checks
change the state only by an error message (the step `move` of a rejected call), and
`moveApply` and `moveResolve` are its two later sections. These two steps are admitted
for any values of the local variables of the call, so the steps the program takes are
among them. The broadcast branch of `Hub.Run` is left out: nothing in the repository
sends on `h.broadcast`. -/
inductive HubStep : World → World → Prop
  | serveWS (w : World) (id : String) : HubStep w (ServeWS w id).1
  | register (w : World) (client : Ptr) : HubStep w (runRegister w client)
  | unregister (w : World) (client : Ptr) : HubStep w (runUnregister w client)
  | join (w : World) (client : Ptr) (username gameID : String) :
      HubStep w (HandleJoin w client username gameID)
  | move (w w' : World) (client : Ptr) (column : Int) (rand : Nat) :
      HandleMove w client column rand = some w' → HubStep w w'
  | moveApply (w : World) (client : Ptr) (column : Int) (gameState : Ptr)
      (playerNumber : Player) :
      HubStep w (HandleMove.apply w client column gameState playerNumber).1
  | moveResolve (w w' : World) (gameState : Ptr) (rand : Nat) :
      HandleMove.resolve w gameState rand = some w' → HubStep w w'
  | gameCreated (w : World) (g : Ptr) : HubStep w (handleGameCreated w g)
  | matchTimeout (w : World) (client : Ptr) (gameID : String) :
      HubStep w (matchTimeout w client gameID)
  | disconnectTimeout (w : World) (client : Ptr) :
      HubStep w (handleDisconnectionTimeout w client)

/-- The states the server reaches from its start by operations of the hub. -/
inductive HubReachable : World → Prop
  | init : HubReachable initialWorld
  | step {w w' : World} : HubReachable w → HubStep w w' → HubReachable w'

/-- Two connections were served and registered, "alice" and "bob" joined and were paired
into the game "g1" (object 0), which is unfinished. -/
def pairedTrace : World :=
  HandleJoin
    (HandleJoin
      (runRegister (ServeWS (runRegister (ServeWS initialWorld "c1").1 0) "c2").1 1)
      0 "alice" "u1")
    1 "bob" "g1"

/-- No `Client` object of the hub carries a game ID. -/
def NoClientGameID (w : World) : Prop := ∀ p, (w.clientObj p).GameID = ""

/-- A state with the unfinished game "g" (object 0) between "alice" and "bob": the
connection 0 of "alice" is registered and flagged disconnected, the connection 1 of "bob"
is registered, and a further connection 2 is registered and has not joined yet. No run of
the hub reaches a state with a flagged connection; the state shows what the timer of the
forfeit does where the flag is set. -/
def forfeitPendingWorld : World :=
  { clientObj := fun p =>
      { ID := if p = 0 then "c1" else if p = 1 then "c2" else "c3"
        Send := []
        Username := if p = 0 then "alice" else if p = 1 then "bob" else ""
        GameID := ""
        PlayerNumber := 0
        Disconnected := decide (p = 0) }
    connObj := fun _ => { ID := "", Username := "", GameID := "", PlayerNumber := 0 }
    gameObj := fun _ =>
      { ID := "g", Player1 := "alice", Player2 := "bob", Board := CreateBoard,
        CurrentTurn := Player1, Winner := "", IsFinished := false }
    nextGame := 1
    clients := fun p => decide (p < 3)
    matchmaker :=
      { waitingPlayers := []
        games := fun k => if k = "g" then some 0 else none
        playerToGame := fun u => if u = "alice" ∨ u = "bob" then some "g" else none }
    tasks := [Task.disconnectTimeout 0]
    nextClient := 3 }

/-! ## The matchmaker as a transition system -/

/-- Go: `conn := &matchmaking.ClientConnection{ID: client.ID, Username: username}` in
`HandleJoin`: a new `ClientConnection` object; the other fields are zero values. -/
def newClientConnection (w : World) (id username : String) : World × Ptr :=
  let conn := w.nextConn
  ({ w with
      connObj := setObj w.connObj conn
        { ID := id, Username := username, GameID := "", PlayerNumber := 0 }
      nextConn := conn + 1 },
    conn)

/-- One atomic step of the matchmaker: a new `ClientConnection`, the two critical sections
of `AddToQueue` (the append and `tryMatch`), the firing of a matchmaking timeout,
`UpdateGame` of a stored game with a game object that has the same two participants,
`RemoveGame` and `RemoveFromQueue`. A game ID drawn by `uuid.New()` is not the ID of a game
in the registry. -/
inductive MatchStep : World → World → Prop
  | newConnection (w : World) (id username : String) :
      MatchStep w (newClientConnection w id username).1
  | enqueue (w : World) (client : Ptr) : MatchStep w (enqueue w client)
  | tryMatch (w : World) (client : Ptr) (gameID : String) :
      w.matchmaker.games gameID = none → MatchStep w (tryMatch w client gameID)
  | timeout (w : World) (client : Ptr) (gameID : String) :
      w.matchmaker.games gameID = none → MatchStep w (matchTimeout w client gameID)
  | updateGame (w : World) (gameID : String) (gameState old : Ptr) :
      w.matchmaker.games gameID = some old → gameState < w.nextGame →
      (w.gameObj gameState).Player1 = (w.gameObj old).Player1 →
      (w.gameObj gameState).Player2 = (w.gameObj old).Player2 →
      MatchStep w (UpdateGame w gameID gameState)
  | removeGame (w : World) (gameID : String) : MatchStep w (RemoveGame w gameID)
  | removeFromQueue (w : World) (clientID : String) : MatchStep w (RemoveFromQueue w clientID)

/-- The states the matchmaker reaches from the empty one (`NewMatchmaker`). -/
inductive MatchReachable : World → Prop
  | init : MatchReachable initialWorld
  | step {w w' : World} : MatchReachable w → MatchStep w w' → MatchReachable w'

/-- The display name `u` is one of the two participants of the game object at `g`. -/
def IsParticipant (w : World) (g : Ptr) (u : String) : Prop :=
  (w.gameObj g).Player1 = u ∨ (w.gameObj g).Player2 = u

/-- Every entry of the index `playerToGame` points to a game that the registry holds, and
the display name of the entry is a participant of that game. -/
def IndexSound (w : World) : Prop :=
  ∀ u gameID, w.matchmaker.playerToGame u = some gameID →
    ∃ g, GetGame w gameID = some g ∧ g < w.nextGame ∧ IsParticipant w g u

/-- Every game object the registry holds was made by `createGame` or `createGameWithBot`. -/
def RegistryAllocated (w : World) : Prop :=
  ∀ gameID g, w.matchmaker.games gameID = some g → g < w.nextGame

/-- Both participants of every game of the registry have an index entry that points to
the game (the words of the specification). -/
def ParticipantsIndexed (w : World) : Prop :=
  ∀ gameID g, w.matchmaker.games gameID = some g → (w.gameObj g).IsFinished = false →
    w.matchmaker.playerToGame (w.gameObj g).Player1 = some gameID ∧
    w.matchmaker.playerToGame (w.gameObj g).Player2 = some gameID

/-- The participants of every game of the registry that are not the automated opponent
have an index entry that points to the game. -/
def HumansIndexed (w : World) : Prop :=
  ∀ gameID g, w.matchmaker.games gameID = some g →
    w.matchmaker.playerToGame (w.gameObj g).Player1 = some gameID ∧
    ((w.gameObj g).Player2 ≠ BotUsername →
      w.matchmaker.playerToGame (w.gameObj g).Player2 = some gameID)

/-- Display names are in one game at a time: the first participant of a game of the
registry is never the name of the automated opponent, and a display name other than that
of the automated opponent is a participant of at most one game of the registry. -/
def NamesInOneGame (w : World) : Prop :=
  (∀ gameID g, w.matchmaker.games gameID = some g → (w.gameObj g).Player1 ≠ BotUsername) ∧
  (∀ id1 id2 g1 g2 u, w.matchmaker.games id1 = some g1 → w.matchmaker.games id2 = some g2 →
    id1 ≠ id2 → u ≠ BotUsername → IsParticipant w g1 u → ¬ IsParticipant w g2 u)

/-- The states the matchmaker reaches from the empty one through states in which display
names are in one game at a time. -/
inductive MatchReachableNames : World → Prop
  | init : MatchReachableNames initialWorld
  | step {w w' : World} :
      MatchReachableNames w → MatchStep w w' → NamesInOneGame w' → MatchReachableNames w'

/-- One connection ("c1", display name "alice") joined, nobody else came and its
matchmaking timeout fired: the game "g1" against the automated opponent. -/
def botGameWorld : World :=
  matchTimeout
    (tryMatch (enqueue (newClientConnection initialWorld "c1" "alice").1 0) 0 "u0") 0 "g1"

/-- Four connections joined one after the other: "alice" and "bob" were paired into the
game "g1", then a second connection with the display name "alice" and "carol" were paired
into the game "g2". -/
def sharedNameWorld : World :=
  let w1 := (newClientConnection initialWorld "c1" "alice").1
  let w2 := AddToQueue w1 0 "u0"
  let w3 := (newClientConnection w2 "c2" "bob").1
  let w4 := AddToQueue w3 1 "g1"
  let w5 := (newClientConnection w4 "c3" "alice").1
  let w6 := AddToQueue w5 2 "u2"
  let w7 := (newClientConnection w6 "c4" "carol").1
  AddToQueue w7 3 "g2"

/-- Two connections ("c1" of "alice", "c2" of "bob") joined one after the other and were
paired into the game "g1". -/
def pairedMatchWorld : World :=
  let w1 := (newClientConnection initialWorld "c1" "alice").1
  let w2 := AddToQueue w1 0 "u0"
  let w3 := (newClientConnection w2 "c2" "bob").1
  AddToQueue w3 1 "g1"

/-- Three connections A, B, C with different IDs (objects 0, 1, 2) call `AddToQueue` at
the same time; the critical sections run in the order: append A, append B, append C,
`tryMatch(B)` (it pairs B with A in the game "g1"). The `tryMatch(A)` of A is still to
run. -/
def raceBeforeWorld : World :=
  let w1 := (newClientConnection initialWorld "a" "alice").1
  let w2 := (newClientConnection w1 "b" "bob").1
  let w3 := (newClientConnection w2 "c" "carol").1
  tryMatch (enqueue (enqueue (enqueue w3 0) 1) 2) 1 "g1"

/-- The state after the `tryMatch(A)` that was still to run in `raceBeforeWorld`. -/
def raceAfterWorld : World := tryMatch raceBeforeWorld 0 "g2"

/-! ## States for the broadcast and for the end of a game -/

/-- The seven moves of the scenario of the specification: "alice" (connection 0) plays
column 0 four times, "bob" (connection 1) column 6 three times, in turns. -/
def scenarioMoves : List (Ptr × Int) :=
  [(0, 0), (1, 6), (0, 0), (1, 6), (0, 0), (1, 6), (0, 0)]

/-- The scenario of the specification after the seventh move: side 1 ("alice") played
column 0 a fourth time and won. -/
def scenarioFinished : World :=
  (playMoves scenarioStart 0 scenarioMoves).getD scenarioStart

/-! ## The side that moved last -/

/-- The moves of the `move_made` events that the call `HandleMove(client, column)` emits
for the game at `g`, in order: the move of the caller once the three checks passed and
`MakeMove` succeeded and, when `handleBotMove` runs after it, the move of the automated
opponent. -/
def movesOfCall (w : World) (g : Ptr) (client : Ptr) (column : Int) (rand : Nat) : List Move :=
  let playerNumber := playerNumberOf (w.gameObj g) (w.clientObj client).Username
  if GetGameByPlayer w (w.clientObj client).Username = some g ∧
      (w.gameObj g).IsFinished = false ∧ (w.gameObj g).CurrentTurn = playerNumber then
    let r := MakeMove (w.gameObj g).Board column playerNumber
    match r.2 with
    | .error _ => []
    | .ok move =>
      let currentTurn := if playerNumber = Player1 then Player2 else Player1
      let result := CheckWinner r.1
      if result.1 ≠ Empty ∨ result.2 = true then [move]
      else if (w.gameObj g).Player2 = BotUsername ∧ currentTurn = Player2 then
        match SelectBotMove r.1 Player2 rand with
        | none => [move]
        | some botColumn =>
          match (MakeMove r.1 botColumn Player2).2 with
          | .error _ => [move]
          | .ok botMove => [move, botMove]
      else [move]
  else []

/-- The state `w` comes from a state in which the game at `g` was fresh by calls of
`HandleMove`, each run to its end before the next starts, and `ms` is the history of the
moves made in the game: the moves of the `move_made` events of these calls, oldest first.
Runs in which two calls overlap are not of this form; they are the runs of
`runCallSteps`. -/
inductive PlayedMoves (g : Ptr) : World → List Move → Prop
  | start {w : World} : IsFreshGame (w.gameObj g) → PlayedMoves g w []
  | call {w w' : World} {ms : List Move} (client : Ptr) (column : Int) (rand : Nat) :
      PlayedMoves g w ms → HandleMove w client column rand = some w' →
      PlayedMoves g w' (ms ++ movesOfCall w g client column rand)

/-- The board `b` was played from the empty board by the history `ms`, and a side that
has four in a row on `b` is the side of the last move of `ms`. -/
def WinnerMovedLast (ms : List Move) (b : Board) : Prop :=
  Plays ms b ∧ ∀ q, FourInRow b q → ∃ m, ms.getLast? = some m ∧ m.Player = q

/-- The history of the moves made in the game at `g` by a run of `HandleMove` calls (see
`playMoves`). -/
def playHistory (g : Ptr) (w : World) (rand : Nat) : List (Ptr × Int) → List Move
  | [] => []
  | (client, column) :: rest =>
    match HandleMove w client column rand with
    | none => []
    | some w' => movesOfCall w g client column rand ++ playHistory g w' rand rest

/-! ## The score of a column, in the words of the specification -/

/-- The cell at distance `i` from `(row, col)` on the line with the direction
`(dRow, dCol)`, walking the way `dir` (`-1` or `1`); `none` outside the board. -/
def cellAt (board : Board) (row col dRow dCol dir i : Int) : Option Player :=
  let r := row + dRow * i * dir
  let c := col + dCol * i * dir
  if r < 0 ∨ r ≥ (Rows : Int) ∨ c < 0 ∨ c ≥ (Cols : Int) then none
  else some (board.get r.toNat c.toNat)

/-- Own cells met walking up to 3 cells one way: the number of cells at the distances
1, 2, 3 that hold `player`, up to the first cell that does not. -/
def ownRun (board : Board) (row col dRow dCol : Int) (player : Player) (dir : Int) : Nat :=
  (([1, 2, 3] : List Int).takeWhile (fun i =>
    decide (cellAt board row col dRow dCol dir i = some player))).length

/-- The walk stopped on an empty cell: it met fewer than 3 own cells and the cell after
them is on the board and empty. -/
def stoppedOnEmpty (board : Board) (row col dRow dCol : Int) (player : Player) (dir : Int) :
    Bool :=
  let n := ownRun board row col dRow dCol player dir
  decide (n < 3 ∧ cellAt board row col dRow dCol dir ((n : Int) + 1) = some Empty)

/-- The score of one line direction through `(row, col)`: with `count` the own cells met
on the two walks and `empty` the number of walks that stopped on an empty cell, it is
`count*10` if `count >= 2` and `empty >= 1`, `count*5` if `count >= 1` and `empty >= 2`,
else `count`. -/
def lineScore (board : Board) (row col dRow dCol : Int) (player : Player) : Int :=
  let count := ownRun board row col dRow dCol player (-1) +
    ownRun board row col dRow dCol player 1
  let empty := (if stoppedOnEmpty board row col dRow dCol player (-1) then 1 else 0) +
    (if stoppedOnEmpty board row col dRow dCol player 1 then 1 else 0)
  if count ≥ 2 ∧ empty ≥ 1 then ((count * 10 : Nat) : Int)
  else if count ≥ 1 ∧ empty ≥ 2 then ((count * 5 : Nat) : Int)
  else (count : Int)

/-- The total score of a valid column: the sum of the scores of the four line directions
through the landing cell of a piece of `player` dropped into the column. -/
def columnScore (board : Board) (column : Int) (player : Player) : Int :=
  match MakeMove board column player with
  | (landed, .ok move) =>
    lineScore landed move.Row column 0 1 player + lineScore landed move.Row column 1 0 player +
      lineScore landed move.Row column 1 1 player + lineScore landed move.Row column 1 (-1) player
  | (_, .error _) => 0

/-- A board after two moves of each side: side 1 holds the two lowest cells of column 3,
side 2 the cells 4 and 5 of the bottom row. -/
def strategyBoard : Board := fun r c =>
  if (r.val = 5 ∨ r.val = 4) ∧ c.val = 3 then Player1
  else if r.val = 5 ∧ (c.val = 4 ∨ c.val = 5) then Player2
  else Empty

/-! ## Two connections with one display name -/

/-- Two connections were served and registered (IDs "c1" and "c2"), both joined with the
display name "alice" and were paired into the game "g1" (object 0). -/
def sameNameTrace : World :=
  HandleJoin
    (HandleJoin
      (runRegister (ServeWS (runRegister (ServeWS initialWorld "c1").1 0) "c2").1 1)
      0 "alice" "u1")
    1 "alice" "g1"

/-- The state before the second join of `pairedTrace`: "alice" waits in the queue and the
`ClientConnection` of "bob" (object 1) was appended to the queue; its `tryMatch` is next. -/
def beforePairingWorld : World :=
  enqueue
    (newClientConnection
      (AddToQueue (newClientConnection initialWorld "c1" "alice").1 0 "u0") "c2" "bob").1
    1

/-! ## Pieces on the board and moves of the history -/

/-- Number of cells of the board that hold a piece. -/
def countOccupied (b : Board) : Nat :=
  (Finset.univ.filter (fun rc : Fin Rows × Fin Cols => b rc.1 rc.2 ≠ Empty)).card

/-- Every cell of `b` is empty or holds a piece of side 1 or side 2, and `b` holds as many
pieces as the history `ms` has moves. -/
def PiecesCounted (ms : List Move) (b : Board) : Prop :=
  (∀ r c, b r c = Empty ∨ b r c = Player1 ∨ b r c = Player2) ∧ countOccupied b = ms.length

/-- While a game is unfinished, some cell of the top row of its board is empty. -/
def UnfinishedGameHasRoom (gs : GameState) : Prop :=
  gs.IsFinished = false → ¬ TopRowFilled gs.Board


/-! ## Full outbound queues and overlapped moves -/

/-- The state `w` with the messages `msgs` put at the end of the outbound queue of the
connection `client`. -/
def queued (w : World) (client : Ptr) (msgs : List Message) : World :=
  let c := w.clientObj client
  { w with clientObj := setObj w.clientObj client { c with Send := c.Send ++ msgs } }

/-- The out-of-turn moves of "alice" (connection 0) in `pairedTrace`, where "bob" is to
move: 255 calls `HandleMove(alice, 0)`, each run to its end before the next. -/
def spamMoves : List (Ptr × Int) := List.replicate 255 (0, 0)

/-- The state after `spamMoves`: every call was rejected and queued one error message to
"alice", whose outbound queue now holds 256 messages. -/
def spamWorld : World := (playMoves pairedTrace 0 spamMoves).getD pairedTrace

/-- The game of `spamWorld` played to its end, each call run to its end before the next:
"bob" (connection 1) plays column 6 four times, "alice" (connection 0) column 0 three
times, in turns. -/
def spamGameMoves : List (Ptr × Int) :=
  [(1, 6), (0, 0), (1, 6), (0, 0), (1, 6), (0, 0), (1, 6)]

/-- The local variables of a `HandleMove` call that is between two of its sections: the
arguments `column` and the random draw of the call, `gameState`, `playerNumber`, and
whether the move section has run. -/
structure CallFrame where
  column : Int
  rand : Nat
  gameState : Ptr
  playerNumber : Player
  moved : Bool

/-- One step of a run in which `HandleMove` calls of several connections overlap: a
connection starts a call and runs its checks, or a call in progress runs its next
section. -/
inductive CallStep where
  | checks (client : Ptr) (column : Int) (rand : Nat)
  | apply (client : Ptr)
  | resolve (client : Ptr)
  deriving DecidableEq, Repr

/-- The state of an overlapped run: the state of the server and, for each connection, the
frame of its call in progress (the `ReadPump` goroutine of a connection runs one call at
a time). -/
abbrev CallState := World × (Ptr → Option CallFrame)

/-- One step of an overlapped run. A call whose checks pass keeps its frame; a call ends
when its checks reject, when `MakeMove` returns an error, or after its last section. The
result is `none` when the step is not the next section of the call of `client`, or when
the section stops with a run-time error. -/
def runCallStep (s : CallState) : CallStep → Option CallState
  | CallStep.checks client column rand =>
    match s.2 client with
    | some _ => none
    | none =>
      match HandleMove.checks s.1 client with
      | Checked.rejected w' => some (w', s.2)
      | Checked.passed gameState playerNumber =>
        some (s.1, setObj s.2 client
          (some { column := column, rand := rand, gameState := gameState,
                  playerNumber := playerNumber, moved := false }))
  | CallStep.apply client =>
    match s.2 client with
    | none => none
    | some f =>
      if f.moved = true then none
      else
        match HandleMove.apply s.1 client f.column f.gameState f.playerNumber with
        | (w', none) => some (w', setObj s.2 client none)
        | (w', some _) => some (w', setObj s.2 client (some { f with moved := true }))
  | CallStep.resolve client =>
    match s.2 client with
    | none => none
    | some f =>
      if f.moved = true then
        match HandleMove.resolve s.1 f.gameState f.rand with
        | none => none
        | some w' => some (w', setObj s.2 client none)
      else none

/-- A run of steps, one after the other. -/
def runCallSteps (s : CallState) : List CallStep → Option CallState
  | [] => some s
  | step :: rest =>
    match runCallStep s step with
    | none => none
    | some s' => runCallSteps s' rest

/-- The state of the server after the steps `steps` from the state `w` with no call in
progress (`w` itself when the steps are not a run). -/
def afterCallSteps (w : World) (steps : List CallStep) : World :=
  match runCallSteps (w, fun _ => none) steps with
  | none => w
  | some s => s.1

/-- The six moves before the overlap: "bob" (connection 1, side 1) plays column 6 three
times and "alice" (connection 0, side 2) column 0 three times, in turns, each call run to
its end before the next. -/
def raceMoves : List (Ptr × Int) := [(1, 6), (0, 0), (1, 6), (0, 0), (1, 6), (0, 0)]

/-- The state after `raceMoves` in the game of `pairedTrace`: "bob" is to move. -/
def raceStart : World := (playMoves pairedTrace 0 raceMoves).getD pairedTrace

/-- Two overlapped calls from `raceStart`: `HandleMove(bob, 6)` runs its checks and its
move section; before it looks for a winner, `HandleMove(alice, 0)` runs its checks and
its move section; then the call of "bob" and the call of "alice" run their last
section. -/
def overlapEarly : List CallStep :=
  [CallStep.checks 1 6 0, CallStep.apply 1, CallStep.checks 0 0 0, CallStep.apply 0,
   CallStep.resolve 1, CallStep.resolve 0]

/-- Two overlapped calls from `raceStart`: `HandleMove(bob, 6)` runs its checks and its
move section; `HandleMove(alice, 0)` runs its checks; the call of "bob" runs its last
section; then the call of "alice" runs its move section and its last section. -/
def overlapLate : List CallStep :=
  [CallStep.checks 1 6 0, CallStep.apply 1, CallStep.checks 0 0 0, CallStep.resolve 1,
   CallStep.apply 0, CallStep.resolve 0]

/-- No `Client` object of the hub is flagged disconnected. -/
def NoClientDisconnected (w : World) : Prop := ∀ p, (w.clientObj p).Disconnected = false

/-- The connection of "alice" in `pairedTrace` went away (its unregister was processed)
while the game "g1" was unfinished, and a third connection was served and registered. -/
def rejoinTrace : World :=
  runRegister (ServeWS (runUnregister pairedTrace 0) "c3").1 2


/-! ## Board engine: reads and writes -/

theorem Board.get_of_lt (b : Board) {r c : Nat} (hr : r < Rows) (hc : c < Cols) :
    b.get r c = b ⟨r, hr⟩ ⟨c, hc⟩ := by
  simp [Board.get, hr, hc]

theorem Board.get_set (b : Board) (r c r' c' : Nat) (p : Player) :
    (b.set r c p).get r' c' =
      if r' = r ∧ c' = c ∧ r < Rows ∧ c < Cols then p else b.get r' c' := by
  unfold Board.get Board.set
  by_cases h : r' < Rows ∧ c' < Cols
  · simp only [h, and_self, dite_true]
    by_cases h2 : r' = r ∧ c' = c
    · obtain ⟨rfl, rfl⟩ := h2
      simp [h.1, h.2]
    · have : ¬ (r' = r ∧ c' = c ∧ r < Rows ∧ c < Cols) := fun h3 => h2 ⟨h3.1, h3.2.1⟩
      simp [h2, this]
  · have : ¬ (r' = r ∧ c' = c ∧ r < Rows ∧ c < Cols) := by
      rintro ⟨rfl, rfl, h3⟩; exact h h3
    simp [h, this]

theorem Board.ext_get {b b' : Board} (h : ∀ r c, r < Rows → c < Cols → b.get r c = b'.get r c) :
    b = b' := by
  funext i j
  have := h i.val j.val i.isLt j.isLt
  simpa [Board.get, i.isLt, j.isLt] using this

theorem CreateBoard_get (r c : Nat) : CreateBoard.get r c = Empty := by
  unfold Board.get CreateBoard
  split <;> rfl

/-! ## `CheckWinner`: the four scans -/

theorem lineWin_iff (cell : Nat → Player) (p : Player) :
    lineWin cell p = true ↔ ∀ i, 1 ≤ i → i < WinLength → cell i = p := by
  unfold lineWin
  simp only [List.all_eq_true, List.mem_range'_1, decide_eq_true_eq, WinLength]
  constructor
  · intro h i h1 h2; exact h i ⟨h1, by omega⟩
  · intro h i hi; exact h i hi.1 (by omega)

theorem winAt_eq_some_iff (b : Board) (r c : Nat) (cell : Nat → Player) (p : Player)
    (h0 : cell 0 = b.get r c) :
    winAt b r c cell = some p ↔ p ≠ Empty ∧ ∀ i, i < WinLength → cell i = p := by
  unfold winAt
  simp only []
  constructor
  · intro h
    split at h
    · split at h
      · rename_i hne hw
        injection h with h
        subst h
        refine ⟨hne, fun i hi => ?_⟩
        rcases Nat.eq_zero_or_pos i with rfl | hpos
        · exact h0
        · exact (lineWin_iff cell _).1 hw i hpos hi
      · cases h
    · cases h
  · rintro ⟨hne, hall⟩
    have hp : b.get r c = p := by rw [← h0]; exact hall 0 (by decide)
    rw [hp, if_pos hne, if_pos]
    exact (lineWin_iff cell p).2 (fun i _ hi => hall i hi)

theorem winAt_eq_none_iff (b : Board) (r c : Nat) (cell : Nat → Player)
    (h0 : cell 0 = b.get r c) :
    winAt b r c cell = none ↔ ∀ p, p ≠ Empty → ¬ ∀ i, i < WinLength → cell i = p := by
  constructor
  · intro h p hne hall
    have := (winAt_eq_some_iff b r c cell p h0).2 ⟨hne, hall⟩
    rw [h] at this; cases this
  · intro h
    cases hw : winAt b r c cell with
    | none => rfl
    | some p =>
      have := (winAt_eq_some_iff b r c cell p h0).1 hw
      exact absurd this.2 (h p this.1)

theorem scanHorizontal_eq_some {b : Board} {p : Player} (h : scanHorizontal b = some p) :
    p ≠ Empty ∧ HasRowLine b p := by
  unfold scanHorizontal at h
  obtain ⟨r, hr, h⟩ := List.exists_of_findSome?_eq_some h
  obtain ⟨c, hc, h⟩ := List.exists_of_findSome?_eq_some h
  rw [List.mem_range] at hr hc
  have := (winAt_eq_some_iff b r c _ p (by simp)).1 h
  simp only [Cols, WinLength] at hc
  exact ⟨this.1, r, hr, c, by simp only [Cols]; omega, by simp only [Cols, WinLength]; omega, this.2⟩

theorem scanHorizontal_eq_none {b : Board} (h : scanHorizontal b = none) (p : Player)
    (hne : p ≠ Empty) : ¬ HasRowLine b p := by
  rintro ⟨r, hr, c, hc, hcw, hall⟩
  unfold scanHorizontal at h
  rw [List.findSome?_eq_none_iff] at h
  have h1 := h r (List.mem_range.2 hr)
  rw [List.findSome?_eq_none_iff] at h1
  have h2 := h1 c (List.mem_range.2 (by simp only [Cols, WinLength] at hcw ⊢; omega))
  exact (winAt_eq_none_iff b r c _ (by simp)).1 h2 p hne hall

theorem scanVertical_eq_some {b : Board} {p : Player} (h : scanVertical b = some p) :
    p ≠ Empty ∧ HasColLine b p := by
  unfold scanVertical at h
  obtain ⟨c, hc, h⟩ := List.exists_of_findSome?_eq_some h
  obtain ⟨r, hr, h⟩ := List.exists_of_findSome?_eq_some h
  rw [List.mem_range] at hr hc
  have := (winAt_eq_some_iff b r c _ p (by simp)).1 h
  simp only [Rows, WinLength] at hr
  exact ⟨this.1, r, by simp only [Rows]; omega, c, hc, by simp only [Rows, WinLength]; omega, this.2⟩

theorem scanVertical_eq_none {b : Board} (h : scanVertical b = none) (p : Player)
    (hne : p ≠ Empty) : ¬ HasColLine b p := by
  rintro ⟨r, hr, c, hc, hrw, hall⟩
  unfold scanVertical at h
  rw [List.findSome?_eq_none_iff] at h
  have h1 := h c (List.mem_range.2 hc)
  rw [List.findSome?_eq_none_iff] at h1
  have h2 := h1 r (List.mem_range.2 (by simp only [Rows, WinLength] at hrw ⊢; omega))
  exact (winAt_eq_none_iff b r c _ (by simp)).1 h2 p hne hall

theorem scanDiagDown_eq_some {b : Board} {p : Player} (h : scanDiagDown b = some p) :
    p ≠ Empty ∧ HasDiagDownRightLine b p := by
  unfold scanDiagDown at h
  obtain ⟨r, hr, h⟩ := List.exists_of_findSome?_eq_some h
  obtain ⟨c, hc, h⟩ := List.exists_of_findSome?_eq_some h
  rw [List.mem_range] at hr hc
  have := (winAt_eq_some_iff b r c _ p (by simp)).1 h
  simp only [Rows, Cols, WinLength] at hr hc
  exact ⟨this.1, r, by simp only [Rows]; omega, c, by simp only [Cols]; omega,
    by simp only [Rows, WinLength]; omega, by simp only [Cols, WinLength]; omega, this.2⟩

theorem scanDiagDown_eq_none {b : Board} (h : scanDiagDown b = none) (p : Player)
    (hne : p ≠ Empty) : ¬ HasDiagDownRightLine b p := by
  rintro ⟨r, hr, c, hc, hrw, hcw, hall⟩
  unfold scanDiagDown at h
  rw [List.findSome?_eq_none_iff] at h
  have h1 := h r (List.mem_range.2 (by simp only [Rows, WinLength] at hrw ⊢; omega))
  rw [List.findSome?_eq_none_iff] at h1
  have h2 := h1 c (List.mem_range.2 (by simp only [Cols, WinLength] at hcw ⊢; omega))
  exact (winAt_eq_none_iff b r c _ (by simp)).1 h2 p hne hall

theorem scanDiagUp_eq_some {b : Board} {p : Player} (h : scanDiagUp b = some p) :
    p ≠ Empty ∧ HasDiagDownLeftLine b p := by
  unfold scanDiagUp at h
  obtain ⟨r, hr, h⟩ := List.exists_of_findSome?_eq_some h
  obtain ⟨c, hc, h⟩ := List.exists_of_findSome?_eq_some h
  rw [List.mem_range] at hr
  rw [List.mem_range'_1] at hc
  have := (winAt_eq_some_iff b r c _ p (by simp)).1 h
  simp only [Rows, Cols, WinLength] at hr hc
  exact ⟨this.1, r, by simp only [Rows]; omega, c, by simp only [Cols]; omega,
    by simp only [Rows, WinLength]; omega, by simp only [WinLength]; omega, this.2⟩

theorem scanDiagUp_eq_none {b : Board} (h : scanDiagUp b = none) (p : Player)
    (hne : p ≠ Empty) : ¬ HasDiagDownLeftLine b p := by
  rintro ⟨r, hr, c, hc, hrw, hcw, hall⟩
  unfold scanDiagUp at h
  rw [List.findSome?_eq_none_iff] at h
  have h1 := h r (List.mem_range.2 (by simp only [Rows, WinLength] at hrw ⊢; omega))
  rw [List.findSome?_eq_none_iff] at h1
  have h2 := h1 c (List.mem_range'_1.2 (by simp only [Cols, WinLength] at hc hcw ⊢; omega))
  exact (winAt_eq_none_iff b r c _ (by simp)).1 h2 p hne hall

theorem topRowFull_iff (b : Board) :
    topRowFull b = true ↔ ∀ c, c < Cols → b.get 0 c ≠ Empty := by
  unfold topRowFull
  simp [List.all_eq_true, List.mem_range]

/-- What `CheckWinner` returns, by cases on the four scans. -/
theorem CheckWinner_cases (b : Board) :
    (∃ p, FourInRow b p ∧ CheckWinner b = (p, false)) ∨
    ((¬ AnyFourInRow b) ∧ CheckWinner b = (Empty, topRowFull b)) := by
  unfold CheckWinner
  cases h1 : scanHorizontal b with
  | some p =>
    have := scanHorizontal_eq_some h1
    exact Or.inl ⟨p, ⟨this.1, Or.inl this.2⟩, rfl⟩
  | none =>
    cases h2 : scanVertical b with
    | some p =>
      have := scanVertical_eq_some h2
      exact Or.inl ⟨p, ⟨this.1, Or.inr (Or.inl this.2)⟩, rfl⟩
    | none =>
      cases h3 : scanDiagDown b with
      | some p =>
        have := scanDiagDown_eq_some h3
        exact Or.inl ⟨p, ⟨this.1, Or.inr (Or.inr (Or.inl this.2))⟩, rfl⟩
      | none =>
        cases h4 : scanDiagUp b with
        | some p =>
          have := scanDiagUp_eq_some h4
          exact Or.inl ⟨p, ⟨this.1, Or.inr (Or.inr (Or.inr this.2))⟩, rfl⟩
        | none =>
          refine Or.inr ⟨?_, ?_⟩
          · rintro ⟨p, hne, hl⟩
            rcases hl with hl | hl | hl | hl
            · exact scanHorizontal_eq_none h1 p hne hl
            · exact scanVertical_eq_none h2 p hne hl
            · exact scanDiagDown_eq_none h3 p hne hl
            · exact scanDiagUp_eq_none h4 p hne hl
          · simp only []
            split <;> simp_all

/-- C1: for every 6x7 board, `CheckWinner` returns a non-`Empty` player if and only if
some non-empty side has four contiguous cells in a row, a column, a down-right or a
down-left diagonal; and the player it returns owns such a line. -/
theorem C1_checkWinner_winner_iff_four_in_row (b : Board) :
    ((CheckWinner b).1 ≠ Empty ↔ ∃ p, FourInRow b p) ∧
    ((CheckWinner b).1 ≠ Empty → FourInRow b (CheckWinner b).1) := by
  rcases CheckWinner_cases b with ⟨p, hp, h⟩ | ⟨hno, h⟩
  · rw [h]
    exact ⟨⟨fun _ => ⟨p, hp⟩, fun _ => hp.1⟩, fun _ => hp⟩
  · rw [h]
    exact ⟨⟨fun hne => absurd rfl hne, fun hex => absurd hex hno⟩, fun hne => absurd rfl hne⟩

/-- C5: `CheckWinner` reports a draw exactly when no side has four in a row and the top
row has no empty cell; it never reports a winner together with a draw; it reports
`(Empty, false)` exactly when no side has four in a row and some top-row cell is empty. -/
theorem C5_checkWinner_draw_iff (b : Board) :
    ((CheckWinner b).2 = true ↔
      (¬ AnyFourInRow b) ∧ ∀ c, c < Cols → b.get 0 c ≠ Empty) ∧
    ¬ ((CheckWinner b).1 ≠ Empty ∧ (CheckWinner b).2 = true) ∧
    (CheckWinner b = (Empty, false) ↔
      (¬ AnyFourInRow b) ∧ ∃ c, c < Cols ∧ b.get 0 c = Empty) := by
  rcases CheckWinner_cases b with ⟨p, hp, h⟩ | ⟨hno, h⟩
  · rw [h]
    have hany : AnyFourInRow b := ⟨p, hp⟩
    refine ⟨⟨fun hf => (by cases hf), fun hh => absurd hany hh.1⟩, fun hh => (by cases hh.2), ?_⟩
    constructor
    · intro he
      have : p = Empty := congrArg Prod.fst he
      exact absurd this hp.1
    · intro hh; exact absurd hany hh.1
  · rw [h]
    refine ⟨⟨fun hf => ⟨hno, (topRowFull_iff b).1 hf⟩, fun hh => (topRowFull_iff b).2 hh.2⟩,
      fun hh => hh.1 rfl, ?_⟩
    constructor
    · intro he
      have hf : topRowFull b = false := congrArg Prod.snd he
      refine ⟨hno, ?_⟩
      by_contra hcon
      have : topRowFull b = true := (topRowFull_iff b).2 (fun c hc he => hcon ⟨c, hc, he⟩)
      rw [hf] at this; cases this
    · rintro ⟨_, c, hc, he⟩
      have : topRowFull b = false := by
        cases hf : topRowFull b with
        | false => rfl
        | true => exact absurd he ((topRowFull_iff b).1 hf c hc)
      rw [this]


/-! ## `MakeMove` -/

theorem MakeMove.loop_spec (b : Board) (c : Nat) (p : Player) (n : Nat) :
    ((∀ r, r < n → b.get r c ≠ Empty) ∧
        MakeMove.loop b c p n = (b, .error "column is full")) ∨
    (∃ r, r < n ∧ b.get r c = Empty ∧ (∀ r', r < r' → r' < n → b.get r' c ≠ Empty) ∧
        MakeMove.loop b c p n =
          (b.set r c p, .ok { Column := (c : Int), Row := (r : Int), Player := p })) := by
  induction n with
  | zero => exact Or.inl ⟨fun r hr => absurd hr (Nat.not_lt_zero r), rfl⟩
  | succ n ih =>
    by_cases he : b.get n c = Empty
    · refine Or.inr ⟨n, Nat.lt_succ_self n, he, fun r' h1 h2 => by omega, ?_⟩
      simp [MakeMove.loop, he]
    · have hl : MakeMove.loop b c p (n + 1) = MakeMove.loop b c p n := by
        simp [MakeMove.loop, he]
      rcases ih with ⟨hall, heq⟩ | ⟨r, hr, hre, hmax, heq⟩
      · refine Or.inl ⟨fun r hr => ?_, hl.trans heq⟩
        rcases Nat.lt_succ_iff_lt_or_eq.1 hr with h | h
        · exact hall r h
        · rw [h]; exact he
      · refine Or.inr ⟨r, Nat.lt_succ_of_lt hr, hre, fun r' h1 h2 => ?_, hl.trans heq⟩
        rcases Nat.lt_succ_iff_lt_or_eq.1 h2 with h | h
        · exact hmax r' h1 h
        · rw [h]; exact he

/-- The three outcomes of `MakeMove`. -/
theorem MakeMove_spec (b : Board) (c : Int) (p : Player) :
    ((c < 0 ∨ c ≥ (Cols : Int)) ∧ MakeMove b c p = (b, .error "invalid column")) ∨
    ((0 ≤ c ∧ c < (Cols : Int)) ∧ (∀ r, r < Rows → b.get r c.toNat ≠ Empty) ∧
        MakeMove b c p = (b, .error "column is full")) ∨
    ((0 ≤ c ∧ c < (Cols : Int)) ∧
      ∃ r, r < Rows ∧ b.get r c.toNat = Empty ∧
        (∀ r', r < r' → r' < Rows → b.get r' c.toNat ≠ Empty) ∧
        MakeMove b c p = (b.set r c.toNat p, .ok { Column := c, Row := (r : Int), Player := p })) := by
  by_cases hc : c < 0 ∨ c ≥ (Cols : Int)
  · exact Or.inl ⟨hc, by simp [MakeMove, hc]⟩
  · have hr : 0 ≤ c ∧ c < (Cols : Int) := by omega
    have hm : MakeMove b c p = MakeMove.loop b c.toNat p Rows := by
      unfold MakeMove; rw [if_neg hc]
    have hcast : ((c.toNat : Nat) : Int) = c := Int.toNat_of_nonneg hr.1
    rcases MakeMove.loop_spec b c.toNat p Rows with ⟨hall, heq⟩ | ⟨r, hlt, he, hmax, heq⟩
    · exact Or.inr (Or.inl ⟨hr, hall, hm.trans heq⟩)
    · refine Or.inr (Or.inr ⟨hr, r, hlt, he, hmax, ?_⟩)
      rw [hm, heq, hcast]

theorem toNat_lt_Cols {c : Int} (h0 : 0 ≤ c) (h1 : c < (Cols : Int)) : c.toNat < Cols := by
  have : ((c.toNat : Nat) : Int) = c := Int.toNat_of_nonneg h0
  omega

/-- C2: for a column `c` in range that has an empty cell, `MakeMove` succeeds and returns
`Move{c, r, p}` where `r` is the largest row index whose cell in column `c` was empty;
afterwards cell `(r, c)` holds `p` and every other cell is unchanged. -/
theorem C2_makeMove_fills_lowest_empty_cell (b : Board) (c : Int) (p : Player)
    (hc0 : 0 ≤ c) (hc : c < (Cols : Int))
    (hempty : ∃ r, r < Rows ∧ b.get r c.toNat = Empty) :
    ∃ r, r < Rows ∧ b.get r c.toNat = Empty ∧
      (∀ r', r' < Rows → b.get r' c.toNat = Empty → r' ≤ r) ∧
      (MakeMove b c p).2 = .ok { Column := c, Row := (r : Int), Player := p } ∧
      (MakeMove b c p).1.get r c.toNat = p ∧
      ∀ r' c', r' < Rows → c' < Cols → (r' ≠ r ∨ c' ≠ c.toNat) →
        (MakeMove b c p).1.get r' c' = b.get r' c' := by
  have hcn := toNat_lt_Cols hc0 hc
  rcases MakeMove_spec b c p with ⟨hbad, _⟩ | ⟨_, hall, _⟩ | ⟨_, r, hr, he, hmax, heq⟩
  · omega
  · obtain ⟨r, hr, he⟩ := hempty
    exact absurd he (hall r hr)
  · refine ⟨r, hr, he, fun r' hr' he' => ?_, by rw [heq], ?_, ?_⟩
    · by_contra hlt
      exact hmax r' (by omega) hr' he'
    · rw [heq]; simp [Board.get_set, hr, hcn]
    · intro r' c' _ _ hne
      rw [heq]
      simp only [Board.get_set]
      rw [if_neg]
      rintro ⟨h1, h2, _⟩
      rcases hne with h | h
      · exact h h1
      · exact h h2

theorem C2_makeMove_fills_lowest_empty_cell_witness :
    ∃ r, r < Rows ∧ CreateBoard.get r (3 : Int).toNat = Empty ∧
      (∀ r', r' < Rows → CreateBoard.get r' (3 : Int).toNat = Empty → r' ≤ r) ∧
      (MakeMove CreateBoard 3 Player1).2 = .ok { Column := 3, Row := (r : Int), Player := Player1 } ∧
      (MakeMove CreateBoard 3 Player1).1.get r (3 : Int).toNat = Player1 ∧
      ∀ r' c', r' < Rows → c' < Cols → (r' ≠ r ∨ c' ≠ (3 : Int).toNat) →
        (MakeMove CreateBoard 3 Player1).1.get r' c' = CreateBoard.get r' c' :=
  C2_makeMove_fills_lowest_empty_cell CreateBoard 3 Player1 (by decide) (by decide)
    ⟨0, by decide, by decide⟩


/-! ## Reachable boards -/

theorem piecesIn_append_single (ms : List Move) (m : Move) (c : Int) :
    piecesIn (ms ++ [m]) c =
      piecesIn ms c + (if m.Column = c ∧ m.Player ≠ Empty then 1 else 0) := by
  unfold piecesIn
  rw [List.filter_append, List.length_append]
  by_cases h : m.Column = c ∧ m.Player ≠ Empty
  · simp [h]
  · rw [if_neg h]
    simp only [List.filter_cons, List.filter_nil]
    rw [if_neg (by simpa using h)]
    rfl

theorem filledFromBottom_of_plays {ms : List Move} {b : Board} (h : Plays ms b) :
    FilledFromBottom ms b := by
  induction h with
  | nil =>
    intro r c hr _
    simp [CreateBoard_get, piecesIn]
    omega
  | @snoc ms b c p m _ hok ih =>
    rcases MakeMove_spec b c p with ⟨_, heq⟩ | ⟨_, _, heq⟩ | ⟨hrange, r0, hr0, he0, hmax, heq⟩
    · rw [heq] at hok; cases hok
    · rw [heq] at hok; cases hok
    · rw [heq] at hok ⊢
      have hm : m = { Column := c, Row := (r0 : Int), Player := p } := by
        injection hok with h; exact h.symm
      have hcn := toNat_lt_Cols hrange.1 hrange.2
      have hcast : ((c.toNat : Nat) : Int) = c := Int.toNat_of_nonneg hrange.1
      -- the empty cells of column `c` are those above the pieces
      have hk : r0 + piecesIn ms c + 1 = Rows := by
        have h1 := (ih r0 c.toNat hr0 hcn)
        rw [hcast] at h1
        have h2 : ¬ Rows ≤ r0 + piecesIn ms c := fun hle => (h1.2 hle) he0
        by_contra hne
        have h3 : r0 + 1 < Rows := by omega
        have h4 := hmax (r0 + 1) (Nat.lt_succ_self r0) h3
        have h5 := (ih (r0 + 1) c.toNat h3 hcn).1 h4
        rw [hcast] at h5
        omega
      intro r c' hr hc'
      simp only [Board.get_set, piecesIn_append_single, hm]
      by_cases hcc : c' = c.toNat
      · subst hcc
        rw [hcast]
        by_cases hp : p = Empty
        · have hif : ¬ (c = c ∧ p ≠ Empty) := fun h => h.2 hp
          rw [if_neg hif]
          by_cases hrr : r = r0
          · subst hrr
            simp only [true_and, hr0, hcn, and_self, if_true, hp]
            constructor
            · intro h; exact absurd rfl h
            · intro h; omega
          · rw [if_neg (fun h => hrr h.1)]
            have := ih r c.toNat hr hcn
            rw [hcast] at this
            simpa using this
        · have hif : (c = c ∧ p ≠ Empty) := ⟨rfl, hp⟩
          rw [if_pos hif]
          by_cases hrr : r = r0
          · subst hrr
            simp only [true_and, hr0, hcn, and_self, if_true]
            constructor
            · intro _; omega
            · intro _; exact hp
          · rw [if_neg (fun h => hrr h.1)]
            have := ih r c.toNat hr hcn
            rw [hcast] at this
            rw [this]
            omega
      · have hne : ¬ (c = (c' : Int) ∧ p ≠ Empty) := by
          rintro ⟨h, _⟩
          apply hcc
          rw [h]; simp
        rw [if_neg (fun h => hcc h.2.1), if_neg hne]
        simpa using ih r c' hr hc'

theorem noFloating_of_filledFromBottom {ms : List Move} {b : Board}
    (h : FilledFromBottom ms b) : NoFloating b := by
  intro r c hr hc hne r' hlt hr'
  have h1 := (h r c hr hc).1 hne
  exact (h r' c hr' hc).2 (by omega)

theorem noFloating_of_reachable {b : Board} (h : Reachable b) : NoFloating b := by
  obtain ⟨ms, hms⟩ := h
  exact noFloating_of_filledFromBottom (filledFromBottom_of_plays hms)

/-- C3: `MakeMove` fails with "invalid column" exactly when the column is below 0 or at
least 7; on a board built from the empty board by successful moves and for a column in
range it fails with "column is full" exactly when the top cell of the column is occupied;
a failing call leaves the board unchanged; on such boards `MakeMove` succeeds exactly
where `IsValidMove` is true. -/
theorem C3_makeMove_failures :
    (∀ (b : Board) (c : Int) (p : Player),
      (MakeMove b c p).2 = .error "invalid column" ↔ (c < 0 ∨ c ≥ 7)) ∧
    (∀ (b : Board), Reachable b → ∀ (c : Int) (p : Player), 0 ≤ c → c < 7 →
      ((MakeMove b c p).2 = .error "column is full" ↔ b.get 0 c.toNat ≠ Empty)) ∧
    (∀ (b : Board) (c : Int) (p : Player) (e : String),
      (MakeMove b c p).2 = .error e → (MakeMove b c p).1 = b) ∧
    (∀ (b : Board), Reachable b → ∀ (c : Int) (p : Player),
      ((∃ m, (MakeMove b c p).2 = .ok m) ↔ IsValidMove b c = true)) := by
  refine ⟨fun b c p => ?_, fun b hb c p h0 h7 => ?_, fun b c p e herr => ?_,
    fun b hb c p => ?_⟩
  · rcases MakeMove_spec b c p with ⟨hbad, heq⟩ | ⟨hr, _, heq⟩ | ⟨hr, r, _, _, _, heq⟩
    · rw [heq]
      simp only [Cols] at hbad
      exact ⟨fun _ => by exact_mod_cast hbad, fun _ => rfl⟩
    · rw [heq]
      simp only [Cols] at hr
      constructor
      · intro h
        injection h with h
        exact absurd h (by decide)
      · intro h; omega
    · rw [heq]
      simp only [Cols] at hr
      constructor
      · intro h; cases h
      · intro h; omega
  · have hnf := noFloating_of_reachable hb
    have hcn : c.toNat < Cols := toNat_lt_Cols h0 (by simpa [Cols] using h7)
    rcases MakeMove_spec b c p with ⟨hbad, _⟩ | ⟨_, hall, heq⟩ | ⟨_, r, hr, he, _, heq⟩
    · simp only [Cols] at hbad
      have : c < 0 ∨ c ≥ 7 := by exact_mod_cast hbad
      omega
    · rw [heq]
      exact ⟨fun _ => hall 0 (by decide), fun _ => rfl⟩
    · rw [heq]
      constructor
      · intro h; cases h
      · intro htop
        exfalso
        rcases Nat.eq_zero_or_pos r with h | h
        · rw [h] at he; exact htop he
        · exact hnf 0 c.toNat (by decide) hcn htop r h hr he
  · rcases MakeMove_spec b c p with ⟨_, heq⟩ | ⟨_, _, heq⟩ | ⟨_, r, _, _, _, heq⟩
    · rw [heq]
    · rw [heq]
    · rw [heq] at herr; cases herr
  · have hnf := noFloating_of_reachable hb
    unfold IsValidMove
    rcases MakeMove_spec b c p with ⟨hbad, heq⟩ | ⟨hr, hall, heq⟩ | ⟨hr, r, hr6, he, _, heq⟩
    · rw [heq, if_pos hbad]
      constructor
      · rintro ⟨m, hm⟩; cases hm
      · intro h; cases h
    · rw [heq, if_neg (by omega)]
      constructor
      · rintro ⟨m, hm⟩; cases hm
      · intro h
        exact absurd (of_decide_eq_true h) (hall 0 (by decide))
    · rw [heq, if_neg (by omega)]
      refine ⟨fun _ => decide_eq_true ?_, fun _ => ⟨_, rfl⟩⟩
      by_contra htop
      rcases Nat.eq_zero_or_pos r with h | h
      · rw [h] at he; exact htop he
      · exact hnf 0 c.toNat (by decide) (toNat_lt_Cols hr.1 hr.2) htop r h hr6 he

/-- C4: every board reachable from the empty board by successful `MakeMove` calls has no
floating pieces; hence a move that succeeds there lands in a column whose top cell was
empty, the `k`-th piece of a column lands at row index `6 - k`, and every cell below the
landing cell is occupied. -/
theorem C4_no_floating_pieces (ms : List Move) (b : Board) (h : Plays ms b) :
    NoFloating b ∧
    ∀ (c : Int) (p : Player) (m : Move), (MakeMove b c p).2 = .ok m →
      b.get 0 c.toNat = Empty ∧
      m.Row = 6 - ((piecesIn ms c + 1 : Nat) : Int) ∧
      (∀ r', m.Row.toNat < r' → r' < Rows → b.get r' c.toNat ≠ Empty) := by
  have hf := filledFromBottom_of_plays h
  refine ⟨noFloating_of_filledFromBottom hf, fun c p m hok => ?_⟩
  rcases MakeMove_spec b c p with ⟨_, heq⟩ | ⟨_, _, heq⟩ | ⟨hrange, r0, hr0, he0, hmax, heq⟩
  · rw [heq] at hok; cases hok
  · rw [heq] at hok; cases hok
  · rw [heq] at hok
    have hm : m = { Column := c, Row := (r0 : Int), Player := p } := by
      injection hok with h; exact h.symm
    have hcn := toNat_lt_Cols hrange.1 hrange.2
    have hcast : ((c.toNat : Nat) : Int) = c := Int.toNat_of_nonneg hrange.1
    have h1 := hf r0 c.toNat hr0 hcn
    rw [hcast] at h1
    have h2 : ¬ Rows ≤ r0 + piecesIn ms c := fun hle => (h1.2 hle) he0
    have hk : r0 + piecesIn ms c + 1 = Rows := by
      by_contra hne
      have h3 : r0 + 1 < Rows := by omega
      have h4 := hmax (r0 + 1) (Nat.lt_succ_self r0) h3
      have h5 := (hf (r0 + 1) c.toNat h3 hcn).1 h4
      rw [hcast] at h5
      omega
    refine ⟨?_, ?_, ?_⟩
    · by_contra htop
      have := (hf 0 c.toNat (by decide) hcn).1 htop
      rw [hcast] at this
      omega
    · subst hm
      simp only [Rows] at hk
      simp only []
      omega
    · subst hm
      intro r' hlt hr'
      exact hmax r' (by simpa using hlt) hr'


/-! ## Hub: rejected moves -/

theorem setObj_same {α : Type} (mem : Ptr → α) (p : Ptr) (v : α) : setObj mem p v p = v := by
  simp [setObj]

theorem setObj_other {α : Type} (mem : Ptr → α) {p q : Ptr} (v : α) (h : q ≠ p) :
    setObj mem p v q = mem q := by
  simp [setObj, h]

theorem setObj_self {α : Type} (mem : Ptr → α) (p : Ptr) : setObj mem p (mem p) = mem := by
  funext q
  unfold setObj
  split
  · rename_i h; rw [h]
  · rfl

theorem sendBlocking_gameObj (w : World) (client : Ptr) (msg : Message) :
    (sendBlocking w client msg).gameObj = w.gameObj := by
  unfold sendBlocking
  simp only []
  split <;> rfl

theorem sendBlocking_matchmaker (w : World) (client : Ptr) (msg : Message) :
    (sendBlocking w client msg).matchmaker = w.matchmaker := by
  unfold sendBlocking
  simp only []
  split <;> rfl

theorem sendBlocking_connObj (w : World) (client : Ptr) (msg : Message) :
    (sendBlocking w client msg).connObj = w.connObj := by
  unfold sendBlocking
  simp only []
  split <;> rfl

theorem sendBlocking_clients (w : World) (client : Ptr) (msg : Message) :
    (sendBlocking w client msg).clients = w.clients := by
  unfold sendBlocking
  simp only []
  split <;> rfl

theorem sendBlocking_nextGame (w : World) (client : Ptr) (msg : Message) :
    (sendBlocking w client msg).nextGame = w.nextGame := by
  unfold sendBlocking
  simp only []
  split <;> rfl

theorem sendBlocking_sendClosed (w : World) (client : Ptr) (msg : Message) :
    (sendBlocking w client msg).sendClosed = w.sendClosed := by
  unfold sendBlocking
  simp only []
  split <;> rfl

theorem sendBlocking_clientObj_other (w : World) (client : Ptr) (msg : Message) {p : Ptr}
    (hp : p ≠ client) : (sendBlocking w client msg).clientObj p = w.clientObj p := by
  unfold sendBlocking
  simp only []
  split
  · exact setObj_other _ _ hp
  · rfl

theorem sendBlocking_room {w : World} {client : Ptr} (msg : Message)
    (h : (w.clientObj client).Send.length < SendCapacity) :
    sendBlocking w client msg = queued w client [msg] := by
  unfold sendBlocking queued
  simp only []
  rw [if_pos h]

theorem sendBlocking_full {w : World} {client : Ptr} (msg : Message)
    (h : SendCapacity ≤ (w.clientObj client).Send.length) :
    sendBlocking w client msg =
      { w with tasks := w.tasks ++ [Task.blockedSend client msg] } := by
  unfold sendBlocking
  simp only []
  rw [if_neg (Nat.not_lt.2 h)]

theorem sendError_gameObj (w : World) (client : Ptr) (e : String) :
    (sendError w client e).gameObj = w.gameObj := sendBlocking_gameObj _ _ _

theorem playerNumberOf_cases (gs : GameState) (u : String) :
    playerNumberOf gs u = Player1 ∨ playerNumberOf gs u = Player2 := by
  unfold playerNumberOf
  split
  · exact Or.inl rfl
  · split
    · exact Or.inr rfl
    · exact Or.inl rfl

/-- C6: `HandleMove` rejects, in this order of priority: with "No active game found" when
the display name has no game in the identity index (or the indexed game is not in the
registry); otherwise with "Game is already finished" when the finished flag is set,
whatever the turn and the column; otherwise with "Not your turn" when the side to move is
not the side of that display name, whatever the column. -/
theorem C6_handleMove_rejection_priority (w : World) (client : Ptr) (column : Int) (rand : Nat) :
    (w.matchmaker.playerToGame (w.clientObj client).Username = none →
      HandleMove w client column rand = some (sendError w client "No active game found")) ∧
    (GetGameByPlayer w (w.clientObj client).Username = none →
      HandleMove w client column rand = some (sendError w client "No active game found")) ∧
    (∀ g, GetGameByPlayer w (w.clientObj client).Username = some g →
      (w.gameObj g).IsFinished = true →
      HandleMove w client column rand = some (sendError w client "Game is already finished")) ∧
    (∀ g, GetGameByPlayer w (w.clientObj client).Username = some g →
      (w.gameObj g).IsFinished = false →
      ((w.gameObj g).Player1 = (w.clientObj client).Username ∨
        (w.gameObj g).Player2 = (w.clientObj client).Username) →
      ¬ IsSideOf (w.gameObj g) (w.clientObj client).Username (w.gameObj g).CurrentTurn →
      HandleMove w client column rand = some (sendError w client "Not your turn")) := by
  have hnone : GetGameByPlayer w (w.clientObj client).Username = none →
      HandleMove w client column rand = some (sendError w client "No active game found") := by
    intro h
    unfold HandleMove
    rw [h]
  refine ⟨fun h => hnone (by unfold GetGameByPlayer; rw [h]), hnone, fun g hg hfin => ?_,
    fun g hg hfin hpart hside => ?_⟩
  · unfold HandleMove
    rw [hg]
    simp only [hfin, if_true]
  · have hturn : (w.gameObj g).CurrentTurn ≠
        playerNumberOf (w.gameObj g) (w.clientObj client).Username := by
      intro heq
      apply hside
      unfold playerNumberOf at heq
      by_cases h1 : (w.gameObj g).Player1 = (w.clientObj client).Username
      · rw [if_pos h1] at heq
        exact Or.inl ⟨heq, h1⟩
      · rw [if_neg h1] at heq
        rcases hpart with h2 | h2
        · exact absurd h2 h1
        · rw [if_pos h2] at heq
          exact Or.inr ⟨heq, h2⟩
    unfold HandleMove
    rw [hg]
    simp only [hfin, Bool.false_eq_true, if_false]
    rw [if_pos hturn]

/-- A rejected call answers with the error and nothing else. -/
theorem HandleMove_of_rejected {w : World} {client : Ptr} {column : Int} {e : String}
    (h : Rejected w client column e) (rand : Nat) :
    HandleMove w client column rand = some (sendError w client e) := by
  cases h with
  | noActiveGame hg =>
    unfold HandleMove; rw [hg]
  | alreadyFinished g hg hfin =>
    unfold HandleMove; rw [hg]
    simp only [hfin, if_true]
  | notYourTurn g hg hfin hturn =>
    unfold HandleMove; rw [hg]
    simp only [hfin, Bool.false_eq_true, if_false]
    rw [if_pos hturn]
  | invalidColumn g hg hfin hturn hcol =>
    unfold HandleMove; rw [hg]
    simp only []
    rw [if_neg (by rw [hfin]; decide), if_neg (not_not.2 hturn)]
    have hm : MakeMove (w.gameObj g).Board column
        (playerNumberOf (w.gameObj g) (w.clientObj client).Username) =
        ((w.gameObj g).Board, .error "invalid column") := by
      unfold MakeMove
      rw [if_pos (by simpa [Cols] using hcol)]
    simp only [hm]
    show some (sendError { w with gameObj := setObj w.gameObj g (w.gameObj g) } client _) = _
    rw [setObj_self]
  | columnFull g hg hfin hturn hcol hfull =>
    unfold HandleMove; rw [hg]
    simp only []
    rw [if_neg (by rw [hfin]; decide), if_neg (not_not.2 hturn)]
    have hm : MakeMove (w.gameObj g).Board column
        (playerNumberOf (w.gameObj g) (w.clientObj client).Username) =
        ((w.gameObj g).Board, .error "column is full") := by
      rcases MakeMove_spec (w.gameObj g).Board column
        (playerNumberOf (w.gameObj g) (w.clientObj client).Username) with
        ⟨hbad, _⟩ | ⟨_, _, heq⟩ | ⟨_, r, hr, he, _, _⟩
      · simp only [Cols] at hbad
        have : column < 0 ∨ column ≥ 7 := by exact_mod_cast hbad
        omega
      · exact heq
      · exact absurd he (hfull r hr)
    simp only [hm]
    show some (sendError { w with gameObj := setObj w.gameObj g (w.gameObj g) } client _) = _
    rw [setObj_self]

/-- C9 (amended): when `HandleMove` rejects a call for one of the five caller-input
errors, every game object, the registry, the identity index, the waiting queue, the
live-connection set and every other connection are as before the call, and the one
message of the call is the error message for the offending connection: when its outbound
queue has room the message is appended to it and the call returns; when that queue is
full nothing is queued and the call waits in the send with that message. -/
theorem C9_rejected_move_leaves_state_unchanged (w : World) (client : Ptr) (column : Int)
    (rand : Nat) (e : String) (h : Rejected w client column e) :
    ∃ w', HandleMove w client column rand = some w' ∧
      w'.gameObj = w.gameObj ∧
      w'.matchmaker = w.matchmaker ∧
      w'.connObj = w.connObj ∧
      w'.clients = w.clients ∧
      w'.nextGame = w.nextGame ∧
      (∀ p, p ≠ client → w'.clientObj p = w.clientObj p) ∧
      ((w.clientObj client).Send.length < SendCapacity →
        w'.tasks = w.tasks ∧
        w'.clientObj client =
          { w.clientObj client with
            Send := (w.clientObj client).Send ++ [Message.error e] }) ∧
      (SendCapacity ≤ (w.clientObj client).Send.length →
        w'.tasks = w.tasks ++ [Task.blockedSend client (Message.error e)] ∧
        w'.clientObj client = w.clientObj client) := by
  refine ⟨sendError w client e, HandleMove_of_rejected h rand, sendBlocking_gameObj _ _ _,
    sendBlocking_matchmaker _ _ _, sendBlocking_connObj _ _ _, sendBlocking_clients _ _ _,
    sendBlocking_nextGame _ _ _, fun p hp => sendBlocking_clientObj_other _ _ _ hp,
    fun hroom => ?_, fun hfull => ?_⟩
  · unfold sendError
    rw [sendBlocking_room _ hroom]
    exact ⟨rfl, setObj_same _ _ _⟩
  · unfold sendError
    rw [sendBlocking_full _ hfull]
    exact ⟨rfl, rfl⟩


/-- A `HandleMove` call is its three sections run one after the other with nothing in
between. -/
theorem HandleMove_eq_sections (w : World) (client : Ptr) (column : Int) (rand : Nat) :
    HandleMove w client column rand = HandleMove.sections w client column rand := by
  unfold HandleMove HandleMove.sections HandleMove.checks HandleMove.apply HandleMove.resolve
  split
  · rfl
  · simp only []
    split
    · rfl
    · split
      · rfl
      · simp only []
        split <;> rfl

/-! ## Hub: accepted moves -/

theorem setObj_setObj {α : Type} (mem : Ptr → α) (p : Ptr) (v v' : α) :
    setObj (setObj mem p v) p v' = setObj mem p v' := by
  funext q
  unfold setObj
  split <;> rfl

@[simp] theorem sendToParticipants_gameObj (w : World) (gs : GameState) (msg : Message) :
    (sendToParticipants w gs msg).gameObj = w.gameObj := rfl

@[simp] theorem UpdateGame_gameObj (w : World) (k : String) (g : Ptr) :
    (UpdateGame w k g).gameObj = w.gameObj := rfl

@[simp] theorem broadcastMove_gameObj (w : World) (g : Ptr) (m : Move) :
    (broadcastMove w g m).gameObj = w.gameObj := rfl

theorem handleGameEnd_gameObj (w : World) (g : Ptr) (winner : Player) (isDraw : Bool) :
    (handleGameEnd w g winner isDraw).gameObj =
      setObj w.gameObj g
        { w.gameObj g with
          IsFinished := true
          Winner := if isDraw then "Draw"
            else if winner = Player1 then (w.gameObj g).Player1 else (w.gameObj g).Player2 } := rfl

theorem movedWorld_gameObj (w : World) (g : Ptr) (b1 : Board) (p : Player) (m : Move) :
    (movedWorld w g b1 p m).gameObj =
      setObj w.gameObj g
        { w.gameObj g with
          Board := b1, CurrentTurn := if p = Player1 then Player2 else Player1 } := rfl

/-- What `HandleMove` does once the three checks pass and `MakeMove` succeeds. -/
theorem HandleMove_accepted {w : World} {client : Ptr} {column : Int} {g : Ptr}
    {b1 : Board} {m : Move} (rand : Nat)
    (hg : GetGameByPlayer w (w.clientObj client).Username = some g)
    (hfin : (w.gameObj g).IsFinished = false)
    (hturn : (w.gameObj g).CurrentTurn =
      playerNumberOf (w.gameObj g) (w.clientObj client).Username)
    (hm : MakeMove (w.gameObj g).Board column
      (playerNumberOf (w.gameObj g) (w.clientObj client).Username) = (b1, .ok m)) :
    HandleMove w client column rand =
      if (CheckWinner b1).1 ≠ Empty ∨ (CheckWinner b1).2 = true then
        some (handleGameEnd
          (movedWorld w g b1 (playerNumberOf (w.gameObj g) (w.clientObj client).Username) m)
          g (CheckWinner b1).1 (CheckWinner b1).2)
      else if (w.gameObj g).Player2 = BotUsername ∧
          playerNumberOf (w.gameObj g) (w.clientObj client).Username = Player1 then
        handleBotMove
          (movedWorld w g b1 (playerNumberOf (w.gameObj g) (w.clientObj client).Username) m)
          g rand
      else
        some (movedWorld w g b1 (playerNumberOf (w.gameObj g) (w.clientObj client).Username) m) := by
  unfold HandleMove
  rw [hg]
  simp only []
  rw [if_neg (by rw [hfin]; decide), if_neg (not_not.2 hturn)]
  simp only [hm, broadcastMove_gameObj, UpdateGame_gameObj, setObj_same, setObj_setObj]
  have hiff : ((if playerNumberOf (w.gameObj g) (w.clientObj client).Username = Player1
      then Player2 else Player1) = Player2) ↔
      playerNumberOf (w.gameObj g) (w.clientObj client).Username = Player1 := by
    split
    · rename_i h; simp [h]
    · rename_i h
      exact ⟨fun h2 => absurd h2 (by decide), fun h2 => absurd h2 h⟩
  simp only [hiff]
  rfl


/-- C8: in an unfinished game whose second participant is not the automated opponent, a
move that `HandleMove` accepts from the side to move changes the board only by placing the
piece of the mover in the lowest empty cell of the chosen column, hands the turn to the
other side, and keeps the identifier and both participant identities of the game. -/
theorem C8_accepted_move_effect (w : World) (client : Ptr) (column : Int) (rand : Nat)
    (g : Ptr)
    (hg : GetGameByPlayer w (w.clientObj client).Username = some g)
    (hfin : (w.gameObj g).IsFinished = false)
    (hhuman : (w.gameObj g).Player2 ≠ BotUsername)
    (hturn : (w.gameObj g).CurrentTurn =
      playerNumberOf (w.gameObj g) (w.clientObj client).Username)
    (hcol : 0 ≤ column ∧ column < 7)
    (hroom : ∃ r, r < Rows ∧ (w.gameObj g).Board.get r column.toNat = Empty) :
    ∃ w' r, HandleMove w client column rand = some w' ∧
      r < Rows ∧ (w.gameObj g).Board.get r column.toNat = Empty ∧
      (∀ r', r' < Rows → (w.gameObj g).Board.get r' column.toNat = Empty → r' ≤ r) ∧
      (w'.gameObj g).Board.get r column.toNat = (w.gameObj g).CurrentTurn ∧
      (∀ r' c', r' < Rows → c' < Cols → (r' ≠ r ∨ c' ≠ column.toNat) →
        (w'.gameObj g).Board.get r' c' = (w.gameObj g).Board.get r' c') ∧
      ((w.gameObj g).CurrentTurn = Player1 → (w'.gameObj g).CurrentTurn = Player2) ∧
      ((w.gameObj g).CurrentTurn = Player2 → (w'.gameObj g).CurrentTurn = Player1) ∧
      ((w.gameObj g).CurrentTurn = Player1 ∨ (w.gameObj g).CurrentTurn = Player2) ∧
      (w'.gameObj g).ID = (w.gameObj g).ID ∧
      (w'.gameObj g).Player1 = (w.gameObj g).Player1 ∧
      (w'.gameObj g).Player2 = (w.gameObj g).Player2 := by
  have hcn : column.toNat < Cols := toNat_lt_Cols hcol.1 (by simpa [Cols] using hcol.2)
  rcases MakeMove_spec (w.gameObj g).Board column
      (playerNumberOf (w.gameObj g) (w.clientObj client).Username) with
    ⟨hbad, _⟩ | ⟨_, hall, _⟩ | ⟨_, r, hr, he, hmax, heq⟩
  · simp only [Cols] at hbad
    have : column < 0 ∨ column ≥ 7 := by exact_mod_cast hbad
    omega
  · obtain ⟨r, hr, he⟩ := hroom
    exact absurd he (hall r hr)
  · have hacc := HandleMove_accepted rand hg hfin hturn heq
    have hmax' : ∀ r', r' < Rows → (w.gameObj g).Board.get r' column.toNat = Empty → r' ≤ r := by
      intro r' hr' he'
      by_contra hlt
      exact hmax r' (by omega) hr' he'
    have hset : ((w.gameObj g).Board.set r column.toNat (w.gameObj g).CurrentTurn).get r
        column.toNat = (w.gameObj g).CurrentTurn := by
      simp [Board.get_set, hr, hcn]
    have hframe : ∀ r' c', r' < Rows → c' < Cols → (r' ≠ r ∨ c' ≠ column.toNat) →
        ((w.gameObj g).Board.set r column.toNat (w.gameObj g).CurrentTurn).get r' c' =
          (w.gameObj g).Board.get r' c' := by
      intro r' c' _ _ hne
      rw [Board.get_set, if_neg]
      rintro ⟨h1, h2, _⟩
      rcases hne with h | h
      · exact h h1
      · exact h h2
    have hside := playerNumberOf_cases (w.gameObj g) (w.clientObj client).Username
    rw [← hturn] at hacc hside
    have ht1 : (w.gameObj g).CurrentTurn = Player1 →
        (if (w.gameObj g).CurrentTurn = Player1 then Player2 else Player1) = Player2 :=
      fun h => by rw [if_pos h]
    have ht2 : (w.gameObj g).CurrentTurn = Player2 →
        (if (w.gameObj g).CurrentTurn = Player1 then Player2 else Player1) = Player1 :=
      fun h => by rw [if_neg (by rw [h]; decide)]
    by_cases hend : (CheckWinner ((w.gameObj g).Board.set r column.toNat
        (w.gameObj g).CurrentTurn)).1 ≠ Empty ∨
        (CheckWinner ((w.gameObj g).Board.set r column.toNat
          (w.gameObj g).CurrentTurn)).2 = true
    · rw [if_pos hend] at hacc
      refine ⟨_, r, hacc, hr, he, hmax', ?_, ?_, ?_, ?_, hside, ?_, ?_, ?_⟩ <;>
        simp only [handleGameEnd_gameObj, movedWorld_gameObj, setObj_same]
      · exact hset
      · exact hframe
      · exact ht1
      · exact ht2
    · rw [if_neg hend, if_neg (fun h => hhuman h.1)] at hacc
      refine ⟨_, r, hacc, hr, he, hmax', ?_, ?_, ?_, ?_, hside, ?_, ?_, ?_⟩ <;>
        simp only [movedWorld_gameObj, setObj_same]
      · exact hset
      · exact hframe
      · exact ht1
      · exact ht2


/-! ## Lines after one more piece -/

theorem line_after_set (b : Board) (r c : Nat) (p q : Player) (f g : Nat → Nat)
    (h : ∀ i, i < WinLength → (b.set r c p).get (f i) (g i) = q) :
    q = p ∨ ∀ i, i < WinLength → b.get (f i) (g i) = q := by
  by_cases hex : ∃ i, i < WinLength ∧ f i = r ∧ g i = c ∧ r < Rows ∧ c < Cols
  · obtain ⟨i, hi, hcell⟩ := hex
    have := h i hi
    rw [Board.get_set, if_pos hcell] at this
    exact Or.inl this.symm
  · refine Or.inr (fun i hi => ?_)
    have := h i hi
    rw [Board.get_set, if_neg (fun hh => hex ⟨i, hi, hh⟩)] at this
    exact this

/-- A line on the board after a piece of `p` was set is a line of `p` or was there before. -/
theorem FourInRow_set {b : Board} {r c : Nat} {p q : Player}
    (h : FourInRow (b.set r c p) q) : q = p ∨ FourInRow b q := by
  obtain ⟨hne, hl⟩ := h
  rcases hl with ⟨r0, hr0, c0, hc0, hb, hall⟩ | ⟨r0, hr0, c0, hc0, hb, hall⟩ |
      ⟨r0, hr0, c0, hc0, hb, hb2, hall⟩ | ⟨r0, hr0, c0, hc0, hb, hb2, hall⟩
  · rcases line_after_set b r c p q (fun _ => r0) (fun i => c0 + i) hall with h | h
    · exact Or.inl h
    · exact Or.inr ⟨hne, Or.inl ⟨r0, hr0, c0, hc0, hb, h⟩⟩
  · rcases line_after_set b r c p q (fun i => r0 + i) (fun _ => c0) hall with h | h
    · exact Or.inl h
    · exact Or.inr ⟨hne, Or.inr (Or.inl ⟨r0, hr0, c0, hc0, hb, h⟩)⟩
  · rcases line_after_set b r c p q (fun i => r0 + i) (fun i => c0 + i) hall with h | h
    · exact Or.inl h
    · exact Or.inr ⟨hne, Or.inr (Or.inr (Or.inl ⟨r0, hr0, c0, hc0, hb, hb2, h⟩))⟩
  · rcases line_after_set b r c p q (fun i => r0 + i) (fun i => c0 - i) hall with h | h
    · exact Or.inl h
    · exact Or.inr ⟨hne, Or.inr (Or.inr (Or.inr ⟨r0, hr0, c0, hc0, hb, hb2, h⟩))⟩

/-- After a successful move of `p` on a board without four in a row, every four in a row
is one of `p`. -/
theorem FourInRow_after_move {b b1 : Board} {c : Int} {p q : Player} {m : Move}
    (hno : ¬ AnyFourInRow b) (hm : MakeMove b c p = (b1, .ok m))
    (h : FourInRow b1 q) : q = p := by
  rcases MakeMove_spec b c p with ⟨_, heq⟩ | ⟨_, _, heq⟩ | ⟨_, r, _, _, _, heq⟩
  · rw [heq] at hm; cases hm
  · rw [heq] at hm; cases hm
  · rw [heq] at hm
    have hb : b1 = b.set r c.toNat p := (congrArg Prod.fst hm).symm
    rw [hb] at h
    rcases FourInRow_set h with h | h
    · exact h
    · exact absurd ⟨q, h⟩ hno

/-! ## The automated opponent picks a valid column -/

theorem mem_GetValidColumns {b : Board} {c : Int} :
    c ∈ GetValidColumns b ↔ (0 ≤ c ∧ c < 7) ∧ b.get 0 c.toNat = Empty := by
  unfold GetValidColumns
  rw [List.mem_map]
  constructor
  · rintro ⟨n, hn, rfl⟩
    rw [List.mem_filter, List.mem_range, decide_eq_true_eq] at hn
    have h7 : n < 7 := hn.1
    have hcast : Int.ofNat n = (n : Int) := rfl
    rw [hcast]
    refine ⟨⟨by omega, by omega⟩, ?_⟩
    simpa using hn.2
  · rintro ⟨⟨h0, h7⟩, he⟩
    refine ⟨c.toNat, ?_, Int.toNat_of_nonneg h0⟩
    rw [List.mem_filter, List.mem_range, decide_eq_true_eq]
    have : c.toNat < 7 := by omega
    exact ⟨this, he⟩

theorem GetValidColumns_ne_nil {b : Board} {c : Nat} (hc : c < Cols)
    (he : b.get 0 c = Empty) : GetValidColumns b ≠ [] := by
  have : (c : Int) ∈ GetValidColumns b := by
    rw [mem_GetValidColumns]
    simp only [Cols] at hc
    refine ⟨⟨by omega, by omega⟩, by simpa using he⟩
  exact List.ne_nil_of_mem this

theorem findWinningMove_mem (b : Board) (p : Player) :
    findWinningMove b p = -1 ∨ findWinningMove b p ∈ GetValidColumns b := by
  unfold findWinningMove
  split
  · rename_i col h
    exact Or.inr (List.mem_of_find?_eq_some h)
  · exact Or.inl rfl

theorem findStrategicMove_mem (b : Board) (p : Player) :
    findStrategicMove b p = -1 ∨ findStrategicMove b p ∈ GetValidColumns b := by
  unfold findStrategicMove
  have key : ∀ (l : List Int) (best : Option Int × Int),
      (best.2 = -1 ∨ best.2 ∈ GetValidColumns b) → (∀ x ∈ l, x ∈ GetValidColumns b) →
      ((l.foldl (fun (best : Option Int × Int) col =>
        let score := evaluateColumn b col p
        if scoreGt score best.1 then (score, col) else best) best).2 = -1 ∨
       (l.foldl (fun (best : Option Int × Int) col =>
        let score := evaluateColumn b col p
        if scoreGt score best.1 then (score, col) else best) best).2 ∈ GetValidColumns b) := by
    intro l
    induction l with
    | nil => intro best hb _; exact hb
    | cons x xs ih =>
      intro best hb hl
      rw [List.foldl_cons]
      apply ih
      · simp only []
        split
        · exact Or.inr (hl x (List.mem_cons_self x xs))
        · exact hb
      · intro y hy; exact hl y (List.mem_cons_of_mem x hy)
  exact key _ _ (Or.inl rfl) (fun x hx => hx)

/-- With a valid column on the board `SelectBotMove` returns one of the valid columns. -/
theorem SelectBotMove_valid (b : Board) (s : Player) (rand : Nat)
    (h : GetValidColumns b ≠ []) :
    ∃ c, SelectBotMove b s rand = some c ∧ c ∈ GetValidColumns b := by
  unfold SelectBotMove
  simp only []
  by_cases h1 : findWinningMove b s ≠ -1
  · rw [if_pos h1]
    rcases findWinningMove_mem b s with h2 | h2
    · exact absurd h2 h1
    · exact ⟨_, rfl, h2⟩
  · rw [if_neg h1]
    by_cases h3 : findWinningMove b (if s = Player1 then Player2 else Player1) ≠ -1
    · rw [if_pos h3]
      rcases findWinningMove_mem b (if s = Player1 then Player2 else Player1) with h2 | h2
      · exact absurd h2 h3
      · exact ⟨_, rfl, h2⟩
    · rw [if_neg h3]
      by_cases h4 : findStrategicMove b s ≠ -1
      · rw [if_pos h4]
        rcases findStrategicMove_mem b s with h2 | h2
        · exact absurd h2 h4
        · exact ⟨_, rfl, h2⟩
      · rw [if_neg h4]
        by_cases hlen : (List.filter (fun col => decide (col ≥ 2 ∧ col ≤ 4))
            (GetValidColumns b)).length > 0
        · rw [if_pos hlen]
          have hlt : rand % (List.filter (fun col => decide (col ≥ 2 ∧ col ≤ 4))
              (GetValidColumns b)).length <
              (List.filter (fun col => decide (col ≥ 2 ∧ col ≤ 4)) (GetValidColumns b)).length :=
            Nat.mod_lt _ hlen
          refine ⟨_, List.getElem?_eq_getElem hlt, ?_⟩
          exact List.mem_of_mem_filter (List.getElem_mem hlt)
        · rw [if_neg hlen]
          have hpos : 0 < (GetValidColumns b).length := List.length_pos.2 h
          rw [if_neg (by omega)]
          have hlt : rand % (GetValidColumns b).length < (GetValidColumns b).length :=
            Nat.mod_lt _ hpos
          exact ⟨_, List.getElem?_eq_getElem hlt, List.getElem_mem hlt⟩


/-! ## Hub: how an accepted move ends -/

theorem CheckWinner_of_line {b : Board} {p : Player} (hown : ∀ q, FourInRow b q → q = p)
    (h : AnyFourInRow b) : CheckWinner b = (p, false) ∧ p ≠ Empty := by
  rcases CheckWinner_cases b with ⟨q, hq, hcw⟩ | ⟨hno, _⟩
  · have := hown q hq
    subst this
    exact ⟨hcw, hq.1⟩
  · exact absurd h hno

theorem CheckWinner_of_no_line {b : Board} (h : ¬ AnyFourInRow b) :
    CheckWinner b = (Empty, topRowFull b) := by
  rcases CheckWinner_cases b with ⟨q, hq, _⟩ | ⟨_, hcw⟩
  · exact absurd ⟨q, hq⟩ h
  · exact hcw

theorem topRowFull_eq_true_iff (b : Board) : topRowFull b = true ↔ TopRowFilled b :=
  topRowFull_iff b

theorem botMovedWorld_gameObj (w : World) (g : Ptr) (b2 : Board) (m : Move) :
    (botMovedWorld w g b2 m).gameObj =
      setObj w.gameObj g { w.gameObj g with Board := b2, CurrentTurn := Player1 } := rfl

/-- What `handleBotMove` does when `SelectBotMove` returns `c` and `MakeMove` succeeds. -/
theorem handleBotMove_eq {w : World} {g : Ptr} {rand : Nat} {c : Int} {b2 : Board} {m2 : Move}
    (hsel : SelectBotMove (w.gameObj g).Board Player2 rand = some c)
    (hm : MakeMove (w.gameObj g).Board c Player2 = (b2, .ok m2)) :
    handleBotMove w g rand =
      if (CheckWinner b2).1 ≠ Empty ∨ (CheckWinner b2).2 = true then
        some (handleGameEnd (botMovedWorld w g b2 m2) g (CheckWinner b2).1 (CheckWinner b2).2)
      else some (botMovedWorld w g b2 m2) := by
  unfold handleBotMove
  rw [hsel]
  simp only [hm, broadcastMove_gameObj, UpdateGame_gameObj, setObj_same]
  rfl

/-- A column of `GetValidColumns` takes a move. -/
theorem MakeMove_ok_of_valid {b : Board} {c : Int} (p : Player) (h : c ∈ GetValidColumns b) :
    ∃ b2 m2, MakeMove b c p = (b2, .ok m2) := by
  rw [mem_GetValidColumns] at h
  rcases MakeMove_spec b c p with ⟨hbad, _⟩ | ⟨_, hall, _⟩ | ⟨_, r, _, _, _, heq⟩
  · simp only [Cols] at hbad
    have : c < 0 ∨ c ≥ 7 := by exact_mod_cast hbad
    omega
  · exact absurd h.2 (hall 0 (by decide))
  · exact ⟨_, _, heq⟩

/-- The outcome of an accepted move on a game that had no four in a row: the game object
after the call, by cases on the board `b1` after the move of the mover and, when the
automated opponent replies, on the board `b2` after its move. -/
theorem HandleMove_accepted_outcome {w : World} {client : Ptr} {column : Int} {g : Ptr}
    {b1 : Board} {m : Move} (rand : Nat)
    (hg : GetGameByPlayer w (w.clientObj client).Username = some g)
    (hfin : (w.gameObj g).IsFinished = false)
    (hturn : (w.gameObj g).CurrentTurn =
      playerNumberOf (w.gameObj g) (w.clientObj client).Username)
    (hm : MakeMove (w.gameObj g).Board column
      (playerNumberOf (w.gameObj g) (w.clientObj client).Username) = (b1, .ok m))
    (hno : ¬ AnyFourInRow (w.gameObj g).Board) :
    ∃ w', HandleMove w client column rand = some w' ∧
      (∀ q, q ≠ g → w'.gameObj q = w.gameObj q) ∧
      (w'.gameObj g).ID = (w.gameObj g).ID ∧
      (w'.gameObj g).Player1 = (w.gameObj g).Player1 ∧
      (w'.gameObj g).Player2 = (w.gameObj g).Player2 ∧
      ((FourInRow b1 (playerNumberOf (w.gameObj g) (w.clientObj client).Username) ∧
          (w'.gameObj g).Board = b1 ∧ (w'.gameObj g).IsFinished = true ∧
          (w'.gameObj g).Winner =
            (if playerNumberOf (w.gameObj g) (w.clientObj client).Username = Player1
              then (w.gameObj g).Player1 else (w.gameObj g).Player2)) ∨
        ((¬ AnyFourInRow b1) ∧ TopRowFilled b1 ∧
          (w'.gameObj g).Board = b1 ∧ (w'.gameObj g).IsFinished = true ∧
          (w'.gameObj g).Winner = "Draw") ∨
        ((¬ AnyFourInRow b1) ∧ (¬ TopRowFilled b1) ∧
          (¬ BotReplies (w.gameObj g)
            (playerNumberOf (w.gameObj g) (w.clientObj client).Username)) ∧
          (w'.gameObj g).Board = b1 ∧ (w'.gameObj g).IsFinished = false ∧
          (w'.gameObj g).Winner = (w.gameObj g).Winner ∧
          (w'.gameObj g).CurrentTurn =
            (if playerNumberOf (w.gameObj g) (w.clientObj client).Username = Player1
              then Player2 else Player1)) ∨
        ((¬ AnyFourInRow b1) ∧ (¬ TopRowFilled b1) ∧
          BotReplies (w.gameObj g)
            (playerNumberOf (w.gameObj g) (w.clientObj client).Username) ∧
          ∃ c b2 m2, SelectBotMove b1 Player2 rand = some c ∧
            MakeMove b1 c Player2 = (b2, .ok m2) ∧ (w'.gameObj g).Board = b2 ∧
            ((FourInRow b2 Player2 ∧ (w'.gameObj g).IsFinished = true ∧
                (w'.gameObj g).Winner = (w.gameObj g).Player2) ∨
              ((¬ AnyFourInRow b2) ∧ TopRowFilled b2 ∧ (w'.gameObj g).IsFinished = true ∧
                (w'.gameObj g).Winner = "Draw") ∨
              ((¬ AnyFourInRow b2) ∧ (¬ TopRowFilled b2) ∧
                (w'.gameObj g).IsFinished = false ∧
                (w'.gameObj g).Winner = (w.gameObj g).Winner ∧
                (w'.gameObj g).CurrentTurn = Player1)))) := by
  have hacc := HandleMove_accepted rand hg hfin hturn hm
  have hown : ∀ q, FourInRow b1 q →
      q = playerNumberOf (w.gameObj g) (w.clientObj client).Username :=
    fun q hq => FourInRow_after_move hno hm hq
  generalize playerNumberOf (w.gameObj g) (w.clientObj client).Username = p at *
  by_cases hany : AnyFourInRow b1
  · obtain ⟨hcw, hpne⟩ := CheckWinner_of_line hown hany
    have hline : FourInRow b1 p := by
      obtain ⟨q, hq⟩ := hany
      have := hown q hq
      subst this; exact hq
    rw [hcw, if_pos (Or.inl hpne)] at hacc
    refine ⟨_, hacc, fun q hq => ?_, ?_, ?_, ?_, Or.inl ⟨hline, ?_, ?_, ?_⟩⟩
    · simp only [handleGameEnd_gameObj, movedWorld_gameObj, setObj_other _ _ hq]
    all_goals simp [handleGameEnd_gameObj, movedWorld_gameObj, setObj_same]
  · have hcw := CheckWinner_of_no_line hany
    rw [hcw] at hacc
    by_cases hfull : topRowFull b1 = true
    · rw [if_pos (Or.inr hfull), hfull] at hacc
      refine ⟨_, hacc, fun q hq => ?_, ?_, ?_, ?_,
        Or.inr (Or.inl ⟨hany, (topRowFull_eq_true_iff b1).1 hfull, ?_, ?_, ?_⟩)⟩
      · simp only [handleGameEnd_gameObj, movedWorld_gameObj, setObj_other _ _ hq]
      all_goals simp [handleGameEnd_gameObj, movedWorld_gameObj, setObj_same]
    · have hnf : ¬ TopRowFilled b1 := fun h => hfull ((topRowFull_eq_true_iff b1).2 h)
      have hcond : ¬ ((Empty : Player) ≠ Empty ∨ topRowFull b1 = true) := by
        rintro (h | h)
        · exact h rfl
        · exact hfull h
      rw [if_neg hcond] at hacc
      by_cases hbot : (w.gameObj g).Player2 = BotUsername ∧ p = Player1
      · rw [if_pos hbot] at hacc
        -- the automated opponent finds a valid column
        have hvalid : GetValidColumns b1 ≠ [] := by
          by_contra hnil
          apply hnf
          intro c hc he
          exact GetValidColumns_ne_nil hc he hnil
        obtain ⟨c, hsel, hcmem⟩ := SelectBotMove_valid b1 Player2 rand hvalid
        obtain ⟨b2, m2, hm2⟩ := MakeMove_ok_of_valid Player2 hcmem
        have hb1 : ((movedWorld w g b1 p m).gameObj g).Board = b1 := by
          rw [movedWorld_gameObj, setObj_same]
        have hbm := @handleBotMove_eq (movedWorld w g b1 p m) g rand c b2 m2
          (by rw [hb1]; exact hsel) (by rw [hb1]; exact hm2)
        rw [hbm] at hacc
        have hown2 : ∀ q, FourInRow b2 q → q = Player2 :=
          fun q hq => FourInRow_after_move hany hm2 hq
        by_cases hany2 : AnyFourInRow b2
        · obtain ⟨hcw2, hpne2⟩ := CheckWinner_of_line hown2 hany2
          have hline2 : FourInRow b2 Player2 := by
            obtain ⟨q, hq⟩ := hany2
            have := hown2 q hq
            subst this; exact hq
          rw [hcw2, if_pos (Or.inl hpne2)] at hacc
          refine ⟨_, hacc, fun q hq => ?_, ?_, ?_, ?_,
            Or.inr (Or.inr (Or.inr ⟨hany, hnf, hbot, c, b2, m2, hsel, hm2, ?_,
              Or.inl ⟨hline2, ?_, ?_⟩⟩))⟩
          · simp only [handleGameEnd_gameObj, botMovedWorld_gameObj, movedWorld_gameObj,
              setObj_other _ _ hq]
          all_goals simp [handleGameEnd_gameObj, botMovedWorld_gameObj, movedWorld_gameObj,
            setObj_same, Player1, Player2]
        · have hcw2 := CheckWinner_of_no_line hany2
          rw [hcw2] at hacc
          by_cases hfull2 : topRowFull b2 = true
          · rw [if_pos (Or.inr hfull2), hfull2] at hacc
            refine ⟨_, hacc, fun q hq => ?_, ?_, ?_, ?_,
              Or.inr (Or.inr (Or.inr ⟨hany, hnf, hbot, c, b2, m2, hsel, hm2, ?_,
                Or.inr (Or.inl ⟨hany2, (topRowFull_eq_true_iff b2).1 hfull2, ?_, ?_⟩)⟩))⟩
            · simp only [handleGameEnd_gameObj, botMovedWorld_gameObj, movedWorld_gameObj,
                setObj_other _ _ hq]
            all_goals simp [handleGameEnd_gameObj, botMovedWorld_gameObj, movedWorld_gameObj,
              setObj_same]
          · have hnf2 : ¬ TopRowFilled b2 :=
              fun h => hfull2 ((topRowFull_eq_true_iff b2).2 h)
            have hcond2 : ¬ ((Empty : Player) ≠ Empty ∨ topRowFull b2 = true) := by
              rintro (h | h)
              · exact h rfl
              · exact hfull2 h
            rw [if_neg hcond2] at hacc
            refine ⟨_, hacc, fun q hq => ?_, ?_, ?_, ?_,
              Or.inr (Or.inr (Or.inr ⟨hany, hnf, hbot, c, b2, m2, hsel, hm2, ?_,
                Or.inr (Or.inr ⟨hany2, hnf2, ?_, ?_, ?_⟩)⟩))⟩
            · simp only [botMovedWorld_gameObj, movedWorld_gameObj, setObj_other _ _ hq]
            all_goals simp [botMovedWorld_gameObj, movedWorld_gameObj, setObj_same, hfin]
      · rw [if_neg hbot] at hacc
        refine ⟨_, hacc, fun q hq => ?_, ?_, ?_, ?_,
          Or.inr (Or.inr (Or.inl ⟨hany, hnf, hbot, ?_, ?_, ?_, ?_⟩))⟩
        · simp only [movedWorld_gameObj, setObj_other _ _ hq]
        all_goals simp [movedWorld_gameObj, setObj_same, hfin]


/-! ## Hub: games played through `HandleMove` -/

/-- Every call of `HandleMove` is rejected with one of the five errors or passes the three
checks with a successful `MakeMove`. -/
theorem HandleMove_cases (w : World) (client : Ptr) (column : Int) :
    (∃ e, Rejected w client column e) ∨
    (∃ g b1 m, GetGameByPlayer w (w.clientObj client).Username = some g ∧
      (w.gameObj g).IsFinished = false ∧
      (w.gameObj g).CurrentTurn = playerNumberOf (w.gameObj g) (w.clientObj client).Username ∧
      MakeMove (w.gameObj g).Board column
        (playerNumberOf (w.gameObj g) (w.clientObj client).Username) = (b1, .ok m)) := by
  rcases Option.eq_none_or_eq_some (GetGameByPlayer w (w.clientObj client).Username) with
    hg | ⟨g, hg⟩
  · exact Or.inl ⟨_, Rejected.noActiveGame hg⟩
  · by_cases hfin : (w.gameObj g).IsFinished = true
    · exact Or.inl ⟨_, Rejected.alreadyFinished g hg hfin⟩
    · have hfin : (w.gameObj g).IsFinished = false := by simpa using hfin
      by_cases hturn : (w.gameObj g).CurrentTurn =
          playerNumberOf (w.gameObj g) (w.clientObj client).Username
      · rcases MakeMove_spec (w.gameObj g).Board column
            (playerNumberOf (w.gameObj g) (w.clientObj client).Username) with
          ⟨hbad, _⟩ | ⟨hr, hall, _⟩ | ⟨_, r, _, _, _, heq⟩
        · simp only [Cols] at hbad
          have : column < 0 ∨ column ≥ 7 := by exact_mod_cast hbad
          exact Or.inl ⟨_, Rejected.invalidColumn g hg hfin hturn this⟩
        · simp only [Cols] at hr
          have : 0 ≤ column ∧ column < 7 := by exact_mod_cast hr
          exact Or.inl ⟨_, Rejected.columnFull g hg hfin hturn this hall⟩
        · exact Or.inr ⟨g, _, _, hg, hfin, hturn, heq⟩
      · exact Or.inl ⟨_, Rejected.notYourTurn g hg hfin hturn⟩

theorem handleBotMove_frame {w w' : World} {g : Ptr} {rand : Nat}
    (h : handleBotMove w g rand = some w') (q : Ptr) (hq : q ≠ g) :
    w'.gameObj q = w.gameObj q := by
  unfold handleBotMove at h
  cases hsel : SelectBotMove (w.gameObj g).Board Player2 rand with
  | none => rw [hsel] at h; cases h
  | some c =>
    rw [hsel] at h
    simp only [] at h
    cases hm : (MakeMove (w.gameObj g).Board c Player2).2 with
    | error e => rw [hm] at h; cases h
    | ok m2 =>
      rw [hm] at h
      simp only [] at h
      split at h
      · injection h with h
        rw [← h]
        simp only [handleGameEnd_gameObj, broadcastMove_gameObj, UpdateGame_gameObj,
          setObj_other _ _ hq]
      · injection h with h
        rw [← h]
        simp only [broadcastMove_gameObj, UpdateGame_gameObj, setObj_other _ _ hq]

/-- A call of `HandleMove` changes no game object other than the game of the caller. -/
theorem HandleMove_frame {w w' : World} {client : Ptr} {column : Int} {rand : Nat}
    (h : HandleMove w client column rand = some w') (q : Ptr)
    (hq : GetGameByPlayer w (w.clientObj client).Username ≠ some q) :
    w'.gameObj q = w.gameObj q := by
  rcases HandleMove_cases w client column with ⟨e, hrej⟩ | ⟨g, b1, m, hg, hfin, hturn, hm⟩
  · rw [HandleMove_of_rejected hrej rand] at h
    injection h with h
    rw [← h, sendError_gameObj]
  · have hqg : q ≠ g := fun heq => hq (by rw [heq]; exact hg)
    rw [HandleMove_accepted rand hg hfin hturn hm] at h
    split at h
    · injection h with h
      rw [← h]
      simp only [handleGameEnd_gameObj, movedWorld_gameObj, setObj_other _ _ hqg]
    · split at h
      · rw [handleBotMove_frame h q hqg]
        simp only [movedWorld_gameObj, setObj_other _ _ hqg]
      · injection h with h
        rw [← h]
        simp only [movedWorld_gameObj, setObj_other _ _ hqg]

theorem not_AnyFourInRow_CreateBoard : ¬ AnyFourInRow CreateBoard := by
  rintro ⟨p, hne, hl⟩
  have h0 : ∀ r c, CreateBoard.get r c = p → False := fun r c h => hne (by rw [← h, CreateBoard_get])
  rcases hl with ⟨r, _, c, _, _, hall⟩ | ⟨r, _, c, _, _, hall⟩ | ⟨r, _, c, _, _, _, hall⟩ |
      ⟨r, _, c, _, _, _, hall⟩
  all_goals exact h0 _ _ (hall 0 (by decide))

/-- One call of `HandleMove` keeps a game without four in a row and without winner while
it is unfinished. -/
theorem HandleMove_keeps_open {w w' : World} {client : Ptr} {column : Int} {rand : Nat}
    (g : Ptr) (h : HandleMove w client column rand = some w')
    (hinv : UnfinishedGameOpen (w.gameObj g)) : UnfinishedGameOpen (w'.gameObj g) := by
  by_cases hlook : GetGameByPlayer w (w.clientObj client).Username = some g
  · rcases HandleMove_cases w client column with ⟨e, hrej⟩ | ⟨g', b1, m, hg, hfin, hturn, hm⟩
    · rw [HandleMove_of_rejected hrej rand] at h
      injection h with h
      rw [← h, sendError_gameObj]; exact hinv
    · have hgg : g' = g := by
        rw [hg] at hlook; injection hlook
      subst hgg
      obtain ⟨hno, hw⟩ := hinv hfin
      obtain ⟨w'', hw'', _, _, _, _, hcases⟩ :=
        HandleMove_accepted_outcome rand hg hfin hturn hm hno
      rw [hw''] at h
      injection h with h
      subst h
      intro hfin'
      rcases hcases with ⟨_, _, hf, _⟩ | ⟨_, _, _, hf, _⟩ | ⟨hno1, _, _, hb, _, hwin, _⟩ |
          ⟨_, _, _, c, b2, m2, _, _, hb, hc2⟩
      · rw [hf] at hfin'; cases hfin'
      · rw [hf] at hfin'; cases hfin'
      · rw [hb, hwin]; exact ⟨hno1, hw⟩
      · rcases hc2 with ⟨_, hf, _⟩ | ⟨_, _, hf, _⟩ | ⟨hno2, _, _, hwin, _⟩
        · rw [hf] at hfin'; cases hfin'
        · rw [hf] at hfin'; cases hfin'
        · rw [hb, hwin]; exact ⟨hno2, hw⟩
  · rw [HandleMove_frame h g hlook]
    exact hinv

theorem unfinishedGameOpen_of_played {g : Ptr} {w : World} (h : PlayedByHandleMove g w) :
    UnfinishedGameOpen (w.gameObj g) := by
  induction h with
  | start hfresh =>
    intro _
    obtain ⟨hb, _, _, hw⟩ := hfresh
    rw [hb]
    exact ⟨not_AnyFourInRow_CreateBoard, hw⟩
  | move client column rand _ hstep ih => exact HandleMove_keeps_open g hstep ih

theorem played_of_playMoves {g : Ptr} (rand : Nat) (ms : List (Ptr × Int)) :
    ∀ {w w' : World}, PlayedByHandleMove g w → playMoves w rand ms = some w' →
      PlayedByHandleMove g w' := by
  induction ms with
  | nil =>
    intro w w' h hp
    simp only [RowFlow.playMoves] at hp
    injection hp with hp
    rw [← hp]; exact h
  | cons x xs ih =>
    intro w w' h hp
    obtain ⟨client, column⟩ := x
    simp only [RowFlow.playMoves] at hp
    cases hstep : HandleMove w client column rand with
    | none => rw [hstep] at hp; cases hp
    | some w1 =>
      rw [hstep] at hp
      exact ih (PlayedByHandleMove.move client column rand h hstep) hp

/-- Game-end resolution when calls do not overlap: in a game that started from the empty
board and was played only through `HandleMove` calls run one after the other, an accepted
move of a participant ends as follows. If the board after the
move has a four in a row, it is one of the mover, the game is finished and its winner is
the display name of the mover. If it has none and the top row is filled, the game is
finished with winner "Draw". Otherwise the game stays unfinished with no winner, unless
the automated opponent replies in the same call, and then the same holds for its move
with the name of the automated opponent. -/
theorem serialized_game_end_resolution (g : Ptr) (w : World) (hplay : PlayedByHandleMove g w)
    (client : Ptr) (column : Int) (rand : Nat) (b1 : Board) (m : Move)
    (hg : GetGameByPlayer w (w.clientObj client).Username = some g)
    (hpart : (w.gameObj g).Player1 = (w.clientObj client).Username ∨
      (w.gameObj g).Player2 = (w.clientObj client).Username)
    (hfin : (w.gameObj g).IsFinished = false)
    (hturn : (w.gameObj g).CurrentTurn =
      playerNumberOf (w.gameObj g) (w.clientObj client).Username)
    (hm : MakeMove (w.gameObj g).Board column
      (playerNumberOf (w.gameObj g) (w.clientObj client).Username) = (b1, .ok m)) :
    ∃ w', HandleMove w client column rand = some w' ∧
      (AnyFourInRow b1 →
        FourInRow b1 (playerNumberOf (w.gameObj g) (w.clientObj client).Username) ∧
        (w'.gameObj g).IsFinished = true ∧
        (w'.gameObj g).Winner = (w.clientObj client).Username) ∧
      ((¬ AnyFourInRow b1) → TopRowFilled b1 →
        (w'.gameObj g).IsFinished = true ∧ (w'.gameObj g).Winner = "Draw") ∧
      ((¬ AnyFourInRow b1) → (¬ TopRowFilled b1) →
        (¬ BotReplies (w.gameObj g)
          (playerNumberOf (w.gameObj g) (w.clientObj client).Username)) →
        (w'.gameObj g).Board = b1 ∧
        (w'.gameObj g).IsFinished = false ∧ (w'.gameObj g).Winner = "") ∧
      ((¬ AnyFourInRow b1) → (¬ TopRowFilled b1) →
        BotReplies (w.gameObj g)
          (playerNumberOf (w.gameObj g) (w.clientObj client).Username) →
        ∃ c b2 m2, SelectBotMove b1 Player2 rand = some c ∧
          MakeMove b1 c Player2 = (b2, .ok m2) ∧ (w'.gameObj g).Board = b2 ∧
          (AnyFourInRow b2 → FourInRow b2 Player2 ∧
            (w'.gameObj g).IsFinished = true ∧ (w'.gameObj g).Winner = BotUsername) ∧
          ((¬ AnyFourInRow b2) → TopRowFilled b2 →
            (w'.gameObj g).IsFinished = true ∧ (w'.gameObj g).Winner = "Draw") ∧
          ((¬ AnyFourInRow b2) → (¬ TopRowFilled b2) →
            (w'.gameObj g).IsFinished = false ∧ (w'.gameObj g).Winner = "")) := by
  obtain ⟨hno, hw⟩ := unfinishedGameOpen_of_played hplay hfin
  obtain ⟨w', hw', _, _, _, _, hcases⟩ :=
    HandleMove_accepted_outcome rand hg hfin hturn hm hno
  have hname : (if playerNumberOf (w.gameObj g) (w.clientObj client).Username = Player1
      then (w.gameObj g).Player1 else (w.gameObj g).Player2) =
      (w.clientObj client).Username := by
    unfold playerNumberOf
    by_cases h1 : (w.gameObj g).Player1 = (w.clientObj client).Username
    · rw [if_pos h1, if_pos rfl]; exact h1
    · rcases hpart with h2 | h2
      · exact absurd h2 h1
      · rw [if_neg h1, if_pos h2, if_neg (by decide)]; exact h2
  refine ⟨w', hw', ?_, ?_, ?_, ?_⟩
  · intro hany
    rcases hcases with ⟨hl, _, hf, hwin⟩ | ⟨hn, _⟩ | ⟨hn, _⟩ | ⟨hn, _⟩
    · exact ⟨hl, hf, hwin.trans hname⟩
    · exact absurd hany hn
    · exact absurd hany hn
    · exact absurd hany hn
  · intro hnone hfull
    rcases hcases with ⟨hl, _⟩ | ⟨_, _, _, hf, hwin⟩ | ⟨_, hn, _⟩ | ⟨_, hn, _⟩
    · exact absurd ⟨_, hl⟩ hnone
    · exact ⟨hf, hwin⟩
    · exact absurd hfull hn
    · exact absurd hfull hn
  · intro hnone hnfull hnbot
    rcases hcases with ⟨hl, _⟩ | ⟨_, hf, _⟩ | ⟨_, _, _, hb, hf, hwin, _⟩ | ⟨_, _, hbot, _⟩
    · exact absurd ⟨_, hl⟩ hnone
    · exact absurd hf hnfull
    · exact ⟨hb, hf, hwin.trans hw⟩
    · exact absurd hbot hnbot
  · intro hnone hnfull hbot
    rcases hcases with ⟨hl, _⟩ | ⟨_, hf, _⟩ | ⟨_, _, hnb, _⟩ |
        ⟨_, _, _, c, b2, m2, hsel, hm2, hb, hc2⟩
    · exact absurd ⟨_, hl⟩ hnone
    · exact absurd hf hnfull
    · exact absurd hbot hnb
    · refine ⟨c, b2, m2, hsel, hm2, hb, ?_, ?_, ?_⟩
      · intro hany2
        rcases hc2 with ⟨hl, hf, hwin⟩ | ⟨hn, _⟩ | ⟨hn, _⟩
        · exact ⟨hl, hf, hwin.trans hbot.1⟩
        · exact absurd hany2 hn
        · exact absurd hany2 hn
      · intro hnone2 hfull2
        rcases hc2 with ⟨hl, _⟩ | ⟨_, _, hf, hwin⟩ | ⟨_, hn, _⟩
        · exact absurd ⟨_, hl⟩ hnone2
        · exact ⟨hf, hwin⟩
        · exact absurd hfull2 hn
      · intro hnone2 hnfull2
        rcases hc2 with ⟨hl, _⟩ | ⟨_, hf, _⟩ | ⟨_, _, hf, hwin, _⟩
        · exact absurd ⟨_, hl⟩ hnone2
        · exact absurd hf hnfull2
        · exact ⟨hf, hwin.trans hw⟩


/-! ## Instances at concrete states -/

theorem C4_no_floating_pieces_witness :
    NoFloating (MakeMove CreateBoard 3 Player1).1 ∧
    ∀ (c : Int) (p : Player) (m : Move),
      (MakeMove (MakeMove CreateBoard 3 Player1).1 c p).2 = .ok m →
      (MakeMove CreateBoard 3 Player1).1.get 0 c.toNat = Empty ∧
      m.Row = 6 - ((piecesIn ([] ++ [{ Column := 3, Row := 5, Player := Player1 }]) c + 1 : Nat) : Int) ∧
      (∀ r', m.Row.toNat < r' → r' < Rows →
        (MakeMove CreateBoard 3 Player1).1.get r' c.toNat ≠ Empty) :=
  C4_no_floating_pieces _ _
    (Plays.snoc 3 Player1 { Column := 3, Row := 5, Player := Player1 } Plays.nil (by decide))

set_option maxRecDepth 1000000 in
theorem C9_rejected_move_leaves_state_unchanged_witness :
    (∃ w', HandleMove pairedTrace 0 0 0 = some w' ∧
      w'.gameObj = pairedTrace.gameObj ∧
      w'.matchmaker = pairedTrace.matchmaker ∧
      w'.clients = pairedTrace.clients ∧
      (∀ p, p ≠ 0 → w'.clientObj p = pairedTrace.clientObj p) ∧
      w'.tasks = pairedTrace.tasks ∧
      w'.clientObj 0 =
        { pairedTrace.clientObj 0 with
          Send := [Message.waiting "Waiting for opponent...",
            Message.error "Not your turn"] }) ∧
    (∃ w', HandleMove spamWorld 0 0 0 = some w' ∧
      w'.gameObj = spamWorld.gameObj ∧
      w'.matchmaker = spamWorld.matchmaker ∧
      w'.clients = spamWorld.clients ∧
      (∀ p, p ≠ 0 → w'.clientObj p = spamWorld.clientObj p) ∧
      w'.tasks = spamWorld.tasks ++ [Task.blockedSend 0 (Message.error "Not your turn")] ∧
      w'.clientObj 0 = spamWorld.clientObj 0) := by
  obtain ⟨w1, hw1, hg1, hm1, _, hc1, _, ho1, hroom1, _⟩ :=
    C9_rejected_move_leaves_state_unchanged pairedTrace 0 0 0 "Not your turn"
      (Rejected.notYourTurn 0 (by decide) (by decide) (by decide))
  obtain ⟨w2, hw2, hg2, hm2, _, hc2, _, ho2, _, hfull2⟩ :=
    C9_rejected_move_leaves_state_unchanged spamWorld 0 0 0 "Not your turn"
      (Rejected.notYourTurn 0 (by decide) (by decide) (by decide))
  exact ⟨⟨w1, hw1, hg1, hm1, hc1, ho1, (hroom1 (by decide)).1,
      (hroom1 (by decide)).2.trans (by decide)⟩,
    ⟨w2, hw2, hg2, hm2, hc2, ho2, (hfull2 (by decide)).1, (hfull2 (by decide)).2⟩⟩

theorem C8_accepted_move_effect_witness :
    ∃ w' r, HandleMove scenarioStart 0 3 0 = some w' ∧
      r < Rows ∧ (scenarioStart.gameObj 0).Board.get r (3 : Int).toNat = Empty ∧
      (∀ r', r' < Rows → (scenarioStart.gameObj 0).Board.get r' (3 : Int).toNat = Empty →
        r' ≤ r) ∧
      (w'.gameObj 0).Board.get r (3 : Int).toNat = (scenarioStart.gameObj 0).CurrentTurn ∧
      (∀ r' c', r' < Rows → c' < Cols → (r' ≠ r ∨ c' ≠ (3 : Int).toNat) →
        (w'.gameObj 0).Board.get r' c' = (scenarioStart.gameObj 0).Board.get r' c') ∧
      ((scenarioStart.gameObj 0).CurrentTurn = Player1 → (w'.gameObj 0).CurrentTurn = Player2) ∧
      ((scenarioStart.gameObj 0).CurrentTurn = Player2 → (w'.gameObj 0).CurrentTurn = Player1) ∧
      ((scenarioStart.gameObj 0).CurrentTurn = Player1 ∨
        (scenarioStart.gameObj 0).CurrentTurn = Player2) ∧
      (w'.gameObj 0).ID = (scenarioStart.gameObj 0).ID ∧
      (w'.gameObj 0).Player1 = (scenarioStart.gameObj 0).Player1 ∧
      (w'.gameObj 0).Player2 = (scenarioStart.gameObj 0).Player2 :=
  C8_accepted_move_effect scenarioStart 0 3 0 0 (by decide) (by decide) (by decide)
    (by decide) (by decide) ⟨0, by decide, by decide⟩

theorem playMoves_eq_some_getD (w d : World) (rand : Nat) (ms : List (Ptr × Int))
    (h : (playMoves w rand ms).isSome = true) :
    playMoves w rand ms = some ((playMoves w rand ms).getD d) := by
  cases hp : playMoves w rand ms with
  | none => rw [hp] at h; cases h
  | some x => rfl

set_option maxRecDepth 100000 in
theorem scenarioAfterSix_played : PlayedByHandleMove 0 scenarioAfterSix :=
  played_of_playMoves 0 [(0, 0), (1, 6), (0, 0), (1, 6), (0, 0), (1, 6)]
    (PlayedByHandleMove.start ⟨rfl, rfl, rfl, rfl⟩)
    (playMoves_eq_some_getD scenarioStart scenarioStart 0 _ (by decide))

set_option maxRecDepth 100000 in
/-- The scenario of the specification: side 1 plays columns 0, 0, 0, 0 and side 2 plays
6, 6, 6 in between; the fourth move of side 1 finishes the game with side 1 as winner. -/
theorem serialized_game_end_resolution_scenario :
    ∃ w', HandleMove scenarioAfterSix 0 0 0 = some w' ∧
      (w'.gameObj 0).IsFinished = true ∧ (w'.gameObj 0).Winner = "alice" := by
  have hm : MakeMove (scenarioAfterSix.gameObj 0).Board 0
      (playerNumberOf (scenarioAfterSix.gameObj 0) (scenarioAfterSix.clientObj 0).Username) =
      ((MakeMove (scenarioAfterSix.gameObj 0).Board 0 Player1).1,
        .ok { Column := 0, Row := 2, Player := Player1 }) := by
    apply Prod.ext
    · rfl
    · decide
  obtain ⟨w', hw', hwin, _⟩ :=
    serialized_game_end_resolution 0 scenarioAfterSix scenarioAfterSix_played 0 0 0 _ _
      (by decide) (Or.inl (by decide)) (by decide) (by decide) hm
  have hline : AnyFourInRow (MakeMove (scenarioAfterSix.gameObj 0).Board 0 Player1).1 :=
    ⟨Player1, by decide, Or.inr (Or.inl ⟨2, by decide, 0, by decide, by decide, by decide⟩)⟩
  exact ⟨w', hw', (hwin hline).2.1, (hwin hline).2.2⟩


/-! ## Matchmaker: pairing on `AddToQueue` -/

theorem mapSet_same {β : Type} (m : String → Option β) (k : String) (v : β) :
    mapSet m k v k = some v := by
  simp [mapSet]

/-- With an unmatched entry of another connection in the queue, the scan of `tryMatch`
after the append finds the first such entry of the queue before the append. -/
theorem findOtherPlayer_enqueue (w : World) (client : Ptr)
    (hwait : ∃ q, q ∈ w.matchmaker.waitingPlayers ∧
      (w.connObj q).ID ≠ (w.connObj client).ID ∧ (w.connObj q).GameID = "") :
    ∃ other pre post, findOtherPlayer (enqueue w client) client = some other ∧
      w.matchmaker.waitingPlayers = pre ++ other :: post ∧
      (∀ q, q ∈ pre →
        ¬ ((w.connObj q).ID ≠ (w.connObj client).ID ∧ (w.connObj q).GameID = "")) ∧
      (w.connObj other).ID ≠ (w.connObj client).ID ∧ (w.connObj other).GameID = "" := by
  obtain ⟨q, hq, hqp⟩ := hwait
  have hsome : (w.matchmaker.waitingPlayers.find? (fun p =>
      decide ((w.connObj p).ID ≠ (w.connObj client).ID ∧ (w.connObj p).GameID = ""))).isSome := by
    rw [List.find?_isSome]
    exact ⟨q, hq, by simpa using hqp⟩
  obtain ⟨other, hother⟩ := Option.isSome_iff_exists.1 hsome
  have hfind := hother
  rw [List.find?_eq_some] at hfind
  obtain ⟨hp, pre, post, hsplit, hpre⟩ := hfind
  refine ⟨other, pre, post, ?_, hsplit, ?_, ?_, ?_⟩
  · unfold findOtherPlayer enqueue
    simp only [List.find?_append, hother, Option.or_some]
  · intro a ha hcon
    have := hpre a ha
    simp only [Bool.not_eq_true', decide_eq_false_iff_not] at this
    exact this hcon
  · have := of_decide_eq_true hp
    exact this.1
  · have := of_decide_eq_true hp
    exact this.2

/-- C10 (as stated) fails when one connection has two entries in the queue: after the
connection "a" joined twice (entries 0 and 1) and "b" (entry 2) is added, entry 0 is paired
with entry 2, yet the queue is empty afterwards, although removing the two paired entries
from it leaves entry 1. -/
theorem C10_counterexample_duplicate_entry_removed :
    doubleJoinQueued.matchmaker.waitingPlayers = [0, 1] ∧
    findOtherPlayer (enqueue doubleJoinQueued 2) 2 = some 0 ∧
    ((doubleJoinQueued.matchmaker.waitingPlayers ++ [2]).filter
      (fun p => decide (p ≠ 2 ∧ p ≠ 0))) = [1] ∧
    (AddToQueue doubleJoinQueued 2 "g1").matchmaker.waitingPlayers = [] ∧
    ((AddToQueue doubleJoinQueued 2 "g1").connObj 1).GameID = "" := by
  decide

/-- C10 (amended): when `AddToQueue(client)` runs and the queue holds an entry of another
connection ID with no assigned game, the first such entry `other` is paired with `client`:
one game object is made (empty board, side 1 to move, not finished, no winner, `client` as
side 1 and `other` as side 2) and stored under `gameID`, nothing else in the registry and
no other game object changes; every queue entry with the connection ID of `client` or of
`other` leaves the queue and the remaining entries keep their order (so with no further
entry of these two connections the queue loses exactly `other`); both connections get the
game ID and their sides; `GetGameByPlayer` finds the game for both display names. -/
theorem C10_addToQueue_pairs_first_waiting (w : World) (client : Ptr) (gameID : String)
    (hwait : ∃ q, q ∈ w.matchmaker.waitingPlayers ∧
      (w.connObj q).ID ≠ (w.connObj client).ID ∧ (w.connObj q).GameID = "") :
    ∃ other pre post,
      w.matchmaker.waitingPlayers = pre ++ other :: post ∧
      (∀ q, q ∈ pre →
        ¬ ((w.connObj q).ID ≠ (w.connObj client).ID ∧ (w.connObj q).GameID = "")) ∧
      (w.connObj other).ID ≠ (w.connObj client).ID ∧ (w.connObj other).GameID = "" ∧
      (AddToQueue w client gameID).gameObj w.nextGame =
        { ID := gameID
          Player1 := (w.connObj client).Username
          Player2 := (w.connObj other).Username
          Board := CreateBoard
          CurrentTurn := Player1
          Winner := ""
          IsFinished := false } ∧
      (∀ p, p ≠ w.nextGame → (AddToQueue w client gameID).gameObj p = w.gameObj p) ∧
      (AddToQueue w client gameID).nextGame = w.nextGame + 1 ∧
      (AddToQueue w client gameID).matchmaker.games =
        mapSet w.matchmaker.games gameID w.nextGame ∧
      (AddToQueue w client gameID).matchmaker.waitingPlayers =
        w.matchmaker.waitingPlayers.filter (fun p =>
          decide ((w.connObj p).ID ≠ (w.connObj client).ID ∧
            (w.connObj p).ID ≠ (w.connObj other).ID)) ∧
      ((∀ q, q ∈ pre ++ post →
          (w.connObj q).ID ≠ (w.connObj client).ID ∧ (w.connObj q).ID ≠ (w.connObj other).ID) →
        (AddToQueue w client gameID).matchmaker.waitingPlayers = pre ++ post) ∧
      (AddToQueue w client gameID).connObj client =
        { w.connObj client with GameID := gameID, PlayerNumber := Player1 } ∧
      (AddToQueue w client gameID).connObj other =
        { w.connObj other with GameID := gameID, PlayerNumber := Player2 } ∧
      (∀ p, p ≠ client → p ≠ other → (AddToQueue w client gameID).connObj p = w.connObj p) ∧
      GetGameByPlayer (AddToQueue w client gameID) (w.connObj client).Username =
        some w.nextGame ∧
      GetGameByPlayer (AddToQueue w client gameID) (w.connObj other).Username =
        some w.nextGame := by
  obtain ⟨other, pre, post, hfind, hsplit, hpre, hid, hgid⟩ := findOtherPlayer_enqueue w client hwait
  have hne : other ≠ client := fun h => hid (by rw [h])
  have hne' : client ≠ other := fun h => hne h.symm
  -- IDs and names are not touched by `createGame`
  have hconn : ∀ p, (setObj (setObj w.connObj client
      { w.connObj client with GameID := gameID, PlayerNumber := Player1 }) other
      { (setObj w.connObj client
          { w.connObj client with GameID := gameID, PlayerNumber := Player1 }) other with
        GameID := gameID, PlayerNumber := Player2 } p).ID = (w.connObj p).ID := by
    intro p
    unfold setObj
    by_cases h1 : p = other
    · subst h1; simp [hne]
    · by_cases h2 : p = client
      · subst h2; simp [h1]
      · simp [h1, h2]
  have hq : (AddToQueue w client gameID).matchmaker.waitingPlayers =
      w.matchmaker.waitingPlayers.filter (fun p =>
        decide ((w.connObj p).ID ≠ (w.connObj client).ID ∧
          (w.connObj p).ID ≠ (w.connObj other).ID)) := by
    unfold AddToQueue tryMatch
    rw [hfind]
    simp only [createGame, enqueue, hconn, List.filter_append]
    simp
  refine ⟨other, pre, post, hsplit, hpre, hid, hgid, ?_, ?_, ?_, ?_, hq, ?_, ?_, ?_, ?_, ?_, ?_⟩
  · unfold AddToQueue tryMatch
    rw [hfind]
    simp [createGame, enqueue, setObj]
  · intro p hp
    unfold AddToQueue tryMatch
    rw [hfind]
    simp [createGame, enqueue, setObj, hp]
  · unfold AddToQueue tryMatch
    rw [hfind]
    simp [createGame, enqueue]
  · unfold AddToQueue tryMatch
    rw [hfind]
    simp [createGame, enqueue]
  · intro hall
    rw [hq, hsplit, List.filter_append, List.filter_cons]
    have h1 : List.filter (fun p => decide ((w.connObj p).ID ≠ (w.connObj client).ID ∧
        (w.connObj p).ID ≠ (w.connObj other).ID)) pre = pre := by
      rw [List.filter_eq_self]
      intro a ha
      exact decide_eq_true (hall a (List.mem_append_left post ha))
    have h2 : List.filter (fun p => decide ((w.connObj p).ID ≠ (w.connObj client).ID ∧
        (w.connObj p).ID ≠ (w.connObj other).ID)) post = post := by
      rw [List.filter_eq_self]
      intro a ha
      exact decide_eq_true (hall a (List.mem_append_right pre ha))
    rw [h1, h2]
    simp
  · unfold AddToQueue tryMatch
    rw [hfind]
    simp [createGame, enqueue, setObj, hne']
  · unfold AddToQueue tryMatch
    rw [hfind]
    simp [createGame, enqueue, setObj, hne]
  · intro p hp1 hp2
    unfold AddToQueue tryMatch
    rw [hfind]
    simp [createGame, enqueue, setObj, hp1, hp2]
  · unfold AddToQueue tryMatch GetGameByPlayer
    rw [hfind]
    simp [createGame, enqueue, setObj, mapSet, hne, hne']
  · unfold AddToQueue tryMatch GetGameByPlayer
    rw [hfind]
    simp [createGame, enqueue, setObj, mapSet, hne, hne']

theorem C10_addToQueue_pairs_first_waiting_witness :
    ∃ other,
      (doubleJoinQueued.connObj other).ID ≠ (doubleJoinQueued.connObj 2).ID ∧
      (AddToQueue doubleJoinQueued 2 "g1").gameObj doubleJoinQueued.nextGame =
        { ID := "g1"
          Player1 := (doubleJoinQueued.connObj 2).Username
          Player2 := (doubleJoinQueued.connObj other).Username
          Board := CreateBoard
          CurrentTurn := Player1
          Winner := ""
          IsFinished := false } ∧
      (AddToQueue doubleJoinQueued 2 "g1").matchmaker.waitingPlayers =
        doubleJoinQueued.matchmaker.waitingPlayers.filter (fun p =>
          decide ((doubleJoinQueued.connObj p).ID ≠ (doubleJoinQueued.connObj 2).ID ∧
            (doubleJoinQueued.connObj p).ID ≠ (doubleJoinQueued.connObj other).ID)) ∧
      GetGameByPlayer (AddToQueue doubleJoinQueued 2 "g1") (doubleJoinQueued.connObj 2).Username =
        some doubleJoinQueued.nextGame ∧
      GetGameByPlayer (AddToQueue doubleJoinQueued 2 "g1")
        (doubleJoinQueued.connObj other).Username = some doubleJoinQueued.nextGame := by
  obtain ⟨other, _, _, _, _, hid, _, hgame, _, _, _, hq, _, _, _, _, h1, h2⟩ :=
    C10_addToQueue_pairs_first_waiting doubleJoinQueued 2 "g1"
      ⟨0, by decide, by decide, by decide⟩
  exact ⟨other, hid, hgame, hq, h1, h2⟩


/-! ## Valid columns -/

theorem GetValidColumns_pairwise (b : Board) : (GetValidColumns b).Pairwise (· < ·) := by
  unfold GetValidColumns
  rw [List.pairwise_map]
  apply List.Pairwise.imp _ (List.Pairwise.filter _ (List.pairwise_lt_range Cols))
  intro x y hxy
  exact Int.ofNat_lt.2 hxy

theorem IsValidMove_iff (b : Board) (c : Int) :
    IsValidMove b c = true ↔ (0 ≤ c ∧ c < 7) ∧ b.get 0 c.toNat = Empty := by
  unfold IsValidMove
  by_cases h : c < 0 ∨ c ≥ (Cols : Int)
  · rw [if_pos h]
    simp only [Cols] at h
    constructor
    · intro hf; cases hf
    · rintro ⟨hr, _⟩
      have : c < 0 ∨ c ≥ 7 := by exact_mod_cast h
      omega
  · rw [if_neg h, decide_eq_true_eq]
    simp only [Cols] at h
    have : ¬ (c < 0 ∨ c ≥ 7) := by exact_mod_cast h
    constructor
    · intro he; exact ⟨by omega, he⟩
    · intro he; exact he.2

/-- C17: `GetValidColumns` returns, in strictly ascending order and without repetition,
exactly the column indices 0..6 whose top cell (row 0) is empty; and `IsValidMove` is true
for an integer `c` exactly when `c` is in that list. -/
theorem C17_getValidColumns_ascending_exact (b : Board) :
    (GetValidColumns b).Pairwise (· < ·) ∧
    (GetValidColumns b).Nodup ∧
    (∀ c : Int, c ∈ GetValidColumns b ↔ ((0 ≤ c ∧ c < 7) ∧ b.get 0 c.toNat = Empty)) ∧
    (∀ c : Int, IsValidMove b c = true ↔ c ∈ GetValidColumns b) := by
  refine ⟨GetValidColumns_pairwise b, ?_, fun c => mem_GetValidColumns, fun c => ?_⟩
  · exact (GetValidColumns_pairwise b).imp (fun h => ne_of_lt h)
  · rw [IsValidMove_iff, mem_GetValidColumns]

/-! ## The automated opponent: winning and blocking -/

/-- On an ascending list `find?` returns the smallest element with the property. -/
theorem find?_eq_least {l : List Int} (hl : l.Pairwise (· < ·)) {p : Int → Bool} {c : Int}
    (hc : c ∈ l) (hp : p c = true) (hmin : ∀ x, x ∈ l → p x = true → c ≤ x) :
    l.find? p = some c := by
  induction l with
  | nil => cases hc
  | cons a as ih =>
    rw [List.pairwise_cons] at hl
    by_cases hpa : p a = true
    · have hca : c ≤ a := hmin a (List.mem_cons_self a as) hpa
      rcases List.mem_cons.1 hc with h | h
      · rw [h, List.find?_cons_of_pos _ hpa]
      · have := hl.1 c h
        omega
    · rw [List.find?_cons_of_neg _ hpa]
      rcases List.mem_cons.1 hc with h | h
      · rw [h] at hp; exact absurd hp hpa
      · exact ih hl.2 h (fun x hx hpx => hmin x (List.mem_cons_of_mem a hx) hpx)

theorem anyFourInRow_iff_checkWinner (b : Board) :
    AnyFourInRow b ↔ (CheckWinner b).1 ≠ Empty := by
  rcases CheckWinner_cases b with ⟨p, hp, h⟩ | ⟨hno, h⟩
  · rw [h]; exact ⟨fun _ => hp.1, fun _ => ⟨p, hp⟩⟩
  · rw [h]; exact ⟨fun hany => absurd hany hno, fun hne => absurd rfl hne⟩

/-- On a board without four in a row, the test of `findWinningMove` on a valid column
holds exactly when the move gives `s` four in a row. -/
theorem winTest_iff {b : Board} {s : Player} {c : Int} (hno : ¬ AnyFourInRow b)
    (hs : s ≠ Empty) (hc : c ∈ GetValidColumns b) :
    (match (MakeMove b c s).2 with
      | .error _ => false
      | .ok _ => decide ((CheckWinner (MakeMove b c s).1).1 = s)) = true ↔
    FourInRow (MakeMove b c s).1 s := by
  obtain ⟨b1, m, hm⟩ := MakeMove_ok_of_valid s hc
  rw [hm]
  simp only [decide_eq_true_eq]
  have hown : ∀ q, FourInRow b1 q → q = s := fun q hq => FourInRow_after_move hno hm hq
  constructor
  · intro hcw
    have hany : AnyFourInRow b1 := (anyFourInRow_iff_checkWinner b1).2 (by rw [hcw]; exact hs)
    obtain ⟨q, hq⟩ := hany
    have := hown q hq
    subst this; exact hq
  · intro hl
    rw [(CheckWinner_of_line hown ⟨s, hl⟩).1]

theorem findWinningMove_eq_least {b : Board} {s : Player} {c : Int}
    (hno : ¬ AnyFourInRow b) (hc : c ∈ GetValidColumns b)
    (hwin : FourInRow (MakeMove b c s).1 s)
    (hmin : ∀ c', c' ∈ GetValidColumns b → FourInRow (MakeMove b c' s).1 s → c ≤ c') :
    findWinningMove b s = c := by
  have hs : s ≠ Empty := hwin.1
  unfold findWinningMove
  rw [find?_eq_least (GetValidColumns_pairwise b) hc ((winTest_iff hno hs hc).2 hwin)
    (fun x hx hpx => hmin x hx ((winTest_iff hno hs hx).1 hpx))]

theorem findWinningMove_eq_neg_one {b : Board} {s : Player}
    (hno : ¬ AnyFourInRow b) (hs : s ≠ Empty)
    (hnone : ∀ c', c' ∈ GetValidColumns b → ¬ FourInRow (MakeMove b c' s).1 s) :
    findWinningMove b s = -1 := by
  unfold findWinningMove
  have : (GetValidColumns b).find? (fun col =>
      let testBoard := MakeMove b col s
      match testBoard.2 with
      | .error _ => false
      | .ok _ => decide ((CheckWinner testBoard.1).1 = s)) = none := by
    rw [List.find?_eq_none]
    intro x hx hpx
    exact hnone x hx ((winTest_iff hno hs hx).1 hpx)
  rw [this]

theorem valid_column_ne_neg_one {b : Board} {c : Int} (hc : c ∈ GetValidColumns b) :
    c ≠ -1 := by
  rw [mem_GetValidColumns] at hc
  omega

/-- C13: on a board without four in a row, when some valid column gives the side `s`
four in a row, `SelectBotMove` returns the smallest such column. -/
theorem C13_selectBotMove_takes_smallest_winning_column (b : Board) (s : Player)
    (rand : Nat) (c : Int)
    (hno : ¬ AnyFourInRow b) (hc : c ∈ GetValidColumns b)
    (hwin : FourInRow (MakeMove b c s).1 s)
    (hmin : ∀ c', c' ∈ GetValidColumns b → FourInRow (MakeMove b c' s).1 s → c ≤ c') :
    SelectBotMove b s rand = some c := by
  unfold SelectBotMove
  simp only []
  rw [findWinningMove_eq_least hno hc hwin hmin, if_pos (valid_column_ne_neg_one hc)]

/-- C14: on a board without four in a row, for a side `s` (side 1 or side 2) without a
winning column, when some valid column would give the opponent of `s` four in a row,
`SelectBotMove` returns the smallest such column. -/
theorem C14_selectBotMove_blocks_smallest_column (b : Board) (s : Player)
    (rand : Nat) (c : Int)
    (hs : s = Player1 ∨ s = Player2)
    (hno : ¬ AnyFourInRow b)
    (hnowin : ∀ c', c' ∈ GetValidColumns b → ¬ FourInRow (MakeMove b c' s).1 s)
    (hc : c ∈ GetValidColumns b)
    (hopp : FourInRow (MakeMove b c (if s = Player1 then Player2 else Player1)).1
      (if s = Player1 then Player2 else Player1))
    (hmin : ∀ c', c' ∈ GetValidColumns b →
      FourInRow (MakeMove b c' (if s = Player1 then Player2 else Player1)).1
        (if s = Player1 then Player2 else Player1) → c ≤ c') :
    SelectBotMove b s rand = some c := by
  have hse : s ≠ Empty := by
    rcases hs with h | h <;> rw [h] <;> decide
  unfold SelectBotMove
  simp only []
  rw [findWinningMove_eq_neg_one hno hse hnowin, if_neg (by simp),
    findWinningMove_eq_least hno hc hopp hmin, if_pos (valid_column_ne_neg_one hc)]

set_option maxRecDepth 100000 in
theorem C13_selectBotMove_takes_smallest_winning_column_witness :
    SelectBotMove threeInRowBoard Player2 0 = some 3 :=
  C13_selectBotMove_takes_smallest_winning_column threeInRowBoard Player2 0 3
    ((anyFourInRow_iff_checkWinner threeInRowBoard).not.2 (by decide))
    (by decide) (by decide) (by decide)

set_option maxRecDepth 100000 in
theorem C14_selectBotMove_blocks_smallest_column_witness :
    SelectBotMove threeInRowBoard Player1 0 = some 3 :=
  C14_selectBotMove_blocks_smallest_column threeInRowBoard Player1 0 3 (Or.inl rfl)
    ((anyFourInRow_iff_checkWinner threeInRowBoard).not.2 (by decide))
    (by decide) (by decide) (by decide) (by decide)


/-! ## The automated opponent leaves the board alone -/

theorem findWinningMove_run_spec (player : Player) (l : List Int) :
    ∀ σ : BotFrame, (findWinningMove.run player l σ).1.board = σ.board ∧
      (findWinningMove.run player l σ).2 =
        (match l.find? (fun col =>
            let testBoard := MakeMove σ.board col player
            match testBoard.2 with
            | .error _ => false
            | .ok _ => decide ((CheckWinner testBoard.1).1 = player)) with
          | some col => col
          | none => -1) := by
  induction l with
  | nil => intro σ; exact ⟨rfl, rfl⟩
  | cons col rest ih =>
    intro σ
    unfold findWinningMove.run
    simp only [BotFrame.copyBoard, BotFrame.makeMoveOnTest, List.find?_cons]
    cases hm : (MakeMove σ.board col player).2 with
    | error e =>
      simp only []
      have := ih { board := σ.board, testBoard := (MakeMove σ.board col player).1 }
      exact this
    | ok m =>
      simp only []
      by_cases hw : (CheckWinner (MakeMove σ.board col player).1).1 = player
      · simp [hw]
      · simp only [hw, if_false, decide_False]
        have := ih { board := σ.board, testBoard := (MakeMove σ.board col player).1 }
        exact this

theorem evaluateColumn_onFrame_spec (σ : BotFrame) (column : Int) (player : Player) :
    (evaluateColumn.onFrame σ column player).1.board = σ.board ∧
    (evaluateColumn.onFrame σ column player).2 = evaluateColumn σ.board column player := by
  unfold evaluateColumn.onFrame evaluateColumn
  simp only [BotFrame.copyBoard, BotFrame.makeMoveOnTest]
  cases hm : (MakeMove σ.board column player).2 with
  | error e => exact ⟨rfl, rfl⟩
  | ok m => exact ⟨rfl, rfl⟩

theorem findStrategicMove_run_spec (player : Player) (l : List Int) :
    ∀ (σ : BotFrame) (best : Option Int × Int),
      (findStrategicMove.run player l σ best).1.board = σ.board ∧
      (findStrategicMove.run player l σ best).2 =
        (l.foldl (fun (best : Option Int × Int) col =>
          let score := evaluateColumn σ.board col player
          if scoreGt score best.1 then (score, col) else best) best).2 := by
  induction l with
  | nil => intro σ best; exact ⟨rfl, rfl⟩
  | cons col rest ih =>
    intro σ best
    unfold findStrategicMove.run
    obtain ⟨hb, hv⟩ := evaluateColumn_onFrame_spec σ col player
    simp only [List.foldl_cons, hv]
    by_cases hgt : scoreGt (evaluateColumn σ.board col player) best.1 = true
    · simp only [hgt, if_true]
      have := ih (evaluateColumn.onFrame σ col player).1 (evaluateColumn σ.board col player, col)
      rw [hb] at this
      exact this
    · simp only [hgt, if_false]
      have := ih (evaluateColumn.onFrame σ col player).1 best
      rw [hb] at this
      exact this

theorem findWinningMove_onFrame_spec (σ : BotFrame) (player : Player) :
    (findWinningMove.onFrame σ player).1.board = σ.board ∧
    (findWinningMove.onFrame σ player).2 = findWinningMove σ.board player :=
  findWinningMove_run_spec player (GetValidColumns σ.board) σ

theorem findStrategicMove_onFrame_spec (σ : BotFrame) (player : Player) :
    (findStrategicMove.onFrame σ player).1.board = σ.board ∧
    (findStrategicMove.onFrame σ player).2 = findStrategicMove σ.board player :=
  findStrategicMove_run_spec player (GetValidColumns σ.board) σ (none, -1)

/-- C15: `SelectBotMove`, `findWinningMove`, `findStrategicMove` and `evaluateColumn` leave
the board they were given unchanged (their trial moves go to the copy `testBoard`), and
return what the functions on the board alone return. -/
theorem C15_bot_leaves_board_unchanged (σ : BotFrame) (s : Player) (rand : Nat)
    (column : Int) :
    ((SelectBotMove.onFrame σ s rand).1.board = σ.board ∧
      (SelectBotMove.onFrame σ s rand).2 = SelectBotMove σ.board s rand) ∧
    ((findWinningMove.onFrame σ s).1.board = σ.board ∧
      (findWinningMove.onFrame σ s).2 = findWinningMove σ.board s) ∧
    ((findStrategicMove.onFrame σ s).1.board = σ.board ∧
      (findStrategicMove.onFrame σ s).2 = findStrategicMove σ.board s) ∧
    ((evaluateColumn.onFrame σ column s).1.board = σ.board ∧
      (evaluateColumn.onFrame σ column s).2 = evaluateColumn σ.board column s) := by
  refine ⟨?_, findWinningMove_onFrame_spec σ s, findStrategicMove_onFrame_spec σ s,
    evaluateColumn_onFrame_spec σ column s⟩
  obtain ⟨hb1, hv1⟩ := findWinningMove_onFrame_spec σ s
  obtain ⟨hb2, hv2⟩ := findWinningMove_onFrame_spec (findWinningMove.onFrame σ s).1
    (if s = Player1 then Player2 else Player1)
  obtain ⟨hb3, hv3⟩ := findStrategicMove_onFrame_spec
    (findWinningMove.onFrame (findWinningMove.onFrame σ s).1
      (if s = Player1 then Player2 else Player1)).1 s
  rw [hb1] at hb2 hv2
  rw [hb2] at hb3 hv3
  unfold SelectBotMove.onFrame SelectBotMove
  simp only [hv1, hv2, hv3, hb3]
  by_cases h1 : findWinningMove σ.board s ≠ -1
  · rw [if_pos h1, if_pos h1]
    exact ⟨hb1, rfl⟩
  · rw [if_neg h1, if_neg h1]
    by_cases h2 : findWinningMove σ.board (if s = Player1 then Player2 else Player1) ≠ -1
    · rw [if_pos h2, if_pos h2]
      exact ⟨hb2, rfl⟩
    · rw [if_neg h2, if_neg h2]
      by_cases h3 : findStrategicMove σ.board s ≠ -1
      · rw [if_pos h3, if_pos h3]
        exact ⟨hb3, rfl⟩
      · rw [if_neg h3, if_neg h3]
        split
        · exact ⟨hb3, rfl⟩
        · split
          · exact ⟨hb3, rfl⟩
          · exact ⟨hb3, rfl⟩


/-! ## Counting pieces -/

theorem countPieces_set (b : Board) {r c : Nat} (p q : Player) (hr : r < Rows) (hc : c < Cols)
    (he : b.get r c = Empty) (hq : q ≠ Empty) :
    countPieces (b.set r c p) q = countPieces b q + (if p = q then 1 else 0) := by
  have hcell : b ⟨r, hr⟩ ⟨c, hc⟩ = Empty := by rw [← Board.get_of_lt b hr hc]; exact he
  unfold countPieces
  by_cases hpq : p = q
  · rw [if_pos hpq]
    have hins : Finset.univ.filter (fun rc : Fin Rows × Fin Cols => (b.set r c p) rc.1 rc.2 = q) =
        insert (⟨r, hr⟩, ⟨c, hc⟩)
          (Finset.univ.filter (fun rc : Fin Rows × Fin Cols => b rc.1 rc.2 = q)) := by
      ext rc
      simp only [Finset.mem_filter, Finset.mem_univ, true_and, Finset.mem_insert, Board.set]
      by_cases hrc : rc.1.val = r ∧ rc.2.val = c
      · rw [if_pos hrc]
        have : rc = (⟨r, hr⟩, ⟨c, hc⟩) := by
          apply Prod.ext <;> apply Fin.ext
          · exact hrc.1
          · exact hrc.2
        exact ⟨fun _ => Or.inl this, fun _ => hpq⟩
      · rw [if_neg hrc]
        constructor
        · intro h; exact Or.inr h
        · rintro (h | h)
          · exfalso; apply hrc; rw [h]; exact ⟨rfl, rfl⟩
          · exact h
    rw [hins, Finset.card_insert_of_not_mem]
    simp only [Finset.mem_filter, Finset.mem_univ, true_and]
    rw [hcell]
    exact fun h => hq h.symm
  · rw [if_neg hpq, Nat.add_zero]
    congr 1
    ext rc
    simp only [Finset.mem_filter, Finset.mem_univ, true_and, Board.set]
    by_cases hrc : rc.1.val = r ∧ rc.2.val = c
    · rw [if_pos hrc]
      have : rc = (⟨r, hr⟩, ⟨c, hc⟩) := by
        apply Prod.ext <;> apply Fin.ext
        · exact hrc.1
        · exact hrc.2
      rw [this, hcell]
      exact ⟨fun h => absurd h hpq, fun h => absurd h.symm hq⟩
    · rw [if_neg hrc]

/-- A successful move of `p` adds one cell of `p` and changes no other count of pieces. -/
theorem countPieces_move {b b1 : Board} {c : Int} {p : Player} {m : Move}
    (hm : MakeMove b c p = (b1, .ok m)) (q : Player) (hq : q ≠ Empty) :
    countPieces b1 q = countPieces b q + (if p = q then 1 else 0) := by
  rcases MakeMove_spec b c p with ⟨_, heq⟩ | ⟨_, _, heq⟩ | ⟨hrange, r, hr, he, _, heq⟩
  · rw [heq] at hm; cases hm
  · rw [heq] at hm; cases hm
  · rw [heq] at hm
    have hb : b1 = b.set r c.toNat p := (congrArg Prod.fst hm).symm
    rw [hb]
    exact countPieces_set b p q hr (toNat_lt_Cols hrange.1 hrange.2) he hq

/-! ## Hub: games against the automated opponent -/

/-- One call of `HandleMove` keeps the turn of side 1 in an unfinished game against the
automated opponent. -/
theorem HandleMove_keeps_botTurn {w w' : World} {client : Ptr} {column : Int} {rand : Nat}
    (g : Ptr) (h : HandleMove w client column rand = some w')
    (hopen : UnfinishedGameOpen (w.gameObj g))
    (hinv : BotGameTurn (w.gameObj g)) : BotGameTurn (w'.gameObj g) := by
  by_cases hlook : GetGameByPlayer w (w.clientObj client).Username = some g
  · rcases HandleMove_cases w client column with ⟨e, hrej⟩ | ⟨g', b1, m, hg, hfin, hturn, hm⟩
    · rw [HandleMove_of_rejected hrej rand] at h
      injection h with h
      rw [← h, sendError_gameObj]; exact hinv
    · have hgg : g' = g := by
        rw [hg] at hlook; injection hlook
      subst hgg
      obtain ⟨hno, _⟩ := hopen hfin
      obtain ⟨w'', hw'', _, _, _, hp2, hcases⟩ :=
        HandleMove_accepted_outcome rand hg hfin hturn hm hno
      rw [hw''] at h
      injection h with h
      subst h
      intro hbot hfin'
      rw [hp2] at hbot
      rcases hcases with ⟨_, _, hf, _⟩ | ⟨_, _, _, hf, _⟩ | ⟨_, _, hnb, _, _, _, ht⟩ |
          ⟨_, _, _, c, b2, m2, _, _, _, hc2⟩
      · rw [hf] at hfin'; cases hfin'
      · rw [hf] at hfin'; cases hfin'
      · rw [ht, if_neg (fun hp => hnb ⟨hbot, hp⟩)]
      · rcases hc2 with ⟨_, hf, _⟩ | ⟨_, _, hf, _⟩ | ⟨_, _, _, _, ht⟩
        · rw [hf] at hfin'; cases hfin'
        · rw [hf] at hfin'; cases hfin'
        · exact ht
  · rw [HandleMove_frame h g hlook]
    exact hinv

theorem botGameTurn_of_played {g : Ptr} {w : World} (h : PlayedByHandleMove g w) :
    BotGameTurn (w.gameObj g) := by
  induction h with
  | start hfresh => intro _ _; exact hfresh.2.1
  | @move w w' client column rand hprev hstep ih =>
    exact HandleMove_keeps_botTurn g hstep (unfinishedGameOpen_of_played hprev) ih

/-- C16: in a game played through `HandleMove` whose second participant is the automated
opponent, when `HandleMove` accepts a move that does not end the game (no four in a row,
top row not filled), the automated opponent moves in the same call in the column
`SelectBotMove` returns for side 2, and the same check for a winner and a draw is made on
its move; when the call returns both sides have one more piece on the board, and the game
is finished or it is the turn of side 1. -/
theorem C16_bot_replies_in_same_call (g : Ptr) (w : World) (hplay : PlayedByHandleMove g w)
    (client : Ptr) (column : Int) (rand : Nat) (b1 : Board) (m : Move)
    (hg : GetGameByPlayer w (w.clientObj client).Username = some g)
    (hbot : (w.gameObj g).Player2 = BotUsername)
    (hfin : (w.gameObj g).IsFinished = false)
    (hturn : (w.gameObj g).CurrentTurn =
      playerNumberOf (w.gameObj g) (w.clientObj client).Username)
    (hm : MakeMove (w.gameObj g).Board column
      (playerNumberOf (w.gameObj g) (w.clientObj client).Username) = (b1, .ok m))
    (hopen : ¬ AnyFourInRow b1) (hroom : ¬ TopRowFilled b1) :
    ∃ w' c b2 m2, HandleMove w client column rand = some w' ∧
      SelectBotMove b1 Player2 rand = some c ∧
      MakeMove b1 c Player2 = (b2, .ok m2) ∧
      (w'.gameObj g).Board = b2 ∧
      (AnyFourInRow b2 →
        (w'.gameObj g).IsFinished = true ∧ (w'.gameObj g).Winner = BotUsername) ∧
      ((¬ AnyFourInRow b2) → TopRowFilled b2 →
        (w'.gameObj g).IsFinished = true ∧ (w'.gameObj g).Winner = "Draw") ∧
      ((¬ AnyFourInRow b2) → (¬ TopRowFilled b2) → (w'.gameObj g).IsFinished = false) ∧
      countPieces (w'.gameObj g).Board Player1 = countPieces (w.gameObj g).Board Player1 + 1 ∧
      countPieces (w'.gameObj g).Board Player2 = countPieces (w.gameObj g).Board Player2 + 1 ∧
      ((w'.gameObj g).IsFinished = true ∨ (w'.gameObj g).CurrentTurn = Player1) := by
  obtain ⟨hno, _⟩ := unfinishedGameOpen_of_played hplay hfin
  have hp1 : playerNumberOf (w.gameObj g) (w.clientObj client).Username = Player1 := by
    rw [← hturn]; exact botGameTurn_of_played hplay hbot hfin
  obtain ⟨w', hw', _, _, _, _, hcases⟩ :=
    HandleMove_accepted_outcome rand hg hfin hturn hm hno
  rw [hp1] at hm
  have hc1 := countPieces_move hm
  rcases hcases with ⟨hl, _⟩ | ⟨_, hf, _⟩ | ⟨_, _, hnb, _⟩ |
      ⟨_, _, _, c, b2, m2, hsel, hm2, hb, hc2⟩
  · exact absurd ⟨_, hl⟩ hopen
  · exact absurd hf hroom
  · exact absurd ⟨hbot, hp1⟩ hnb
  · have hc2' := countPieces_move hm2
    have hcnt1 : countPieces b2 Player1 = countPieces (w.gameObj g).Board Player1 + 1 := by
      rw [hc2' Player1 (by decide), hc1 Player1 (by decide)]
      simp [Player1, Player2]
    have hcnt2 : countPieces b2 Player2 = countPieces (w.gameObj g).Board Player2 + 1 := by
      rw [hc2' Player2 (by decide), hc1 Player2 (by decide)]
      simp [Player1, Player2]
    refine ⟨w', c, b2, m2, hw', hsel, hm2, hb, ?_, ?_, ?_, by rw [hb]; exact hcnt1,
      by rw [hb]; exact hcnt2, ?_⟩
    · intro hany2
      rcases hc2 with ⟨_, hf, hwin⟩ | ⟨hn, _⟩ | ⟨hn, _⟩
      · exact ⟨hf, hwin.trans hbot⟩
      · exact absurd hany2 hn
      · exact absurd hany2 hn
    · intro hnone2 hfull2
      rcases hc2 with ⟨hl, _⟩ | ⟨_, _, hf, hwin⟩ | ⟨_, hn, _⟩
      · exact absurd ⟨_, hl⟩ hnone2
      · exact ⟨hf, hwin⟩
      · exact absurd hfull2 hn
    · intro hnone2 hnfull2
      rcases hc2 with ⟨hl, _⟩ | ⟨_, hf, _⟩ | ⟨_, _, hf, _⟩
      · exact absurd ⟨_, hl⟩ hnone2
      · exact absurd hf hnfull2
      · exact hf
    · rcases hc2 with ⟨_, hf, _⟩ | ⟨_, _, hf, _⟩ | ⟨_, _, _, _, ht⟩
      · exact Or.inl hf
      · exact Or.inl hf
      · exact Or.inr ht

set_option maxRecDepth 100000 in
theorem C16_bot_replies_in_same_call_witness :
    ∃ w', HandleMove botScenarioStart 0 3 0 = some w' ∧
      countPieces (w'.gameObj 0).Board Player1 =
        countPieces (botScenarioStart.gameObj 0).Board Player1 + 1 ∧
      countPieces (w'.gameObj 0).Board Player2 =
        countPieces (botScenarioStart.gameObj 0).Board Player2 + 1 ∧
      ((w'.gameObj 0).IsFinished = true ∨ (w'.gameObj 0).CurrentTurn = Player1) := by
  have hm : MakeMove (botScenarioStart.gameObj 0).Board 3
      (playerNumberOf (botScenarioStart.gameObj 0) (botScenarioStart.clientObj 0).Username) =
      ((MakeMove (botScenarioStart.gameObj 0).Board 3 Player1).1,
        .ok { Column := 3, Row := 5, Player := Player1 }) := by
    apply Prod.ext
    · rfl
    · decide
  obtain ⟨w', _, _, _, hw', _, _, _, _, _, _, h1, h2, h3⟩ :=
    C16_bot_replies_in_same_call 0 botScenarioStart
      (PlayedByHandleMove.start ⟨rfl, rfl, rfl, rfl⟩) 0 3 0 _ _
      (by decide) (by decide) (by decide) (by decide) hm
      ((anyFourInRow_iff_checkWinner _).not.2 (by decide))
      (fun h => h 0 (by decide) (by decide))
  exact ⟨w', hw', h1, h2, h3⟩

/-! ## Matchmaker: the matchmaking timeout -/

theorem matchTimeout_of_assigned {w : World} {client : Ptr} (gameID : String)
    (h : (w.connObj client).GameID ≠ "") : matchTimeout w client gameID = w := by
  unfold matchTimeout
  rw [if_neg h]

theorem matchTimeout_of_not_queued {w : World} {client : Ptr} (gameID : String)
    (h : ∀ p, p ∈ w.matchmaker.waitingPlayers → (w.connObj p).ID ≠ (w.connObj client).ID) :
    matchTimeout w client gameID = w := by
  unfold matchTimeout
  have hnone : w.matchmaker.waitingPlayers.find? (fun p =>
      decide ((w.connObj p).ID = (w.connObj client).ID)) = none := by
    rw [List.find?_eq_none]
    intro x hx hpx
    exact h x hx (of_decide_eq_true hpx)
  rw [hnone]
  split <;> rfl

/-- C11: when the matchmaking timeout fires for a participant that has no assigned game
and is still in the waiting queue, one game against the automated opponent is made
(participant as side 1, "AI Bot" as side 2, empty board, side 1 to move) and the
participant leaves the queue; when the participant was paired before (it has a game ID),
or dequeued before (no queue entry carries its connection ID), the firing changes nothing. -/
theorem C11_matchmaking_timeout (w : World) (client : Ptr) (gameID : String) :
    ((w.connObj client).GameID = "" → client ∈ w.matchmaker.waitingPlayers →
      (matchTimeout w client gameID).gameObj w.nextGame =
        { ID := gameID
          Player1 := (w.connObj client).Username
          Player2 := BotUsername
          Board := CreateBoard
          CurrentTurn := Player1
          Winner := ""
          IsFinished := false } ∧
      (∀ p, p ≠ w.nextGame → (matchTimeout w client gameID).gameObj p = w.gameObj p) ∧
      (matchTimeout w client gameID).nextGame = w.nextGame + 1 ∧
      (matchTimeout w client gameID).matchmaker.games =
        mapSet w.matchmaker.games gameID w.nextGame ∧
      (matchTimeout w client gameID).matchmaker.playerToGame =
        mapSet w.matchmaker.playerToGame (w.connObj client).Username gameID ∧
      (matchTimeout w client gameID).matchmaker.waitingPlayers =
        w.matchmaker.waitingPlayers.filter (fun p =>
          decide ((w.connObj p).ID ≠ (w.connObj client).ID)) ∧
      client ∉ (matchTimeout w client gameID).matchmaker.waitingPlayers ∧
      (matchTimeout w client gameID).connObj client =
        { w.connObj client with GameID := gameID, PlayerNumber := Player1 } ∧
      (∀ p, p ≠ client → (matchTimeout w client gameID).connObj p = w.connObj p)) ∧
    ((w.connObj client).GameID ≠ "" → matchTimeout w client gameID = w) ∧
    ((∀ p, p ∈ w.matchmaker.waitingPlayers → (w.connObj p).ID ≠ (w.connObj client).ID) →
      matchTimeout w client gameID = w) ∧
    (matchTimeout (RemoveFromQueue w (w.connObj client).ID) client gameID =
      RemoveFromQueue w (w.connObj client).ID) ∧
    (∀ (other : Ptr) (gid : String), gid ≠ "" →
      findOtherPlayer (enqueue w other) other = some client →
      matchTimeout (AddToQueue w other gid) client gameID = AddToQueue w other gid) := by
  refine ⟨fun hgid hmem => ?_, matchTimeout_of_assigned gameID, matchTimeout_of_not_queued gameID,
    ?_, fun other gid hne hfind => ?_⟩
  · have hsome : (w.matchmaker.waitingPlayers.find? (fun p =>
        decide ((w.connObj p).ID = (w.connObj client).ID))).isSome := by
      rw [List.find?_isSome]
      exact ⟨client, hmem, by simp⟩
    obtain ⟨x, hx⟩ := Option.isSome_iff_exists.1 hsome
    have hmt : matchTimeout w client gameID =
        { (createGameWithBot w client gameID).1 with
          tasks := (createGameWithBot w client gameID).1.tasks ++
            [Task.gameCreated (createGameWithBot w client gameID).2] } := by
      unfold matchTimeout
      rw [if_pos hgid, hx]
    have hid : ∀ p, (setObj w.connObj client
        { w.connObj client with GameID := gameID, PlayerNumber := Player1 } p).ID =
        (w.connObj p).ID := by
      intro p
      unfold setObj
      by_cases h : p = client
      · subst h; simp
      · simp [h]
    have hq : (matchTimeout w client gameID).matchmaker.waitingPlayers =
        w.matchmaker.waitingPlayers.filter (fun p =>
          decide ((w.connObj p).ID ≠ (w.connObj client).ID)) := by
      rw [hmt]
      simp only [createGameWithBot, hid]
    refine ⟨?_, ?_, ?_, ?_, ?_, hq, ?_, ?_, ?_⟩
    · rw [hmt]; simp [createGameWithBot, setObj]
    · intro p hp
      rw [hmt]; simp [createGameWithBot, setObj, hp]
    · rw [hmt]; simp [createGameWithBot]
    · rw [hmt]; simp [createGameWithBot]
    · rw [hmt]; simp [createGameWithBot, setObj]
    · rw [hq, List.mem_filter]
      simp
    · rw [hmt]; simp [createGameWithBot, setObj]
    · intro p hp
      rw [hmt]; simp [createGameWithBot, setObj, hp]
  · apply matchTimeout_of_not_queued
    intro p hp
    simp only [RemoveFromQueue, List.mem_filter, decide_eq_true_eq] at hp
    exact hp.2
  · apply matchTimeout_of_assigned
    unfold AddToQueue tryMatch
    rw [hfind]
    simp [createGame, setObj, enqueue, hne]


/-! ## Matchmaker: two concurrent `AddToQueue` calls -/

/-- The six interleavings. -/
theorem interleaving_cases {l : List EnqueueStep} (h : IsInterleaving l) :
    l ∈ [[EnqueueStep.appendA, EnqueueStep.tryMatchA, EnqueueStep.appendB, EnqueueStep.tryMatchB],
      [EnqueueStep.appendA, EnqueueStep.appendB, EnqueueStep.tryMatchA, EnqueueStep.tryMatchB],
      [EnqueueStep.appendA, EnqueueStep.appendB, EnqueueStep.tryMatchB, EnqueueStep.tryMatchA],
      [EnqueueStep.appendB, EnqueueStep.tryMatchB, EnqueueStep.appendA, EnqueueStep.tryMatchA],
      [EnqueueStep.appendB, EnqueueStep.appendA, EnqueueStep.tryMatchB, EnqueueStep.tryMatchA],
      [EnqueueStep.appendB, EnqueueStep.appendA, EnqueueStep.tryMatchA, EnqueueStep.tryMatchB]] := by
  have key : ∀ a b c d : EnqueueStep, [a, b, c, d].Nodup →
      [a, b, c, d].indexOf EnqueueStep.appendA < [a, b, c, d].indexOf EnqueueStep.tryMatchA →
      [a, b, c, d].indexOf EnqueueStep.appendB < [a, b, c, d].indexOf EnqueueStep.tryMatchB →
      [a, b, c, d] ∈
        [[EnqueueStep.appendA, EnqueueStep.tryMatchA, EnqueueStep.appendB, EnqueueStep.tryMatchB],
        [EnqueueStep.appendA, EnqueueStep.appendB, EnqueueStep.tryMatchA, EnqueueStep.tryMatchB],
        [EnqueueStep.appendA, EnqueueStep.appendB, EnqueueStep.tryMatchB, EnqueueStep.tryMatchA],
        [EnqueueStep.appendB, EnqueueStep.tryMatchB, EnqueueStep.appendA, EnqueueStep.tryMatchA],
        [EnqueueStep.appendB, EnqueueStep.appendA, EnqueueStep.tryMatchB, EnqueueStep.tryMatchA],
        [EnqueueStep.appendB, EnqueueStep.appendA, EnqueueStep.tryMatchA, EnqueueStep.tryMatchB]] := by
    intro a b c d
    cases a <;> cases b <;> cases c <;> cases d <;> decide
  have hlen : l.length = 4 := h.1.length_eq
  have hnd : l.Nodup := h.1.nodup_iff.2 (by decide)
  match l, hlen, hnd, h with
  | [a, b, c, d], _, hnd, h => exact key a b c d hnd h.2.1 h.2.2

/-- First pattern: the call of `X` runs to its end before the call of `Y` starts. -/
theorem pairing_sequential (w0 : World) (X Y : Ptr) (gX gY : String) (timerID : Ptr → String)
    (hq : w0.matchmaker.waitingPlayers = []) (ht : w0.tasks = [])
    (hid : (w0.connObj X).ID ≠ (w0.connObj Y).ID)
    (hX : (w0.connObj X).GameID = "") (hgY : gY ≠ "") :
    PairedOnce w0
      (fireTimeouts (tryMatch (enqueue (tryMatch (enqueue w0 X) X gX) Y) Y gY) timerID) Y X gY := by
  have hne : X ≠ Y := fun h => hid (by rw [h])
  have hne' : Y ≠ X := fun h => hne h.symm
  have hid' : (w0.connObj Y).ID ≠ (w0.connObj X).ID := fun h => hid h.symm
  simp [PairedOnce, fireTimeouts, tryMatch, enqueue, findOtherPlayer, createGame, matchTimeout,
    setObj, hq, ht, hid, hid', hX, hgY, hne, hne']
  intro p h1 h2
  exact absurd h2 h1

/-- Second pattern: both appends first, then the `tryMatch` of `X`, then that of `Y`. -/
theorem pairing_appends_first (w0 : World) (X Y : Ptr) (gX gY : String) (timerID : Ptr → String)
    (hq : w0.matchmaker.waitingPlayers = []) (ht : w0.tasks = [])
    (hid : (w0.connObj X).ID ≠ (w0.connObj Y).ID)
    (hY : (w0.connObj Y).GameID = "") (hgX : gX ≠ "") :
    PairedOnce w0
      (fireTimeouts (tryMatch (tryMatch (enqueue (enqueue w0 X) Y) X gX) Y gY) timerID) X Y gX := by
  have hne : X ≠ Y := fun h => hid (by rw [h])
  have hne' : Y ≠ X := fun h => hne h.symm
  have hid' : (w0.connObj Y).ID ≠ (w0.connObj X).ID := fun h => hid h.symm
  simp [PairedOnce, fireTimeouts, tryMatch, enqueue, findOtherPlayer, createGame, matchTimeout,
    setObj, hq, ht, hid, hid', hY, hgX, hne, hne']
  intro p h1 h2
  exact absurd h2 h1

/-- Third pattern: both appends first, then the `tryMatch` of `Y`, then that of `X`. -/
theorem pairing_appends_first_swapped (w0 : World) (X Y : Ptr) (gX gY : String)
    (timerID : Ptr → String)
    (hq : w0.matchmaker.waitingPlayers = []) (ht : w0.tasks = [])
    (hid : (w0.connObj X).ID ≠ (w0.connObj Y).ID)
    (hX : (w0.connObj X).GameID = "") (hgY : gY ≠ "") :
    PairedOnce w0
      (fireTimeouts (tryMatch (tryMatch (enqueue (enqueue w0 X) Y) Y gY) X gX) timerID) Y X gY := by
  have hne : X ≠ Y := fun h => hid (by rw [h])
  have hne' : Y ≠ X := fun h => hne h.symm
  have hid' : (w0.connObj Y).ID ≠ (w0.connObj X).ID := fun h => hid h.symm
  simp [PairedOnce, fireTimeouts, tryMatch, enqueue, findOtherPlayer, createGame, matchTimeout,
    setObj, hq, ht, hid, hid', hX, hgY, hne, hne']
  intro p h1 h2
  exact absurd h2 h1


/-- C12: two connections A and B with distinct IDs and no game are enqueued on a matchmaker
with an empty queue and no armed timeout. Under every interleaving of the four critical
sections of the two `AddToQueue` calls, followed by the firing of every timeout that was
armed, exactly one game object was made, it is a fresh game between A and B, the waiting
queue is empty and both connections carry its game ID (so no game against the automated
opponent was made). -/
theorem C12_concurrent_enqueue_pairs_once (w0 : World) (A B : Ptr) (gA gB : String)
    (timerID : Ptr → String) (l : List EnqueueStep)
    (hq : w0.matchmaker.waitingPlayers = []) (ht : w0.tasks = [])
    (hid : (w0.connObj A).ID ≠ (w0.connObj B).ID)
    (hA : (w0.connObj A).GameID = "") (hB : (w0.connObj B).GameID = "")
    (hgA : gA ≠ "") (hgB : gB ≠ "")
    (hl : IsInterleaving l) :
    ∃ X Y gid, ((X = A ∧ Y = B) ∨ (X = B ∧ Y = A)) ∧ (gid = gA ∨ gid = gB) ∧
      PairedOnce w0 (fireTimeouts (runEnqueueSteps A B gA gB w0 l) timerID) X Y gid := by
  have hid' : (w0.connObj B).ID ≠ (w0.connObj A).ID := fun h => hid h.symm
  have hcases := interleaving_cases hl
  simp only [List.mem_cons, List.mem_singleton, List.not_mem_nil, or_false] at hcases
  rcases hcases with h | h | h | h | h | h <;> subst h
  · exact ⟨B, A, gB, Or.inr ⟨rfl, rfl⟩, Or.inr rfl,
      pairing_sequential w0 A B gA gB timerID hq ht hid hA hgB⟩
  · exact ⟨A, B, gA, Or.inl ⟨rfl, rfl⟩, Or.inl rfl,
      pairing_appends_first w0 A B gA gB timerID hq ht hid hB hgA⟩
  · exact ⟨B, A, gB, Or.inr ⟨rfl, rfl⟩, Or.inr rfl,
      pairing_appends_first_swapped w0 A B gA gB timerID hq ht hid hA hgB⟩
  · exact ⟨A, B, gA, Or.inl ⟨rfl, rfl⟩, Or.inl rfl,
      pairing_sequential w0 B A gB gA timerID hq ht hid' hB hgA⟩
  · exact ⟨B, A, gB, Or.inr ⟨rfl, rfl⟩, Or.inr rfl,
      pairing_appends_first w0 B A gB gA timerID hq ht hid' hA hgB⟩
  · exact ⟨A, B, gA, Or.inl ⟨rfl, rfl⟩, Or.inl rfl,
      pairing_appends_first_swapped w0 B A gB gA timerID hq ht hid' hB hgA⟩

theorem C12_concurrent_enqueue_pairs_once_witness :
    ∃ X Y gid, ((X = 0 ∧ Y = 2) ∨ (X = 2 ∧ Y = 0)) ∧ (gid = "g1" ∨ gid = "g2") ∧
      PairedOnce doubleJoinStart
        (fireTimeouts (runEnqueueSteps 0 2 "g1" "g2" doubleJoinStart
          [EnqueueStep.appendA, EnqueueStep.appendB, EnqueueStep.tryMatchA,
            EnqueueStep.tryMatchB]) (fun _ => "g3")) X Y gid :=
  C12_concurrent_enqueue_pairs_once doubleJoinStart 0 2 "g1" "g2" (fun _ => "g3") _
    rfl rfl (by decide) (by decide) (by decide) (by decide) (by decide)
    ⟨by decide, by decide, by decide⟩


/-! ## Hub: the `GameID` of a connection is never written -/

theorem trySend_GameID (c : Client) (msg : Message) : (trySend c msg).GameID = c.GameID := by
  unfold trySend
  split <;> rfl

theorem sendToParticipants_GameID (w : World) (gs : GameState) (msg : Message) (p : Ptr) :
    ((sendToParticipants w gs msg).clientObj p).GameID = (w.clientObj p).GameID := by
  unfold sendToParticipants
  simp only []
  split
  · exact trySend_GameID _ _
  · rfl

theorem sendBlocking_GameID (w : World) (client : Ptr) (msg : Message) (p : Ptr) :
    ((sendBlocking w client msg).clientObj p).GameID = (w.clientObj p).GameID := by
  unfold sendBlocking
  simp only []
  split
  · simp only [setObj]
    split
    · rename_i h; rw [h]
    · rfl
  · rfl

theorem handleGameEnd_GameID (w : World) (g : Ptr) (winner : Player) (isDraw : Bool) (p : Ptr) :
    ((handleGameEnd w g winner isDraw).clientObj p).GameID = (w.clientObj p).GameID := by
  unfold handleGameEnd
  exact sendToParticipants_GameID _ _ _ p

theorem movedWorld_GameID (w : World) (g : Ptr) (b1 : Board) (q : Player) (m : Move) (p : Ptr) :
    ((movedWorld w g b1 q m).clientObj p).GameID = (w.clientObj p).GameID := by
  unfold movedWorld broadcastMove
  exact sendToParticipants_GameID _ _ _ p

theorem handleBotMove_GameID {w w' : World} {g : Ptr} {rand : Nat}
    (h : handleBotMove w g rand = some w') (p : Ptr) :
    (w'.clientObj p).GameID = (w.clientObj p).GameID := by
  unfold handleBotMove at h
  cases hsel : SelectBotMove (w.gameObj g).Board Player2 rand with
  | none => rw [hsel] at h; cases h
  | some c =>
    rw [hsel] at h
    simp only [] at h
    cases hm : (MakeMove (w.gameObj g).Board c Player2).2 with
    | error e => rw [hm] at h; cases h
    | ok m2 =>
      rw [hm] at h
      simp only [] at h
      split at h
      · injection h with h
        rw [← h, handleGameEnd_GameID]
        unfold broadcastMove
        exact sendToParticipants_GameID _ _ _ p
      · injection h with h
        rw [← h]
        unfold broadcastMove
        exact sendToParticipants_GameID _ _ _ p

theorem HandleMove_GameID {w w' : World} {client : Ptr} {column : Int} {rand : Nat}
    (h : HandleMove w client column rand = some w') (p : Ptr) :
    (w'.clientObj p).GameID = (w.clientObj p).GameID := by
  rcases HandleMove_cases w client column with ⟨e, hrej⟩ | ⟨g, b1, m, hg, hfin, hturn, hm⟩
  · rw [HandleMove_of_rejected hrej rand] at h
    injection h with h
    rw [← h]
    exact sendBlocking_GameID _ _ _ p
  · rw [HandleMove_accepted rand hg hfin hturn hm] at h
    split at h
    · injection h with h
      rw [← h, handleGameEnd_GameID, movedWorld_GameID]
    · split at h
      · rw [handleBotMove_GameID h p, movedWorld_GameID]
      · injection h with h
        rw [← h, movedWorld_GameID]

theorem tryMatch_clientObj (w : World) (client : Ptr) (gameID : String) :
    (tryMatch w client gameID).clientObj = w.clientObj := by
  unfold tryMatch
  split <;> rfl

theorem matchTimeout_clientObj (w : World) (client : Ptr) (gameID : String) :
    (matchTimeout w client gameID).clientObj = w.clientObj := by
  unfold matchTimeout
  split
  · split <;> rfl
  · rfl

theorem ite_trySend_GameID (P : Prop) [Decidable P] (c : Client) (msg : Message) :
    (if P then trySend c msg else c).GameID = c.GameID := by
  split
  · exact trySend_GameID _ _
  · rfl

theorem forfeitGame_GameID (w : World) (username : String) (p : Ptr) :
    ((forfeitGame w username).clientObj p).GameID = (w.clientObj p).GameID := by
  unfold forfeitGame
  rcases Option.eq_none_or_eq_some (GetGameByPlayer w username) with hg | ⟨g, hg⟩
  · rw [hg]
  · rw [hg]
    simp only []
    by_cases hfin : (w.gameObj g).IsFinished = false
    · rw [if_pos hfin]
      exact ite_trySend_GameID _ _ _
    · rw [if_neg hfin]

theorem HandleMove_apply_GameID (w : World) (client : Ptr) (column : Int) (gameState : Ptr)
    (playerNumber : Player) (p : Ptr) :
    (((HandleMove.apply w client column gameState playerNumber).1).clientObj p).GameID =
      (w.clientObj p).GameID := by
  unfold HandleMove.apply
  simp only []
  split
  · exact sendBlocking_GameID _ _ _ p
  · unfold broadcastMove
    exact sendToParticipants_GameID _ _ _ p

theorem HandleMove_resolve_GameID {w w' : World} {gameState : Ptr} {rand : Nat}
    (h : HandleMove.resolve w gameState rand = some w') (p : Ptr) :
    (w'.clientObj p).GameID = (w.clientObj p).GameID := by
  unfold HandleMove.resolve at h
  simp only [] at h
  split at h
  · injection h with h
    rw [← h, handleGameEnd_GameID]
  · split at h
    · exact handleBotMove_GameID h p
    · injection h with h
      rw [← h]

/-- Every operation of the hub keeps the `GameID` of every `Client` object empty. -/
theorem noClientGameID_of_step {w w' : World} (hs : HubStep w w') (h : NoClientGameID w) :
    NoClientGameID w' := by
  intro p
  cases hs with
  | serveWS id =>
    simp only [ServeWS, setObj]
    split
    · rfl
    · exact h p
  | register client => exact h p
  | unregister client =>
    unfold runUnregister
    split
    · split
      · simp only [setObj]
        split
        · exact h client
        · exact h p
      · exact h p
    · exact h p
  | join client username gameID =>
    unfold HandleJoin
    rw [sendBlocking_GameID]
    unfold AddToQueue
    rw [tryMatch_clientObj]
    simp only [enqueue, setObj]
    split
    · exact h client
    · exact h p
  | move _ client column rand hmove => rw [HandleMove_GameID hmove p]; exact h p
  | moveApply client column gameState playerNumber =>
    rw [HandleMove_apply_GameID]; exact h p
  | moveResolve _ gameState rand hres => rw [HandleMove_resolve_GameID hres p]; exact h p
  | gameCreated g =>
    unfold handleGameCreated
    simp only []
    split
    · rw [trySend_GameID]; exact h p
    · exact h p
  | matchTimeout client gameID => rw [matchTimeout_clientObj]; exact h p
  | disconnectTimeout client =>
    unfold handleDisconnectionTimeout
    split
    · split
      · simp only []
        rw [forfeitGame_GameID]; exact h p
      · exact h p
    · exact h p

theorem noClientGameID_of_reachable {w : World} (h : HubReachable w) : NoClientGameID w := by
  induction h with
  | init => intro p; rfl
  | step _ hs ih => exact noClientGameID_of_step hs ih

/-- C18 (what the code does): in every state the server reaches, processing the unregister
of a registered connection removes it from the live-connection set and closes its outbound
queue at once, whatever game its display name takes part in; it is not flagged disconnected
and no forfeit timer is armed, because the `GameID` of a hub connection is never assigned. -/
theorem C18_unregister_removes_connection (w : World) (h : HubReachable w) (client : Ptr)
    (hreg : w.clients client = true) :
    (w.clientObj client).GameID = "" ∧
    (runUnregister w client).clients client = false ∧
    (runUnregister w client).sendClosed client = true ∧
    ((runUnregister w client).clientObj client).Disconnected =
      (w.clientObj client).Disconnected ∧
    (runUnregister w client).tasks = w.tasks := by
  have hno := noClientGameID_of_reachable h client
  unfold runUnregister
  rw [if_pos hreg, if_neg (not_not.2 hno)]
  simp [RemoveFromQueue, setObj, hno]

theorem pairedTrace_reachable : HubReachable pairedTrace :=
  HubReachable.step
    (HubReachable.step
      (HubReachable.step
        (HubReachable.step
          (HubReachable.step
            (HubReachable.step HubReachable.init (HubStep.serveWS _ "c1"))
            (HubStep.register _ 0))
          (HubStep.serveWS _ "c2"))
        (HubStep.register _ 1))
      (HubStep.join _ 0 "alice" "u1"))
    (HubStep.join _ 1 "bob" "g1")

set_option maxRecDepth 100000 in
/-- The failing input of C18: "alice" and "bob" were served, registered, joined and paired
into an unfinished game; the unregister of the connection of "alice" removes it at once. -/
theorem C18_unregister_removes_connection_witness :
    (pairedTrace.clientObj 0).Username = "alice" ∧
    GetGameByPlayer pairedTrace "alice" = some 0 ∧
    (pairedTrace.gameObj 0).Player2 = "alice" ∧
    (pairedTrace.gameObj 0).IsFinished = false ∧
    ((pairedTrace.clientObj 0).GameID = "" ∧
      (runUnregister pairedTrace 0).clients 0 = false ∧
      (runUnregister pairedTrace 0).sendClosed 0 = true ∧
      ((runUnregister pairedTrace 0).clientObj 0).Disconnected =
        (pairedTrace.clientObj 0).Disconnected ∧
      (runUnregister pairedTrace 0).tasks = pairedTrace.tasks) ∧
    (pairedTrace.clientObj 0).Disconnected = false ∧
    Task.disconnectTimeout 0 ∉ pairedTrace.tasks :=
  ⟨by decide, by decide, by decide, by decide,
    C18_unregister_removes_connection pairedTrace pairedTrace_reachable 0 (by decide),
    by decide, by decide⟩


/-! ## Hub: the forfeit after the grace period -/

theorem forfeitGame_of_unfinished {w : World} {username : String} {g : Ptr}
    (hg : GetGameByPlayer w username = some g) (hfin : (w.gameObj g).IsFinished = false) :
    (forfeitGame w username).gameObj =
      setObj w.gameObj g
        { w.gameObj g with
          IsFinished := true
          Winner := if (w.gameObj g).Player1 = username then (w.gameObj g).Player2
            else (w.gameObj g).Player1 } ∧
    (forfeitGame w username).clients = w.clients ∧
    (forfeitGame w username).clientObj = fun p =>
      if w.clients p = true ∧
          (w.clientObj p).Username =
            (if (w.gameObj g).Player1 = username then (w.gameObj g).Player2
              else (w.gameObj g).Player1) ∧
          (w.clientObj p).Disconnected = false
      then trySend (w.clientObj p)
        (Message.gameOver
          (if (w.gameObj g).Player1 = username then (w.gameObj g).Player2
            else (w.gameObj g).Player1) (some "opponent_disconnected"))
      else w.clientObj p := by
  unfold forfeitGame
  rw [hg]
  simp only []
  rw [if_pos hfin]
  exact ⟨rfl, rfl, rfl⟩

theorem forfeitGame_of_finished {w : World} {username : String} {g : Ptr}
    (hg : GetGameByPlayer w username = some g) (hfin : (w.gameObj g).IsFinished = true) :
    forfeitGame w username = w := by
  unfold forfeitGame
  rw [hg]
  simp only []
  rw [if_neg (by rw [hfin]; decide)]

/-- What `handleDisconnectionTimeout` does in any state, also one with a flagged
connection: when the grace period expires for a connection that is registered and
flagged disconnected, the connection leaves the live set and its queue is closed; if its
display name has an unfinished game, the game is finished with the other participant as
winner, and `game_over` with the reason "opponent_disconnected" is sent without blocking to
every registered, unflagged connection of the winner: it is appended to the queue when the
queue has room and dropped when the queue is full; no other connection changes. If the game
is already finished, no game object changes. If the connection is not registered or not
flagged, nothing changes. -/
theorem handleDisconnectionTimeout_effect (w : World) (client : Ptr) :
    ((w.clients client ≠ true ∨ (w.clientObj client).Disconnected ≠ true) →
      handleDisconnectionTimeout w client = w) ∧
    (w.clients client = true → (w.clientObj client).Disconnected = true →
      (handleDisconnectionTimeout w client).clients client = false ∧
      (handleDisconnectionTimeout w client).sendClosed client = true ∧
      (∀ p, p ≠ client →
        (handleDisconnectionTimeout w client).clients p = w.clients p) ∧
      (∀ g, GetGameByPlayer w (w.clientObj client).Username = some g →
        (w.gameObj g).IsFinished = false →
        ((handleDisconnectionTimeout w client).gameObj g).IsFinished = true ∧
        ((w.gameObj g).Player1 = (w.clientObj client).Username →
          ((handleDisconnectionTimeout w client).gameObj g).Winner = (w.gameObj g).Player2) ∧
        ((w.gameObj g).Player1 ≠ (w.clientObj client).Username →
          ((handleDisconnectionTimeout w client).gameObj g).Winner = (w.gameObj g).Player1) ∧
        (∀ q, q ≠ g → (handleDisconnectionTimeout w client).gameObj q = w.gameObj q) ∧
        (∀ p, w.clients p = true →
          (w.clientObj p).Username = ((handleDisconnectionTimeout w client).gameObj g).Winner →
          (w.clientObj p).Disconnected = false →
          ((w.clientObj p).Send.length < SendCapacity →
            (handleDisconnectionTimeout w client).clientObj p =
              { w.clientObj p with
                Send := (w.clientObj p).Send ++
                  [Message.gameOver ((handleDisconnectionTimeout w client).gameObj g).Winner
                    (some "opponent_disconnected")] }) ∧
          (¬ (w.clientObj p).Send.length < SendCapacity →
            (handleDisconnectionTimeout w client).clientObj p = w.clientObj p)) ∧
        (∀ p, ¬ (w.clients p = true ∧
            (w.clientObj p).Username = ((handleDisconnectionTimeout w client).gameObj g).Winner ∧
            (w.clientObj p).Disconnected = false) →
          (handleDisconnectionTimeout w client).clientObj p = w.clientObj p)) ∧
      (∀ g, GetGameByPlayer w (w.clientObj client).Username = some g →
        (w.gameObj g).IsFinished = true →
        (handleDisconnectionTimeout w client).gameObj = w.gameObj ∧
        (handleDisconnectionTimeout w client).clientObj = w.clientObj)) := by
  refine ⟨fun hnot => ?_, fun hreg hflag => ?_⟩
  · unfold handleDisconnectionTimeout
    rcases hnot with h | h
    · rw [if_neg h]
    · by_cases hreg : w.clients client = true
      · rw [if_pos hreg, if_neg h]
      · rw [if_neg hreg]
  · have hdt : handleDisconnectionTimeout w client =
        { forfeitGame w (w.clientObj client).Username with
          clients := setObj (forfeitGame w (w.clientObj client).Username).clients client false
          sendClosed :=
            setObj (forfeitGame w (w.clientObj client).Username).sendClosed client true } := by
      unfold handleDisconnectionTimeout
      rw [if_pos hreg, if_pos hflag]
    have hclients : (forfeitGame w (w.clientObj client).Username).clients = w.clients := by
      unfold forfeitGame
      split
      · rfl
      · split <;> rfl
    refine ⟨?_, ?_, fun p hp => ?_, fun g hg hfin => ?_, fun g hg hfin => ?_⟩
    · rw [hdt]; simp [setObj]
    · rw [hdt]; simp [setObj]
    · rw [hdt]; simp [setObj, hp, hclients]
    · obtain ⟨hgo, _, hco⟩ := forfeitGame_of_unfinished hg hfin
      have hgo' : (handleDisconnectionTimeout w client).gameObj =
          (forfeitGame w (w.clientObj client).Username).gameObj := by rw [hdt]
      have hco' : (handleDisconnectionTimeout w client).clientObj =
          (forfeitGame w (w.clientObj client).Username).clientObj := by rw [hdt]
      rw [hgo', hco', hgo, hco]
      simp only [setObj_same]
      refine ⟨trivial, fun h1 => by rw [if_pos h1], fun h1 => by rw [if_neg h1],
        fun q hq => setObj_other _ _ hq, fun p hp hu hd => ?_, fun p hnot => ?_⟩
      · rw [if_pos ⟨hp, hu, hd⟩]
        unfold trySend
        constructor
        · intro hroom; rw [if_pos hroom]
        · intro hfull; rw [if_neg hfull]
      · rw [if_neg hnot]
    · have := forfeitGame_of_finished hg hfin
      rw [hdt, this]
      exact ⟨rfl, rfl⟩

/-! ## Hub: a new join under the name of a disconnected connection -/

theorem HandleJoin_clients (w : World) (client : Ptr) (username gameID : String) :
    (HandleJoin w client username gameID).clients = w.clients := by
  unfold HandleJoin
  rw [sendBlocking_clients]
  unfold AddToQueue tryMatch
  simp only []
  split <;> rfl

theorem sendBlocking_Disconnected (w : World) (client : Ptr) (msg : Message) (p : Ptr) :
    ((sendBlocking w client msg).clientObj p).Disconnected = (w.clientObj p).Disconnected := by
  unfold sendBlocking
  simp only []
  split
  · simp only [setObj]
    split
    · rename_i h; rw [h]
    · rfl
  · rfl

theorem HandleJoin_Disconnected (w : World) (client : Ptr) (username gameID : String)
    (p : Ptr) :
    ((HandleJoin w client username gameID).clientObj p).Disconnected =
      (w.clientObj p).Disconnected := by
  unfold HandleJoin
  rw [sendBlocking_Disconnected]
  simp only [AddToQueue, tryMatch_clientObj, enqueue, setObj]
  by_cases hp : p = client
  · subst hp; simp
  · simp [hp]


/-! ## The registry operations `RemoveGame` and `RemoveFromQueue` -/

theorem mapDelete_same {β : Type} (m : String → Option β) (k : String) :
    mapDelete m k k = none := by
  simp [mapDelete]

theorem mapDelete_other {β : Type} (m : String → Option β) {k x : String} (h : x ≠ k) :
    mapDelete m k x = m x := by
  simp [mapDelete, h]

theorem RemoveGame_of_stored {w : World} {gameID : String} {g : Ptr}
    (h : w.matchmaker.games gameID = some g) :
    RemoveGame w gameID =
      { w with matchmaker :=
          { w.matchmaker with
            playerToGame := mapDelete (mapDelete w.matchmaker.playerToGame (w.gameObj g).Player1)
              (w.gameObj g).Player2
            games := mapDelete w.matchmaker.games gameID } } := by
  simp only [RemoveGame, h]

theorem RemoveGame_of_absent {w : World} {gameID : String}
    (h : w.matchmaker.games gameID = none) : RemoveGame w gameID = w := by
  simp only [RemoveGame, h]

/-- C23: for every state and every game ID `gameID`: when the registry holds a game under
`gameID`, then after `RemoveGame` neither `GetGame gameID` nor `GetGameByPlayer` for
either participant of the removed game finds anything; every other game ID finds the game
it found before and no game object, queue entry or connection changes; when the registry
holds nothing under `gameID`, `RemoveGame` leaves the whole state as it is. -/
theorem C23_removeGame_effect (w : World) (gameID : String) :
    (∀ g, GetGame w gameID = some g →
      GetGame (RemoveGame w gameID) gameID = none ∧
      GetGameByPlayer (RemoveGame w gameID) (w.gameObj g).Player1 = none ∧
      GetGameByPlayer (RemoveGame w gameID) (w.gameObj g).Player2 = none) ∧
    (∀ other, other ≠ gameID → GetGame (RemoveGame w gameID) other = GetGame w other) ∧
    (RemoveGame w gameID).gameObj = w.gameObj ∧
    (RemoveGame w gameID).matchmaker.waitingPlayers = w.matchmaker.waitingPlayers ∧
    (RemoveGame w gameID).connObj = w.connObj ∧
    (RemoveGame w gameID).clientObj = w.clientObj ∧
    (GetGame w gameID = none → RemoveGame w gameID = w) := by
  rcases Option.eq_none_or_eq_some (w.matchmaker.games gameID) with h | ⟨g0, h⟩
  · rw [RemoveGame_of_absent h]
    refine ⟨fun g hg => ?_, fun _ _ => rfl, rfl, rfl, rfl, rfl, fun _ => rfl⟩
    rw [GetGame, h] at hg
    cases hg
  · rw [RemoveGame_of_stored h]
    refine ⟨fun g hg => ?_, fun other ho => ?_, rfl, rfl, rfl, rfl, fun hn => ?_⟩
    · have hg0 : g0 = g := by
        rw [GetGame, h] at hg
        exact Option.some.inj hg
      subst hg0
      refine ⟨?_, ?_, ?_⟩
      · simp [GetGame, mapDelete]
      · simp [GetGameByPlayer, mapDelete]
      · simp [GetGameByPlayer, mapDelete]
    · simp [GetGame, mapDelete, ho]
    · rw [GetGame, h] at hn
      cases hn

/-- C24: for every state and connection ID `x`: the queue after `RemoveFromQueue x` holds
no entry with ID `x`, it is the old queue without those entries (a sublist of the old
queue in which every entry with another ID occurs as often as before, namely the old queue
filtered by "ID is not `x`"), the registry, the index and all objects are unchanged, and a
second `RemoveFromQueue x` changes nothing. -/
theorem C24_removeFromQueue_effect (w : World) (x : String) :
    (∀ p ∈ (RemoveFromQueue w x).matchmaker.waitingPlayers, (w.connObj p).ID ≠ x) ∧
    ((RemoveFromQueue w x).matchmaker.waitingPlayers).Sublist w.matchmaker.waitingPlayers ∧
    (∀ p, (w.connObj p).ID ≠ x →
      (RemoveFromQueue w x).matchmaker.waitingPlayers.count p =
        w.matchmaker.waitingPlayers.count p) ∧
    (RemoveFromQueue w x).matchmaker.waitingPlayers =
      w.matchmaker.waitingPlayers.filter (fun p => decide ((w.connObj p).ID ≠ x)) ∧
    (RemoveFromQueue w x).matchmaker.games = w.matchmaker.games ∧
    (RemoveFromQueue w x).matchmaker.playerToGame = w.matchmaker.playerToGame ∧
    (RemoveFromQueue w x).gameObj = w.gameObj ∧
    (RemoveFromQueue w x).connObj = w.connObj ∧
    (RemoveFromQueue w x).clientObj = w.clientObj ∧
    RemoveFromQueue (RemoveFromQueue w x) x = RemoveFromQueue w x := by
  refine ⟨fun p hp => ?_, List.filter_sublist _, fun p hp => ?_, rfl, rfl, rfl, rfl, rfl, rfl,
    ?_⟩
  · simp only [RemoveFromQueue, List.mem_filter, decide_eq_true_eq] at hp
    exact hp.2
  · simp only [RemoveFromQueue]
    rw [List.count_filter]
    simpa using hp
  · simp only [RemoveFromQueue, List.filter_filter, Bool.and_self]

/-! ## The index of the registry points to games of the registry -/

theorem createGame_games (w : World) (p1 p2 : Ptr) (gameID : String) :
    (createGame w p1 p2 gameID).1.matchmaker.games =
      mapSet w.matchmaker.games gameID w.nextGame := rfl

theorem createGame_gameObj_other (w : World) (p1 p2 : Ptr) (gameID : String) {g : Ptr}
    (hg : g < w.nextGame) : (createGame w p1 p2 gameID).1.gameObj g = w.gameObj g := by
  have : g ≠ w.nextGame := Nat.ne_of_lt hg
  simp [createGame, setObj, this]

theorem createGame_gameObj_new (w : World) (p1 p2 : Ptr) (gameID : String) :
    ((createGame w p1 p2 gameID).1.gameObj w.nextGame).Player1 = (w.connObj p1).Username ∧
    ((createGame w p1 p2 gameID).1.gameObj w.nextGame).Player2 = (w.connObj p2).Username ∧
    ((createGame w p1 p2 gameID).1.gameObj w.nextGame).ID = gameID ∧
    ((createGame w p1 p2 gameID).1.gameObj w.nextGame).IsFinished = false := by
  simp [createGame, setObj]

theorem createGame_index (w : World) (p1 p2 : Ptr) (gameID : String) :
    (createGame w p1 p2 gameID).1.matchmaker.playerToGame =
      mapSet (mapSet w.matchmaker.playerToGame (w.connObj p1).Username gameID)
        (w.connObj p2).Username gameID := by
  by_cases h : p1 = p2
  · subst h
    simp [createGame, setObj]
  · have h2 : ¬ p2 = p1 := fun e => h e.symm
    simp [createGame, setObj, h, h2]

theorem createGame_nextGame (w : World) (p1 p2 : Ptr) (gameID : String) :
    (createGame w p1 p2 gameID).1.nextGame = w.nextGame + 1 := rfl

theorem createGameWithBot_games (w : World) (p : Ptr) (gameID : String) :
    (createGameWithBot w p gameID).1.matchmaker.games =
      mapSet w.matchmaker.games gameID w.nextGame := rfl

theorem createGameWithBot_gameObj_other (w : World) (p : Ptr) (gameID : String) {g : Ptr}
    (hg : g < w.nextGame) : (createGameWithBot w p gameID).1.gameObj g = w.gameObj g := by
  have : g ≠ w.nextGame := Nat.ne_of_lt hg
  simp [createGameWithBot, setObj, this]

theorem createGameWithBot_gameObj_new (w : World) (p : Ptr) (gameID : String) :
    ((createGameWithBot w p gameID).1.gameObj w.nextGame).Player1 = (w.connObj p).Username ∧
    ((createGameWithBot w p gameID).1.gameObj w.nextGame).Player2 = BotUsername ∧
    ((createGameWithBot w p gameID).1.gameObj w.nextGame).ID = gameID ∧
    ((createGameWithBot w p gameID).1.gameObj w.nextGame).IsFinished = false := by
  simp [createGameWithBot, setObj]

theorem createGameWithBot_index (w : World) (p : Ptr) (gameID : String) :
    (createGameWithBot w p gameID).1.matchmaker.playerToGame =
      mapSet w.matchmaker.playerToGame (w.connObj p).Username gameID := by
  simp [createGameWithBot, setObj]

theorem createGameWithBot_nextGame (w : World) (p : Ptr) (gameID : String) :
    (createGameWithBot w p gameID).1.nextGame = w.nextGame + 1 := rfl

theorem indexSound_createGame {w : World} (p1 p2 : Ptr) {gameID : String}
    (hfresh : w.matchmaker.games gameID = none) (h : IndexSound w) :
    IndexSound (createGame w p1 p2 gameID).1 := by
  intro u id hu
  rw [createGame_index] at hu
  simp only [GetGame, createGame_games, createGame_nextGame, IsParticipant]
  by_cases h2 : u = (w.connObj p2).Username
  · have hid : gameID = id := by simpa [mapSet, h2] using hu
    subst hid
    refine ⟨w.nextGame, by simp [mapSet], Nat.lt_succ_self _, Or.inr ?_⟩
    rw [(createGame_gameObj_new w p1 p2 gameID).2.1, h2]
  · by_cases h1 : u = (w.connObj p1).Username
    · have hid : gameID = id := by simpa [mapSet, h2, h1] using hu
      subst hid
      refine ⟨w.nextGame, by simp [mapSet], Nat.lt_succ_self _, Or.inl ?_⟩
      rw [(createGame_gameObj_new w p1 p2 gameID).1, h1]
    · have hold : w.matchmaker.playerToGame u = some id := by
        simpa [mapSet, h2, h1] using hu
      obtain ⟨g, hg, hlt, hpart⟩ := h u id hold
      have hne : id ≠ gameID := by
        rintro rfl
        rw [GetGame, hfresh] at hg
        cases hg
      refine ⟨g, ?_, Nat.lt_succ_of_lt hlt, ?_⟩
      · simpa [mapSet, hne] using hg
      · rw [createGame_gameObj_other w p1 p2 gameID hlt]
        exact hpart

theorem indexSound_createGameWithBot {w : World} (p : Ptr) {gameID : String}
    (hfresh : w.matchmaker.games gameID = none) (h : IndexSound w) :
    IndexSound (createGameWithBot w p gameID).1 := by
  intro u id hu
  rw [createGameWithBot_index] at hu
  simp only [GetGame, createGameWithBot_games, createGameWithBot_nextGame, IsParticipant]
  by_cases h1 : u = (w.connObj p).Username
  · have hid : gameID = id := by simpa [mapSet, h1] using hu
    subst hid
    refine ⟨w.nextGame, by simp [mapSet], Nat.lt_succ_self _, Or.inl ?_⟩
    rw [(createGameWithBot_gameObj_new w p gameID).1, h1]
  · have hold : w.matchmaker.playerToGame u = some id := by
      simpa [mapSet, h1] using hu
    obtain ⟨g, hg, hlt, hpart⟩ := h u id hold
    have hne : id ≠ gameID := by
      rintro rfl
      rw [GetGame, hfresh] at hg
      cases hg
    refine ⟨g, ?_, Nat.lt_succ_of_lt hlt, ?_⟩
    · simpa [mapSet, hne] using hg
    · rw [createGameWithBot_gameObj_other w p gameID hlt]
      exact hpart

theorem indexSound_of_step {w w' : World} (hs : MatchStep w w') (h : IndexSound w) :
    IndexSound w' := by
  cases hs with
  | newConnection id username => exact h
  | enqueue client => exact h
  | tryMatch client gameID hfresh =>
    unfold tryMatch
    cases findOtherPlayer w client with
    | none => exact h
    | some other => exact indexSound_createGame client other hfresh h
  | timeout client gameID hfresh =>
    unfold matchTimeout
    split
    · split
      · exact indexSound_createGameWithBot client hfresh h
      · exact h
    · exact h
  | updateGame gameID gameState old hold hlt hp1 hp2 =>
    intro u id hu
    obtain ⟨g, hg, hglt, hpart⟩ := h u id hu
    by_cases hid : id = gameID
    · subst hid
      have hgo : g = old := by
        rw [GetGame, hold] at hg
        exact (Option.some.inj hg).symm
      subst hgo
      refine ⟨gameState, by simp [GetGame, UpdateGame, mapSet], hlt, ?_⟩
      rcases hpart with hp | hp
      · exact Or.inl (hp1.trans hp)
      · exact Or.inr (hp2.trans hp)
    · exact ⟨g, by simpa [GetGame, UpdateGame, mapSet, hid] using hg, hglt, hpart⟩
  | removeGame gameID =>
    rcases Option.eq_none_or_eq_some (w.matchmaker.games gameID) with hn | ⟨g0, hs0⟩
    · rw [RemoveGame_of_absent hn]; exact h
    · rw [RemoveGame_of_stored hs0]
      intro u id hu
      have hu2 : u ≠ (w.gameObj g0).Player2 := by
        intro e
        simp [mapDelete, e] at hu
      have hu1 : u ≠ (w.gameObj g0).Player1 := by
        intro e
        simp [mapDelete, e] at hu
      have hold : w.matchmaker.playerToGame u = some id := by
        simpa [mapDelete, hu1, hu2] using hu
      obtain ⟨g, hg, hglt, hpart⟩ := h u id hold
      have hid : id ≠ gameID := by
        rintro rfl
        have hgo : g = g0 := by
          rw [GetGame, hs0] at hg
          exact (Option.some.inj hg).symm
        subst hgo
        rcases hpart with hp | hp
        · exact hu1 hp.symm
        · exact hu2 hp.symm
      exact ⟨g, by simpa [GetGame, mapDelete, hid] using hg, hglt, hpart⟩
  | removeFromQueue clientID => exact h

/-- C21: in every state the matchmaker reaches from the empty one by new connections, the
two critical sections of `AddToQueue` (in any interleaving), timeouts (pairing with the
automated opponent), `UpdateGame` of a stored game with the same participants, `RemoveGame`
and `RemoveFromQueue`, with freshly drawn game IDs: every entry `u -> gameID` of the index
points to a game that `GetGame` finds in the registry, and `u` is the first or the second
participant of that game. -/
theorem C21_index_entries_point_to_games (w : World) (h : MatchReachable w) :
    ∀ u gameID, w.matchmaker.playerToGame u = some gameID →
      ∃ g, GetGame w gameID = some g ∧
        ((w.gameObj g).Player1 = u ∨ (w.gameObj g).Player2 = u) := by
  have key : IndexSound w := by
    induction h with
    | init =>
      intro u id hu
      simp [initialWorld] at hu
    | step _ hs ih => exact indexSound_of_step hs ih
  intro u id hu
  obtain ⟨g, hg, _, hpart⟩ := key u id hu
  exact ⟨g, hg, hpart⟩

theorem pairedMatchWorld_reachable : MatchReachable pairedMatchWorld := by
  refine MatchReachable.step (MatchReachable.step (MatchReachable.step (MatchReachable.step
    (MatchReachable.step (MatchReachable.step MatchReachable.init
      (MatchStep.newConnection _ "c1" "alice"))
      (MatchStep.enqueue _ 0))
      (MatchStep.tryMatch _ 0 "u0" ?_))
      (MatchStep.newConnection _ "c2" "bob"))
      (MatchStep.enqueue _ 1))
      (MatchStep.tryMatch _ 1 "g1" ?_)
  · decide
  · decide

theorem C21_index_entries_point_to_games_witness :
    pairedMatchWorld.matchmaker.playerToGame "alice" = some "g1" ∧
    ∃ g, GetGame pairedMatchWorld "g1" = some g ∧
      ((pairedMatchWorld.gameObj g).Player1 = "alice" ∨
        (pairedMatchWorld.gameObj g).Player2 = "alice") :=
  ⟨by decide,
    C21_index_entries_point_to_games pairedMatchWorld pairedMatchWorld_reachable
      "alice" "g1" (by decide)⟩

/-! ## Participants of the games of the registry and the index -/

theorem botGameWorld_reachable : MatchReachable botGameWorld := by
  refine MatchReachable.step (MatchReachable.step (MatchReachable.step (MatchReachable.step
    MatchReachable.init
      (MatchStep.newConnection _ "c1" "alice"))
      (MatchStep.enqueue _ 0))
      (MatchStep.tryMatch _ 0 "u0" ?_))
      (MatchStep.timeout _ 0 "g1" ?_)
  · decide
  · decide

theorem sharedNameWorld_reachable : MatchReachable sharedNameWorld := by
  refine MatchReachable.step (MatchReachable.step (MatchReachable.step (MatchReachable.step
    (MatchReachable.step (MatchReachable.step pairedMatchWorld_reachable
      (MatchStep.newConnection _ "c3" "alice"))
      (MatchStep.enqueue _ 2))
      (MatchStep.tryMatch _ 2 "u2" ?_))
      (MatchStep.newConnection _ "c4" "carol"))
      (MatchStep.enqueue _ 3))
      (MatchStep.tryMatch _ 3 "g2" ?_)
  · decide
  · decide

/-- C22 (counterexample): two reachable states of the matchmaker in which an unfinished
game of the registry has a participant without an index entry that points to it. In
`botGameWorld` the game "g1" is against the automated opponent, whose name has no index
entry; in `sharedNameWorld` the game "g1" has the participant "alice", whose index entry
points to the later game "g2". -/
theorem C22_counterexample_participant_not_indexed :
    (MatchReachable botGameWorld ∧ ¬ ParticipantsIndexed botGameWorld) ∧
    (MatchReachable sharedNameWorld ∧ ¬ ParticipantsIndexed sharedNameWorld) := by
  refine ⟨⟨botGameWorld_reachable, fun h => ?_⟩, ⟨sharedNameWorld_reachable, fun h => ?_⟩⟩
  · have h1 := (h "g1" 0 (by decide) (by decide)).2
    revert h1
    decide
  · have h1 := (h "g1" 0 (by decide) (by decide)).2
    revert h1
    decide

theorem registryAllocated_of_step {w w' : World} (hs : MatchStep w w')
    (h : RegistryAllocated w) : RegistryAllocated w' := by
  cases hs with
  | newConnection id username => exact h
  | enqueue client => exact h
  | tryMatch client gameID hfresh =>
    unfold tryMatch
    cases findOtherPlayer w client with
    | none => exact h
    | some other =>
      intro id g hg
      change mapSet w.matchmaker.games gameID w.nextGame id = some g at hg
      change g < w.nextGame + 1
      simp only [mapSet] at hg
      split at hg
      · cases hg; exact Nat.lt_succ_self _
      · exact Nat.lt_succ_of_lt (h id g hg)
  | timeout client gameID hfresh =>
    unfold matchTimeout
    split
    · split
      · intro id g hg
        change mapSet w.matchmaker.games gameID w.nextGame id = some g at hg
        change g < w.nextGame + 1
        simp only [mapSet] at hg
        split at hg
        · cases hg; exact Nat.lt_succ_self _
        · exact Nat.lt_succ_of_lt (h id g hg)
      · exact h
    · exact h
  | updateGame gameID gameState old hold hlt hp1 hp2 =>
    intro id g hg
    change mapSet w.matchmaker.games gameID gameState id = some g at hg
    change g < w.nextGame
    simp only [mapSet] at hg
    split at hg
    · cases hg; exact hlt
    · exact h id g hg
  | removeGame gameID =>
    rcases Option.eq_none_or_eq_some (w.matchmaker.games gameID) with hn | ⟨g0, hs0⟩
    · rw [RemoveGame_of_absent hn]; exact h
    · rw [RemoveGame_of_stored hs0]
      intro id g hg
      change mapDelete w.matchmaker.games gameID id = some g at hg
      change g < w.nextGame
      simp only [mapDelete] at hg
      split at hg
      · cases hg
      · exact h id g hg
  | removeFromQueue clientID => exact h

theorem humansIndexed_createGame {w : World} (p1 p2 : Ptr) {gameID : String}
    (hfresh : w.matchmaker.games gameID = none) (halloc : RegistryAllocated w)
    (h : HumansIndexed w) (hn : NamesInOneGame (createGame w p1 p2 gameID).1) :
    HumansIndexed (createGame w p1 p2 gameID).1 := by
  obtain ⟨hn1, hn2⟩ := hn
  have hnew := createGame_gameObj_new w p1 p2 gameID
  have hstored : (createGame w p1 p2 gameID).1.matchmaker.games gameID = some w.nextGame := by
    simp [createGame_games, mapSet]
  intro id g hg
  rw [createGame_index]
  by_cases hid : id = gameID
  · subst hid
    have hgn : g = w.nextGame := by
      rw [hstored] at hg
      exact (Option.some.inj hg).symm
    subst hgn
    rw [hnew.1, hnew.2.1]
    refine ⟨?_, fun _ => ?_⟩
    · simp only [mapSet]
      split_ifs <;> rfl
    · simp [mapSet]
  · have hgold : w.matchmaker.games id = some g := by
      simpa [createGame_games, mapSet, hid] using hg
    have hlt := halloc id g hgold
    have hobj := createGame_gameObj_other w p1 p2 gameID hlt
    have hfree : ∀ u, u ≠ BotUsername →
        IsParticipant (createGame w p1 p2 gameID).1 g u →
        u ≠ (w.connObj p1).Username ∧ u ≠ (w.connObj p2).Username := by
      intro u hu hpart
      have := hn2 id gameID g w.nextGame u hg hstored hid hu hpart
      constructor
      · intro e
        exact this (Or.inl (by rw [hnew.1, e]))
      · intro e
        exact this (Or.inr (by rw [hnew.2.1, e]))
    rw [hobj]
    constructor
    · have hp1 : (w.gameObj g).Player1 ≠ BotUsername := by
        rw [← hobj]; exact hn1 id g hg
      obtain ⟨ha, hb⟩ := hfree _ hp1 (Or.inl (by rw [hobj]))
      simpa [mapSet, ha, hb] using (h id g hgold).1
    · intro hp2
      obtain ⟨ha, hb⟩ := hfree _ hp2 (Or.inr (by rw [hobj]))
      simpa [mapSet, ha, hb] using (h id g hgold).2 hp2

theorem humansIndexed_createGameWithBot {w : World} (p : Ptr) {gameID : String}
    (hfresh : w.matchmaker.games gameID = none) (halloc : RegistryAllocated w)
    (h : HumansIndexed w) (hn : NamesInOneGame (createGameWithBot w p gameID).1) :
    HumansIndexed (createGameWithBot w p gameID).1 := by
  obtain ⟨hn1, hn2⟩ := hn
  have hnew := createGameWithBot_gameObj_new w p gameID
  have hstored :
      (createGameWithBot w p gameID).1.matchmaker.games gameID = some w.nextGame := by
    simp [createGameWithBot_games, mapSet]
  intro id g hg
  rw [createGameWithBot_index]
  by_cases hid : id = gameID
  · subst hid
    have hgn : g = w.nextGame := by
      rw [hstored] at hg
      exact (Option.some.inj hg).symm
    subst hgn
    rw [hnew.1, hnew.2.1]
    exact ⟨by simp [mapSet], fun hne => absurd rfl hne⟩
  · have hgold : w.matchmaker.games id = some g := by
      simpa [createGameWithBot_games, mapSet, hid] using hg
    have hlt := halloc id g hgold
    have hobj := createGameWithBot_gameObj_other w p gameID hlt
    have hfree : ∀ u, u ≠ BotUsername →
        IsParticipant (createGameWithBot w p gameID).1 g u →
        u ≠ (w.connObj p).Username := by
      intro u hu hpart e
      exact hn2 id gameID g w.nextGame u hg hstored hid hu hpart (Or.inl (by rw [hnew.1, e]))
    rw [hobj]
    constructor
    · have hp1 : (w.gameObj g).Player1 ≠ BotUsername := by
        rw [← hobj]; exact hn1 id g hg
      have ha := hfree _ hp1 (Or.inl (by rw [hobj]))
      simpa [mapSet, ha] using (h id g hgold).1
    · intro hp2
      have ha := hfree _ hp2 (Or.inr (by rw [hobj]))
      simpa [mapSet, ha] using (h id g hgold).2 hp2

theorem humansIndexed_of_step {w w' : World} (hs : MatchStep w w')
    (halloc : RegistryAllocated w) (hnw : NamesInOneGame w) (hnw' : NamesInOneGame w')
    (h : HumansIndexed w) : HumansIndexed w' := by
  cases hs with
  | newConnection id username => exact h
  | enqueue client => exact h
  | tryMatch client gameID hfresh =>
    unfold tryMatch at hnw' ⊢
    cases hf : findOtherPlayer w client with
    | none => exact h
    | some other =>
      rw [hf] at hnw'
      exact humansIndexed_createGame client other hfresh halloc h hnw'
  | timeout client gameID hfresh =>
    unfold matchTimeout at hnw' ⊢
    split
    · rename_i hgid
      rw [if_pos hgid] at hnw'
      split
      · rename_i x hfind
        rw [hfind] at hnw'
        exact humansIndexed_createGameWithBot client hfresh halloc h hnw'
      · exact h
    · exact h
  | updateGame gameID gameState old hold hlt hp1 hp2 =>
    intro id g hg
    change mapSet w.matchmaker.games gameID gameState id = some g at hg
    change w.matchmaker.playerToGame (w.gameObj g).Player1 = some id ∧
      ((w.gameObj g).Player2 ≠ BotUsername →
        w.matchmaker.playerToGame (w.gameObj g).Player2 = some id)
    simp only [mapSet] at hg
    split at hg
    · rename_i hid
      cases hg
      subst hid
      rw [hp1, hp2]
      exact h id old hold
    · exact h id g hg
  | removeGame gameID =>
    rcases Option.eq_none_or_eq_some (w.matchmaker.games gameID) with hn | ⟨g0, hs0⟩
    · rw [RemoveGame_of_absent hn]; exact h
    · rw [RemoveGame_of_stored hs0]
      intro id g hg
      change mapDelete w.matchmaker.games gameID id = some g at hg
      change mapDelete (mapDelete w.matchmaker.playerToGame (w.gameObj g0).Player1)
          (w.gameObj g0).Player2 (w.gameObj g).Player1 = some id ∧
        ((w.gameObj g).Player2 ≠ BotUsername →
          mapDelete (mapDelete w.matchmaker.playerToGame (w.gameObj g0).Player1)
            (w.gameObj g0).Player2 (w.gameObj g).Player2 = some id)
      simp only [mapDelete] at hg
      split at hg
      · cases hg
      · rename_i hid
        have hfree : ∀ u, u ≠ BotUsername → IsParticipant w g u →
            u ≠ (w.gameObj g0).Player1 ∧ u ≠ (w.gameObj g0).Player2 := by
          intro u hu hpart
          have := hnw.2 id gameID g g0 u hg hs0 hid hu hpart
          exact ⟨fun e => this (Or.inl e.symm), fun e => this (Or.inr e.symm)⟩
        constructor
        · obtain ⟨ha, hb⟩ := hfree _ (hnw.1 id g hg) (Or.inl rfl)
          simpa [mapDelete, ha, hb] using (h id g hg).1
        · intro hp2
          obtain ⟨ha, hb⟩ := hfree _ hp2 (Or.inr rfl)
          simpa [mapDelete, ha, hb] using (h id g hg).2 hp2
  | removeFromQueue clientID => exact h

theorem matchReachable_of_names {w : World} (h : MatchReachableNames w) :
    MatchReachable w := by
  induction h with
  | init => exact MatchReachable.init
  | step _ hs _ ih => exact MatchReachable.step ih hs

theorem registryAllocated_of_reachable {w : World} (h : MatchReachable w) :
    RegistryAllocated w := by
  induction h with
  | init =>
    intro id g hg
    simp [initialWorld] at hg
  | step _ hs ih => exact registryAllocated_of_step hs ih

theorem namesInOneGame_of_reachable {w : World} (h : MatchReachableNames w) :
    NamesInOneGame w := by
  cases h with
  | init =>
    constructor
    · intro id g hg
      simp [initialWorld] at hg
    · intro id1 id2 g1 g2 u hg
      simp [initialWorld] at hg
  | step _ _ hn => exact hn

/-- C22 (amended): in every state the matchmaker reaches from the empty one, by the steps
of C21, through states in which display names are in one game at a time (no display name
other than that of the automated opponent belongs to two games of the registry, and no
first participant carries the name of the automated opponent): for every game that is in
the registry and unfinished, the first participant has an index entry that points to the
game, and so has the second participant unless it is the automated opponent. -/
theorem C22_human_participants_indexed (w : World) (h : MatchReachableNames w) :
    ∀ gameID g, GetGame w gameID = some g → (w.gameObj g).IsFinished = false →
      w.matchmaker.playerToGame (w.gameObj g).Player1 = some gameID ∧
      ((w.gameObj g).Player2 ≠ BotUsername →
        w.matchmaker.playerToGame (w.gameObj g).Player2 = some gameID) := by
  have key : HumansIndexed w := by
    induction h with
    | init =>
      intro id g hg
      simp [initialWorld] at hg
    | step hprev hs hn ih =>
      exact humansIndexed_of_step hs
        (registryAllocated_of_reachable (matchReachable_of_names hprev))
        (namesInOneGame_of_reachable hprev) hn ih
  intro id g hg _
  exact key id g hg

theorem namesInOneGame_of_no_game {w : World} (h : ∀ id, w.matchmaker.games id = none) :
    NamesInOneGame w := by
  constructor
  · intro id g hg
    rw [h id] at hg
    cases hg
  · intro id1 id2 g1 g2 u hg
    rw [h id1] at hg
    cases hg

theorem namesInOneGame_of_one_game {w : World} (gameID : String)
    (h : ∀ id, id ≠ gameID → w.matchmaker.games id = none)
    (hp : ∀ g, w.matchmaker.games gameID = some g → (w.gameObj g).Player1 ≠ BotUsername) :
    NamesInOneGame w := by
  constructor
  · intro id g hg
    by_cases hid : id = gameID
    · subst hid; exact hp g hg
    · rw [h id hid] at hg
      cases hg
  · intro id1 id2 g1 g2 u hg1 hg2 hne
    by_cases h1 : id1 = gameID
    · subst h1
      rw [h id2 (fun e => hne e.symm)] at hg2
      cases hg2
    · rw [h id1 h1] at hg1
      cases hg1

theorem pairedMatchWorld_reachableNames : MatchReachableNames pairedMatchWorld := by
  refine MatchReachableNames.step (MatchReachableNames.step (MatchReachableNames.step
    (MatchReachableNames.step (MatchReachableNames.step (MatchReachableNames.step
      MatchReachableNames.init
      (MatchStep.newConnection _ "c1" "alice") ?_)
      (MatchStep.enqueue _ 0) ?_)
      (MatchStep.tryMatch _ 0 "u0" ?_) ?_)
      (MatchStep.newConnection _ "c2" "bob") ?_)
      (MatchStep.enqueue _ 1) ?_)
      (MatchStep.tryMatch _ 1 "g1" ?_) ?_
  · exact namesInOneGame_of_no_game (fun _ => rfl)
  · exact namesInOneGame_of_no_game (fun _ => rfl)
  · decide
  · exact namesInOneGame_of_no_game (fun _ => rfl)
  · exact namesInOneGame_of_no_game (fun _ => rfl)
  · exact namesInOneGame_of_no_game (fun _ => rfl)
  · decide
  · refine namesInOneGame_of_one_game "g1" (fun id hid => ?_) (fun g hg => ?_)
    · change mapSet (fun _ => none) "g1" 0 id = none
      simp [mapSet, hid]
    · have hg0 : g = 0 := by
        have : (some 0 : Option Ptr) = some g := hg
        exact (Option.some.inj this).symm
      subst hg0
      decide

theorem C22_human_participants_indexed_witness :
    GetGame pairedMatchWorld "g1" = some 0 ∧
    (pairedMatchWorld.gameObj 0).Player1 = "bob" ∧
    (pairedMatchWorld.gameObj 0).Player2 = "alice" ∧
    pairedMatchWorld.matchmaker.playerToGame (pairedMatchWorld.gameObj 0).Player1 =
      some "g1" ∧
    ((pairedMatchWorld.gameObj 0).Player2 ≠ BotUsername →
      pairedMatchWorld.matchmaker.playerToGame (pairedMatchWorld.gameObj 0).Player2 =
        some "g1") :=
  ⟨by decide, by decide, by decide,
    C22_human_participants_indexed pairedMatchWorld pairedMatchWorld_reachableNames
      "g1" 0 (by decide) (by decide)⟩

/-! ## Three connections racing in `AddToQueue` -/

theorem raceBeforeWorld_reachable : MatchReachable raceBeforeWorld := by
  refine MatchReachable.step (MatchReachable.step (MatchReachable.step (MatchReachable.step
    (MatchReachable.step (MatchReachable.step (MatchReachable.step MatchReachable.init
      (MatchStep.newConnection _ "a" "alice"))
      (MatchStep.newConnection _ "b" "bob"))
      (MatchStep.newConnection _ "c" "carol"))
      (MatchStep.enqueue _ 0))
      (MatchStep.enqueue _ 1))
      (MatchStep.enqueue _ 2))
      (MatchStep.tryMatch _ 1 "g1" ?_)
  decide

/-- C30 (the defect): three connections A, B, C with the IDs "a", "b", "c" are appended to
the queue before any `tryMatch` runs. `tryMatch(B)` pairs B with A (game "g1") and leaves C
waiting. The `tryMatch(A)` that follows finds C (another ID, no game) and, without looking
at the game ID of A, makes the game "g2" of A and C: A is assigned a game a second time and
is a participant of two games of the registry. The timeout, in contrast, leaves every
connection with an assigned game alone. -/
theorem C30_tryMatch_assigns_second_game :
    MatchReachable raceBeforeWorld ∧
    ((raceBeforeWorld.connObj 0).ID = "a" ∧ (raceBeforeWorld.connObj 1).ID = "b" ∧
      (raceBeforeWorld.connObj 2).ID = "c") ∧
    ((raceBeforeWorld.connObj 0).GameID = "g1" ∧ (raceBeforeWorld.connObj 1).GameID = "g1" ∧
      (raceBeforeWorld.connObj 2).GameID = "" ∧
      raceBeforeWorld.matchmaker.waitingPlayers = [2]) ∧
    findOtherPlayer raceBeforeWorld 0 = some 2 ∧
    ((raceAfterWorld.connObj 0).GameID = "g2" ∧ (raceAfterWorld.connObj 2).GameID = "g2" ∧
      (raceAfterWorld.connObj 1).GameID = "g1" ∧
      raceAfterWorld.matchmaker.waitingPlayers = []) ∧
    (GetGame raceAfterWorld "g1" = some 0 ∧ GetGame raceAfterWorld "g2" = some 1 ∧
      (raceAfterWorld.gameObj 0).Player1 = "bob" ∧
      (raceAfterWorld.gameObj 0).Player2 = "alice" ∧
      (raceAfterWorld.gameObj 1).Player1 = "alice" ∧
      (raceAfterWorld.gameObj 1).Player2 = "carol" ∧
      raceAfterWorld.tasks = [Task.gameCreated 0, Task.gameCreated 1]) ∧
    (∀ (w : World) (client : Ptr) (gameID : String),
      (w.connObj client).GameID ≠ "" → matchTimeout w client gameID = w) := by
  refine ⟨raceBeforeWorld_reachable, by decide, by decide, by decide, by decide, by decide,
    fun w client gameID h => ?_⟩
  unfold matchTimeout
  rw [if_neg h]

/-! ## Hub: a full outbound queue during a broadcast -/

theorem sendToParticipants_clientObj (w : World) (gs : GameState) (msg : Message) (p : Ptr)
    (hreg : w.clients p = true)
    (hpart : gs.Player1 = (w.clientObj p).Username ∨ gs.Player2 = (w.clientObj p).Username) :
    (sendToParticipants w gs msg).clientObj p = trySend (w.clientObj p) msg := by
  have hcond : w.clients p = true ∧
      ((w.clientObj p).Username = gs.Player1 ∨ (w.clientObj p).Username = gs.Player2) :=
    ⟨hreg, hpart.imp Eq.symm Eq.symm⟩
  simp only [sendToParticipants]
  rw [if_pos hcond]

theorem sendToParticipants_clientObj_other (w : World) (gs : GameState) (msg : Message)
    (p : Ptr)
    (h : ¬ (w.clients p = true ∧
      (gs.Player1 = (w.clientObj p).Username ∨ gs.Player2 = (w.clientObj p).Username))) :
    (sendToParticipants w gs msg).clientObj p = w.clientObj p := by
  have hcond : ¬ (w.clients p = true ∧
      ((w.clientObj p).Username = gs.Player1 ∨ (w.clientObj p).Username = gs.Player2)) :=
    fun hc => h ⟨hc.1, hc.2.imp Eq.symm Eq.symm⟩
  simp only [sendToParticipants]
  rw [if_neg hcond]

theorem trySend_room {c : Client} (msg : Message) (h : c.Send.length < SendCapacity) :
    trySend c msg = { c with Send := c.Send ++ [msg] } := by
  simp only [trySend]
  rw [if_pos h]

theorem trySend_full {c : Client} (msg : Message) (h : SendCapacity ≤ c.Send.length) :
    trySend c msg = c := by
  simp only [trySend]
  rw [if_neg (Nat.not_lt.2 h)]

/-- What the two broadcasts of a game do with a full queue: when `broadcastMove` sends a
move, or `handleGameEnd` sends `game_over`,
to the participants of the game at `g`, the call returns without waiting for any queue and
removes nobody from the live-connection set; a registered connection of a participant
gets the message at the end of its outbound queue when the queue has room, and is left
exactly as it was (the message is dropped) when its queue is full; every other connection
is left as it was. So a full queue of one participant does not keep the message from the
other participant. -/
theorem broadcast_drops_on_full_queue (w : World) (g : Ptr) (move : Move)
    (winner : Player) (isDraw : Bool) :
    ((broadcastMove w g move).clients = w.clients ∧
      (broadcastMove w g move).sendClosed = w.sendClosed ∧
      (∀ p, w.clients p = true → IsParticipant w g (w.clientObj p).Username →
        ((w.clientObj p).Send.length < SendCapacity →
          (broadcastMove w g move).clientObj p =
            { w.clientObj p with
              Send := (w.clientObj p).Send ++
                [Message.move move.Row move.Column move.Player] }) ∧
        (SendCapacity ≤ (w.clientObj p).Send.length →
          (broadcastMove w g move).clientObj p = w.clientObj p)) ∧
      (∀ p, ¬ (w.clients p = true ∧ IsParticipant w g (w.clientObj p).Username) →
        (broadcastMove w g move).clientObj p = w.clientObj p)) ∧
    ((handleGameEnd w g winner isDraw).clients = w.clients ∧
      (handleGameEnd w g winner isDraw).sendClosed = w.sendClosed ∧
      (∀ p, w.clients p = true → IsParticipant w g (w.clientObj p).Username →
        ((w.clientObj p).Send.length < SendCapacity →
          (handleGameEnd w g winner isDraw).clientObj p =
            { w.clientObj p with
              Send := (w.clientObj p).Send ++
                [Message.gameOver ((handleGameEnd w g winner isDraw).gameObj g).Winner
                  none] }) ∧
        (SendCapacity ≤ (w.clientObj p).Send.length →
          (handleGameEnd w g winner isDraw).clientObj p = w.clientObj p)) ∧
      (∀ p, ¬ (w.clients p = true ∧ IsParticipant w g (w.clientObj p).Username) →
        (handleGameEnd w g winner isDraw).clientObj p = w.clientObj p)) := by
  refine ⟨⟨rfl, rfl, fun p hreg hpart => ⟨fun hroom => ?_, fun hfull => ?_⟩,
      fun p hnot => ?_⟩,
    ⟨rfl, rfl, fun p hreg hpart => ⟨fun hroom => ?_, fun hfull => ?_⟩, fun p hnot => ?_⟩⟩
  · unfold broadcastMove
    rw [sendToParticipants_clientObj w _ _ p hreg hpart, trySend_room _ hroom]
  · unfold broadcastMove
    rw [sendToParticipants_clientObj w _ _ p hreg hpart, trySend_full _ hfull]
  · unfold broadcastMove
    rw [sendToParticipants_clientObj_other w _ _ p hnot]
  · have hg : ((handleGameEnd w g winner isDraw).gameObj g).Winner =
        (if isDraw = true then "Draw"
          else if winner = Player1 then (w.gameObj g).Player1 else (w.gameObj g).Player2) := by
      simp [handleGameEnd_gameObj, setObj_same]
    rw [hg]
    unfold handleGameEnd
    simp only []
    refine Eq.trans (sendToParticipants_clientObj _ _ _ p ?_ ?_) ?_
    · exact hreg
    · exact hpart
    · exact trySend_room _ hroom
  · unfold handleGameEnd
    simp only []
    refine Eq.trans (sendToParticipants_clientObj _ _ _ p ?_ ?_) ?_
    · exact hreg
    · exact hpart
    · exact trySend_full _ hfull
  · unfold handleGameEnd
    simp only []
    refine Eq.trans (sendToParticipants_clientObj_other _ _ _ p ?_) rfl
    exact hnot

/-! ## Hub: the outcome of a finished game -/

theorem tryMatch_gameObj_other (w : World) (client : Ptr) (gameID : String) {g : Ptr}
    (hg : g < w.nextGame) : (tryMatch w client gameID).gameObj g = w.gameObj g := by
  unfold tryMatch
  cases findOtherPlayer w client with
  | none => rfl
  | some other => exact createGame_gameObj_other w client other gameID hg

theorem matchTimeout_gameObj_other (w : World) (client : Ptr) (gameID : String) {g : Ptr}
    (hg : g < w.nextGame) : (matchTimeout w client gameID).gameObj g = w.gameObj g := by
  unfold matchTimeout
  split
  · split
    · exact createGameWithBot_gameObj_other w client gameID hg
    · rfl
  · rfl

theorem forfeitGame_gameObj_finished (w : World) (username : String) {g : Ptr}
    (hfin : (w.gameObj g).IsFinished = true) :
    (forfeitGame w username).gameObj g = w.gameObj g := by
  rcases Option.eq_none_or_eq_some (GetGameByPlayer w username) with hn | ⟨g', hg'⟩
  · unfold forfeitGame
    rw [hn]
  · by_cases hf : (w.gameObj g').IsFinished = false
    · rw [(forfeitGame_of_unfinished hg' hf).1]
      have hne : g ≠ g' := by
        rintro rfl
        rw [hfin] at hf
        cases hf
      rw [setObj_other _ _ hne]
    · rw [forfeitGame_of_finished hg' (by simpa using hf)]

theorem HandleMove_gameObj_finished {w w' : World} {client : Ptr} {column : Int} {rand : Nat}
    (h : HandleMove w client column rand = some w') {g : Ptr}
    (hfin : (w.gameObj g).IsFinished = true) : w'.gameObj g = w.gameObj g := by
  by_cases hlook : GetGameByPlayer w (w.clientObj client).Username = some g
  · rw [HandleMove_of_rejected (Rejected.alreadyFinished g hlook hfin) rand] at h
    injection h with h
    rw [← h, sendError_gameObj]
  · exact HandleMove_frame h g hlook


/-! ## Hub: the move of the automated opponent never fails -/

theorem validColumns_of_undecided {b : Board} (h : CheckWinner b = (Empty, false)) :
    GetValidColumns b ≠ [] := by
  rcases CheckWinner_cases b with ⟨p, hp, hcw⟩ | ⟨_, hcw⟩
  · rw [h] at hcw
    exact absurd (congrArg Prod.fst hcw).symm hp.1
  · rw [h] at hcw
    have hfull : topRowFull b = false := (congrArg Prod.snd hcw).symm
    have hnf : ¬ TopRowFilled b := by
      intro hf
      rw [(topRowFull_eq_true_iff b).2 hf] at hfull
      cases hfull
    intro hnil
    apply hnf
    intro c hc he
    exact GetValidColumns_ne_nil hc he hnil

theorem handleBotMove_of_undecided (w : World) (g : Ptr) (rand : Nat)
    (h : CheckWinner (w.gameObj g).Board = (Empty, false)) :
    ∃ w', handleBotMove w g rand = some w' := by
  obtain ⟨c, hsel, hc⟩ := SelectBotMove_valid (w.gameObj g).Board Player2 rand
    (validColumns_of_undecided h)
  obtain ⟨b2, m2, hm⟩ := MakeMove_ok_of_valid Player2 hc
  rw [handleBotMove_eq hsel hm]
  split
  · exact ⟨_, rfl⟩
  · exact ⟨_, rfl⟩

theorem HandleMove_total (w : World) (client : Ptr) (column : Int) (rand : Nat) :
    ∃ w', HandleMove w client column rand = some w' := by
  rcases HandleMove_cases w client column with ⟨e, hrej⟩ | ⟨g, b1, m, hg, hfin, hturn, hm⟩
  · exact ⟨_, HandleMove_of_rejected hrej rand⟩
  · rw [HandleMove_accepted rand hg hfin hturn hm]
    split
    · exact ⟨_, rfl⟩
    · rename_i hcond
      split
      · apply handleBotMove_of_undecided
        rw [movedWorld_gameObj, setObj_same]
        have h1 : (CheckWinner b1).1 = Empty := by
          by_contra hne
          exact hcond (Or.inl hne)
        have h2 : (CheckWinner b1).2 = false := by
          cases hb : (CheckWinner b1).2
          · rfl
          · exact absurd (Or.inr hb) hcond
        exact Prod.ext h1 h2
      · exact ⟨_, rfl⟩

/-- C29: whenever `handleBotMove` runs, that is, in a `HandleMove` call that accepted the
move of side 1 in a game against the automated opponent and on whose board `b1`
`CheckWinner` reported neither a winner nor a draw: `b1` has a valid column,
`SelectBotMove` returns a column of `GetValidColumns b1` (no index out of range, no
`rand.Intn(0)`), the `MakeMove` that follows succeeds, so the move that is broadcast is
not `nil`, and `handleBotMove`, hence `HandleMove`, returns without a run-time error. -/
theorem C29_bot_move_never_fails (w : World) (client : Ptr) (column : Int) (rand : Nat)
    (g : Ptr) (b1 : Board) (m : Move)
    (hg : GetGameByPlayer w (w.clientObj client).Username = some g)
    (hfin : (w.gameObj g).IsFinished = false)
    (hturn : (w.gameObj g).CurrentTurn =
      playerNumberOf (w.gameObj g) (w.clientObj client).Username)
    (hm : MakeMove (w.gameObj g).Board column
      (playerNumberOf (w.gameObj g) (w.clientObj client).Username) = (b1, .ok m))
    (hundecided : CheckWinner b1 = (Empty, false))
    (hbot : BotReplies (w.gameObj g)
      (playerNumberOf (w.gameObj g) (w.clientObj client).Username)) :
    HandleMove w client column rand =
      handleBotMove
        (movedWorld w g b1 (playerNumberOf (w.gameObj g) (w.clientObj client).Username) m)
        g rand ∧
    ((movedWorld w g b1
      (playerNumberOf (w.gameObj g) (w.clientObj client).Username) m).gameObj g).Board = b1 ∧
    GetValidColumns b1 ≠ [] ∧
    (∃ c b2 m2, SelectBotMove b1 Player2 rand = some c ∧ c ∈ GetValidColumns b1 ∧
      MakeMove b1 c Player2 = (b2, .ok m2)) ∧
    (∃ w', HandleMove w client column rand = some w') := by
  have hcall := HandleMove_accepted rand hg hfin hturn hm
  have hcond : ¬ ((CheckWinner b1).1 ≠ Empty ∨ (CheckWinner b1).2 = true) := by
    rw [hundecided]
    rintro (h | h)
    · exact h rfl
    · cases h
  rw [if_neg hcond, if_pos (show _ ∧ _ from hbot)] at hcall
  have hboard : ((movedWorld w g b1
      (playerNumberOf (w.gameObj g) (w.clientObj client).Username) m).gameObj g).Board = b1 := by
    rw [movedWorld_gameObj, setObj_same]
  have hvalid := validColumns_of_undecided hundecided
  obtain ⟨c, hsel, hc⟩ := SelectBotMove_valid b1 Player2 rand hvalid
  obtain ⟨b2, m2, hm2⟩ := MakeMove_ok_of_valid Player2 hc
  exact ⟨hcall, hboard, hvalid, ⟨c, b2, m2, hsel, hc, hm2⟩, HandleMove_total w client column rand⟩

set_option maxRecDepth 100000 in
theorem C29_bot_move_never_fails_witness :
    GetValidColumns (MakeMove (botScenarioStart.gameObj 0).Board 3 Player1).1 ≠ [] ∧
    ∃ w', HandleMove botScenarioStart 0 3 0 = some w' := by
  have hm : MakeMove (botScenarioStart.gameObj 0).Board 3
      (playerNumberOf (botScenarioStart.gameObj 0) (botScenarioStart.clientObj 0).Username) =
      ((MakeMove (botScenarioStart.gameObj 0).Board 3 Player1).1,
        .ok { Column := 3, Row := 5, Player := Player1 }) := by
    apply Prod.ext
    · rfl
    · decide
  have h := C29_bot_move_never_fails botScenarioStart 0 3 0 0 _ _
    (by decide) (by decide) (by decide) hm (by decide) ⟨by decide, by decide⟩
  exact ⟨h.2.2.1, h.2.2.2.2⟩

/-! ## Only the side that moved last has four in a row -/

theorem MakeMove_ok_player {b b1 : Board} {c : Int} {p : Player} {m : Move}
    (hm : MakeMove b c p = (b1, .ok m)) : m.Player = p := by
  rcases MakeMove_spec b c p with ⟨_, heq⟩ | ⟨_, _, heq⟩ | ⟨_, r, _, _, _, heq⟩
  · rw [heq] at hm; cases hm
  · rw [heq] at hm; cases hm
  · rw [heq] at hm
    cases hm
    rfl

theorem plays_snoc_of_eq {ms : List Move} {b b1 : Board} {c : Int} {p : Player} {m : Move}
    (h : Plays ms b) (hm : MakeMove b c p = (b1, .ok m)) : Plays (ms ++ [m]) b1 := by
  have h1 : (MakeMove b c p).1 = b1 := by rw [hm]
  have h2 : (MakeMove b c p).2 = .ok m := by rw [hm]
  rw [← h1]
  exact Plays.snoc c p m h h2

theorem winnerMovedLast_after_move {ms : List Move} {b b1 : Board} {c : Int} {p : Player}
    {m : Move} (hno : ¬ AnyFourInRow b) (hinv : WinnerMovedLast ms b)
    (hm : MakeMove b c p = (b1, .ok m)) : WinnerMovedLast (ms ++ [m]) b1 := by
  refine ⟨plays_snoc_of_eq hinv.1 hm, fun q hq => ⟨m, by simp, ?_⟩⟩
  rw [MakeMove_ok_player hm]
  exact (FourInRow_after_move hno hm hq).symm

theorem movesOfCall_of_not_accepted {w : World} {g client : Ptr} {column : Int} (rand : Nat)
    (h : ¬ ∃ b1 m, GetGameByPlayer w (w.clientObj client).Username = some g ∧
      (w.gameObj g).IsFinished = false ∧
      (w.gameObj g).CurrentTurn = playerNumberOf (w.gameObj g) (w.clientObj client).Username ∧
      MakeMove (w.gameObj g).Board column
        (playerNumberOf (w.gameObj g) (w.clientObj client).Username) = (b1, .ok m)) :
    movesOfCall w g client column rand = [] := by
  unfold movesOfCall
  simp only []
  split
  · rename_i hc
    split
    · rfl
    · rename_i move hmove
      exact absurd ⟨_, move, hc.1, hc.2.1, hc.2.2, Prod.ext rfl hmove⟩ h
  · rfl

theorem movesOfCall_of_accepted {w : World} {g client : Ptr} {column : Int} (rand : Nat)
    {b1 : Board} {m : Move}
    (hg : GetGameByPlayer w (w.clientObj client).Username = some g)
    (hfin : (w.gameObj g).IsFinished = false)
    (hturn : (w.gameObj g).CurrentTurn =
      playerNumberOf (w.gameObj g) (w.clientObj client).Username)
    (hm : MakeMove (w.gameObj g).Board column
      (playerNumberOf (w.gameObj g) (w.clientObj client).Username) = (b1, .ok m)) :
    movesOfCall w g client column rand =
      if (CheckWinner b1).1 ≠ Empty ∨ (CheckWinner b1).2 = true then [m]
      else if (w.gameObj g).Player2 = BotUsername ∧
          playerNumberOf (w.gameObj g) (w.clientObj client).Username = Player1 then
        match SelectBotMove b1 Player2 rand with
        | none => [m]
        | some botColumn =>
          match (MakeMove b1 botColumn Player2).2 with
          | .error _ => [m]
          | .ok botMove => [m, botMove]
      else [m] := by
  unfold movesOfCall
  simp only []
  rw [if_pos ⟨hg, hfin, hturn⟩]
  simp only [hm]
  have hiff : ((if playerNumberOf (w.gameObj g) (w.clientObj client).Username = Player1
      then Player2 else Player1) = Player2) ↔
      playerNumberOf (w.gameObj g) (w.clientObj client).Username = Player1 := by
    split_ifs with hp
    · exact ⟨fun _ => hp, fun _ => rfl⟩
    · exact ⟨fun hc => absurd hc (by decide), fun hc => absurd hc hp⟩
  simp only [hiff]

theorem HandleMove_keeps_winnerMovedLast {w w' : World} {client : Ptr} {column : Int}
    {rand : Nat} (g : Ptr) {ms : List Move} (h : HandleMove w client column rand = some w')
    (hopen : UnfinishedGameOpen (w.gameObj g))
    (hinv : WinnerMovedLast ms (w.gameObj g).Board) :
    WinnerMovedLast (ms ++ movesOfCall w g client column rand) (w'.gameObj g).Board := by
  by_cases hacc : ∃ b1 m, GetGameByPlayer w (w.clientObj client).Username = some g ∧
      (w.gameObj g).IsFinished = false ∧
      (w.gameObj g).CurrentTurn = playerNumberOf (w.gameObj g) (w.clientObj client).Username ∧
      MakeMove (w.gameObj g).Board column
        (playerNumberOf (w.gameObj g) (w.clientObj client).Username) = (b1, .ok m)
  · obtain ⟨b1, m, hg, hfin, hturn, hm⟩ := hacc
    obtain ⟨hno, _⟩ := hopen hfin
    obtain ⟨w'', hw'', _, _, _, _, hcases⟩ :=
      HandleMove_accepted_outcome rand hg hfin hturn hm hno
    have hww : w'' = w' := by
      rw [hw''] at h
      exact Option.some.inj h
    subst hww
    rw [movesOfCall_of_accepted rand hg hfin hturn hm]
    have h1 := winnerMovedLast_after_move hno hinv hm
    rcases hcases with ⟨hl, hb, _⟩ | ⟨hno1, hfull, hb, _⟩ | ⟨hno1, hnf, hnb, hb, _⟩ |
        ⟨hno1, hnf, hbot, c, b2, m2, hsel, hm2, hb, _⟩
    · have hany : AnyFourInRow b1 := ⟨_, hl⟩
      rw [if_pos (Or.inl ((anyFourInRow_iff_checkWinner b1).1 hany)), hb]
      exact h1
    · rw [CheckWinner_of_no_line hno1, if_pos (Or.inr ((topRowFull_eq_true_iff b1).2 hfull)), hb]
      exact h1
    · have hcond : ¬ ((CheckWinner b1).1 ≠ Empty ∨ (CheckWinner b1).2 = true) := by
        rw [CheckWinner_of_no_line hno1]
        rintro (hc | hc)
        · exact hc rfl
        · exact hnf ((topRowFull_eq_true_iff b1).1 hc)
      rw [if_neg hcond, if_neg (show ¬ (_ ∧ _) from hnb), hb]
      exact h1
    · have hcond : ¬ ((CheckWinner b1).1 ≠ Empty ∨ (CheckWinner b1).2 = true) := by
        rw [CheckWinner_of_no_line hno1]
        rintro (hc | hc)
        · exact hc rfl
        · exact hnf ((topRowFull_eq_true_iff b1).1 hc)
      rw [if_neg hcond, if_pos (show _ ∧ _ from hbot)]
      simp only [hsel, hm2]
      rw [hb]
      have h2 := winnerMovedLast_after_move hno1 h1 hm2
      rw [List.append_assoc] at h2
      exact h2
  · rw [movesOfCall_of_not_accepted rand hacc, List.append_nil]
    have hsame : w'.gameObj g = w.gameObj g := by
      by_cases hlook : GetGameByPlayer w (w.clientObj client).Username = some g
      · rcases HandleMove_cases w client column with ⟨e, hrej⟩ |
            ⟨g', b1, m, hg, hfin, hturn, hm⟩
        · rw [HandleMove_of_rejected hrej rand] at h
          injection h with h
          rw [← h, sendError_gameObj]
        · have hgg : g' = g := by
            rw [hg] at hlook
            exact Option.some.inj hlook
          subst hgg
          exact absurd ⟨b1, m, hg, hfin, hturn, hm⟩ hacc
      · exact HandleMove_frame h g hlook
    rw [hsame]
    exact hinv

theorem playedByHandleMove_of_moves {g : Ptr} {w : World} {ms : List Move}
    (h : PlayedMoves g w ms) : PlayedByHandleMove g w := by
  induction h with
  | start hfresh => exact PlayedByHandleMove.start hfresh
  | call client column rand _ hstep ih => exact PlayedByHandleMove.move client column rand ih hstep

theorem playedMoves_of_handleMove {g : Ptr} {w : World} (h : PlayedByHandleMove g w) :
    ∃ ms, PlayedMoves g w ms := by
  induction h with
  | start hfresh => exact ⟨[], PlayedMoves.start hfresh⟩
  | move client column rand _ hstep ih =>
    obtain ⟨ms, hms⟩ := ih
    exact ⟨_, PlayedMoves.call client column rand hms hstep⟩

theorem winnerMovedLast_of_played {g : Ptr} {w : World} {ms : List Move}
    (h : PlayedMoves g w ms) : WinnerMovedLast ms (w.gameObj g).Board := by
  induction h with
  | start hfresh =>
    refine ⟨?_, fun q hq => ?_⟩
    · rw [hfresh.1]; exact Plays.nil
    · rw [hfresh.1] at hq
      exact absurd ⟨q, hq⟩ not_AnyFourInRow_CreateBoard
  | call client column rand hprev hstep ih =>
    exact HandleMove_keeps_winnerMovedLast g hstep
      (unfinishedGameOpen_of_played (playedByHandleMove_of_moves hprev)) ih

/-- One line at most when calls do not overlap: let the game at `g` be played from a fresh
game by `HandleMove` calls run one after the other, `ms` being
the history of the moves made in it (accepted moves and replies of the automated opponent,
oldest first). Then at most one side has four in a row on the board; the board is the empty
board after the moves `ms`, and a side with four in a row is the side of the last move of
`ms`; so `CheckWinner` reports that side whatever line its scans meet first: every one of
its four scans that finds a line finds the winner `CheckWinner` reports. -/
theorem serialized_only_last_mover_has_four (g : Ptr) (w : World) (ms : List Move)
    (h : PlayedMoves g w ms) :
    (∀ p q, FourInRow (w.gameObj g).Board p → FourInRow (w.gameObj g).Board q → p = q) ∧
    Plays ms (w.gameObj g).Board ∧
    (∀ q, FourInRow (w.gameObj g).Board q → ∃ m, ms.getLast? = some m ∧ m.Player = q) ∧
    (∀ q, FourInRow (w.gameObj g).Board q → CheckWinner (w.gameObj g).Board = (q, false)) ∧
    (∀ q, (scanHorizontal (w.gameObj g).Board = some q ∨
        scanVertical (w.gameObj g).Board = some q ∨
        scanDiagDown (w.gameObj g).Board = some q ∨
        scanDiagUp (w.gameObj g).Board = some q) →
      CheckWinner (w.gameObj g).Board = (q, false)) := by
  obtain ⟨hplays, hlast⟩ := winnerMovedLast_of_played h
  have huniq : ∀ p q, FourInRow (w.gameObj g).Board p → FourInRow (w.gameObj g).Board q →
      p = q := by
    intro p q hp hq
    obtain ⟨m1, h1, e1⟩ := hlast p hp
    obtain ⟨m2, h2, e2⟩ := hlast q hq
    rw [h1] at h2
    cases h2
    rw [← e1, ← e2]
  have hcw : ∀ q, FourInRow (w.gameObj g).Board q →
      CheckWinner (w.gameObj g).Board = (q, false) :=
    fun q hq => (CheckWinner_of_line (fun q' hq' => huniq q' q hq' hq) ⟨q, hq⟩).1
  refine ⟨huniq, hplays, hlast, hcw, ?_⟩
  rintro q (hs | hs | hs | hs)
  · obtain ⟨hne, hl⟩ := scanHorizontal_eq_some hs
    exact hcw q ⟨hne, Or.inl hl⟩
  · obtain ⟨hne, hl⟩ := scanVertical_eq_some hs
    exact hcw q ⟨hne, Or.inr (Or.inl hl)⟩
  · obtain ⟨hne, hl⟩ := scanDiagDown_eq_some hs
    exact hcw q ⟨hne, Or.inr (Or.inr (Or.inl hl))⟩
  · obtain ⟨hne, hl⟩ := scanDiagUp_eq_some hs
    exact hcw q ⟨hne, Or.inr (Or.inr (Or.inr hl))⟩

theorem playedMoves_of_playMoves {g : Ptr} (rand : Nat) (l : List (Ptr × Int)) :
    ∀ {w w' : World} {ms : List Move}, PlayedMoves g w ms → playMoves w rand l = some w' →
      PlayedMoves g w' (ms ++ playHistory g w rand l) := by
  induction l with
  | nil =>
    intro w w' ms h hp
    simp only [RowFlow.playMoves] at hp
    injection hp with hp
    rw [← hp, playHistory, List.append_nil]
    exact h
  | cons x xs ih =>
    intro w w' ms h hp
    obtain ⟨client, column⟩ := x
    simp only [RowFlow.playMoves] at hp
    cases hstep : HandleMove w client column rand with
    | none => rw [hstep] at hp; cases hp
    | some w1 =>
      rw [hstep] at hp
      have := ih (PlayedMoves.call client column rand h hstep) hp
      simp only [playHistory, hstep]
      rw [← List.append_assoc]
      exact this

set_option maxRecDepth 100000 in
theorem scenarioFinished_playedMoves :
    PlayedMoves 0 scenarioFinished ([] ++ playHistory 0 scenarioStart 0 scenarioMoves) :=
  playedMoves_of_playMoves 0 scenarioMoves (PlayedMoves.start ⟨rfl, rfl, rfl, rfl⟩)
    (playMoves_eq_some_getD scenarioStart scenarioStart 0 _ (by decide))

set_option maxRecDepth 100000 in
theorem serialized_only_last_mover_scenario :
    [] ++ playHistory 0 scenarioStart 0 scenarioMoves =
      [⟨0, 5, Player1⟩, ⟨6, 5, Player2⟩, ⟨0, 4, Player1⟩, ⟨6, 4, Player2⟩, ⟨0, 3, Player1⟩,
        ⟨6, 3, Player2⟩, ⟨0, 2, Player1⟩] ∧
    FourInRow (scenarioFinished.gameObj 0).Board Player1 ∧
    ¬ FourInRow (scenarioFinished.gameObj 0).Board Player2 ∧
    CheckWinner (scenarioFinished.gameObj 0).Board = (Player1, false) := by
  have h := serialized_only_last_mover_has_four 0 scenarioFinished _ scenarioFinished_playedMoves
  have h1 : FourInRow (scenarioFinished.gameObj 0).Board Player1 := by decide
  exact ⟨by decide, h1, fun h2 => absurd (h.1 _ _ h1 h2) (by decide), h.2.2.2.1 _ h1⟩

/-! ## The strategic move of the automated opponent -/

theorem walk_step (board : Board) (row col dRow dCol : Int) (player : Player) (dir : Int)
    (fuel : Nat) (i : Int) (count empty : Nat) :
    evaluateLine.walk board row col dRow dCol player dir (fuel + 1) i (count, empty) =
      match cellAt board row col dRow dCol dir i with
      | none => (count, empty)
      | some cell =>
        if cell = player then
          evaluateLine.walk board row col dRow dCol player dir fuel (i + 1) (count + 1, empty)
        else if cell = Empty then (count, empty + 1)
        else (count, empty) := by
  by_cases hout : row + dRow * i * dir < 0 ∨ row + dRow * i * dir ≥ (Rows : Int) ∨
      col + dCol * i * dir < 0 ∨ col + dCol * i * dir ≥ (Cols : Int)
  · simp only [evaluateLine.walk, cellAt, if_pos hout]
  · simp only [evaluateLine.walk, cellAt, if_neg hout]

theorem walk_three (board : Board) (row col dRow dCol : Int) (player : Player) (dir : Int)
    (count empty : Nat) :
    evaluateLine.walk board row col dRow dCol player dir 3 1 (count, empty) =
      (count + ownRun board row col dRow dCol player dir,
        empty + if stoppedOnEmpty board row col dRow dCol player dir then 1 else 0) := by
  have two : (1 : Int) + 1 = 2 := rfl
  have three : (2 : Int) + 1 = 3 := rfl
  rw [walk_step]
  rcases Option.eq_none_or_eq_some (cellAt board row col dRow dCol dir 1) with h1 | ⟨c1, h1⟩
  · simp [ownRun, stoppedOnEmpty, List.takeWhile, h1]
  by_cases e1 : c1 = player
  swap
  · by_cases z1 : c1 = Empty
    · subst z1
      simp [ownRun, stoppedOnEmpty, List.takeWhile, h1, e1]
    · simp [ownRun, stoppedOnEmpty, List.takeWhile, h1, e1, z1]
  subst e1
  rw [h1]
  simp only [if_true]
  rw [two, walk_step]
  rcases Option.eq_none_or_eq_some (cellAt board row col dRow dCol dir 2) with h2 | ⟨c2, h2⟩
  · simp [ownRun, stoppedOnEmpty, List.takeWhile, h1, h2, two]
  by_cases e2 : c2 = c1
  swap
  · by_cases z2 : c2 = Empty
    · subst z2
      simp [ownRun, stoppedOnEmpty, List.takeWhile, h1, h2, e2, two]
    · simp [ownRun, stoppedOnEmpty, List.takeWhile, h1, h2, e2, z2, two]
  subst e2
  rw [h2]
  simp only [if_true]
  rw [three, walk_step]
  rcases Option.eq_none_or_eq_some (cellAt board row col dRow dCol dir 3) with h3 | ⟨c3, h3⟩
  · simp [ownRun, stoppedOnEmpty, List.takeWhile, h1, h2, h3, two, three]
  by_cases e3 : c3 = c2
  swap
  · by_cases z3 : c3 = Empty
    · subst z3
      simp [ownRun, stoppedOnEmpty, List.takeWhile, h1, h2, h3, e3, two, three]
    · simp [ownRun, stoppedOnEmpty, List.takeWhile, h1, h2, h3, e3, z3, two, three]
  subst e3
  simp [ownRun, stoppedOnEmpty, List.takeWhile, h1, h2, h3, evaluateLine.walk]

theorem evaluateLine_eq_lineScore (board : Board) (row col dRow dCol : Int) (player : Player) :
    evaluateLine board row col dRow dCol player = lineScore board row col dRow dCol player := by
  unfold evaluateLine lineScore
  rw [walk_three]
  simp only [Nat.zero_add]
  rw [walk_three]

theorem evaluateColumn_eq_columnScore {b : Board} {c : Int} (p : Player)
    (hc : c ∈ GetValidColumns b) : evaluateColumn b c p = some (columnScore b c p) := by
  obtain ⟨b1, m, hm⟩ := MakeMove_ok_of_valid p hc
  simp only [evaluateColumn, columnScore, hm, evaluateLine_eq_lineScore]

/-- The loop of `findStrategicMove` after a first column: on an ascending list of columns
with scores `v`, it keeps the maximal score seen and the smallest column that has it. -/
theorem strategicFold_spec (f : Int → Option Int) (v : Int → Int) :
    ∀ (l pre : List Int) (col : Int),
      (∀ x ∈ pre ++ l, f x = some (v x)) → col ∈ pre →
      (∀ x ∈ pre, ∀ y ∈ l, x < y) → l.Pairwise (· < ·) →
      (∀ x ∈ pre, v x ≤ v col ∧ (x < col → v x < v col)) →
      ∃ c, (l.foldl (fun (best : Option Int × Int) x =>
          if scoreGt (f x) best.1 then (f x, x) else best) (some (v col), col)) =
          (some (v c), c) ∧ c ∈ pre ++ l ∧
        ∀ x ∈ pre ++ l, v x ≤ v c ∧ (x < c → v x < v c) := by
  intro l
  induction l with
  | nil =>
    intro pre col _ hcol _ _ hinv
    refine ⟨col, rfl, by simpa using hcol, ?_⟩
    simpa using hinv
  | cons y ys ih =>
    intro pre col hf hcol hlt hsorted hinv
    have hy : f y = some (v y) := hf y (by simp)
    have hcy : col < y := hlt col hcol y (by simp)
    rw [List.pairwise_cons] at hsorted
    have hpre' : ∀ x ∈ pre ++ [y], ∀ z ∈ ys, x < z := by
      intro x hx z hz
      rcases List.mem_append.1 hx with hx | hx
      · exact hlt x hx z (by simp [hz])
      · have : x = y := by simpa using hx
        subst this
        exact hsorted.1 z hz
    have hf' : ∀ x ∈ (pre ++ [y]) ++ ys, f x = some (v x) := by
      intro x hx
      exact hf x (by simpa using hx)
    simp only [List.foldl_cons, hy, scoreGt]
    by_cases hgt : v y > v col
    · simp only [hgt, decide_True, if_true]
      obtain ⟨c, hc, hmem, hall⟩ := ih (pre ++ [y]) y hf' (by simp) hpre' hsorted.2 (by
        intro x hx
        rcases List.mem_append.1 hx with hx | hx
        · have := hinv x hx
          exact ⟨by omega, fun _ => by omega⟩
        · have : x = y := by simpa using hx
          subst this
          exact ⟨le_refl _, fun h => absurd h (lt_irrefl _)⟩)
      exact ⟨c, hc, by simpa using hmem, by simpa using hall⟩
    · simp only [hgt, decide_False, if_false]
      obtain ⟨c, hc, hmem, hall⟩ := ih (pre ++ [y]) col hf' (by simp [hcol]) hpre' hsorted.2 (by
        intro x hx
        rcases List.mem_append.1 hx with hx | hx
        · exact hinv x hx
        · have : x = y := by simpa using hx
          subst this
          exact ⟨by omega, fun h => by omega⟩)
      exact ⟨c, hc, by simpa using hmem, by simpa using hall⟩

theorem findWinningMove_none_of_no_line {b : Board} {s : Player} (hs : s ≠ Empty)
    (hnone : ∀ c, c ∈ GetValidColumns b → ¬ FourInRow (MakeMove b c s).1 s) :
    findWinningMove b s = -1 := by
  unfold findWinningMove
  split
  · rename_i col h
    have hx := List.mem_of_find?_eq_some h
    have hpx := List.find?_some h
    exfalso
    apply hnone col hx
    obtain ⟨b1, m, hm⟩ := MakeMove_ok_of_valid s hx
    simp only [hm, decide_eq_true_eq] at hpx
    rw [hm]
    rcases CheckWinner_cases b1 with ⟨p, hp, hcw⟩ | ⟨_, hcw⟩
    · rw [hcw] at hpx
      have : p = s := hpx
      subst this
      exact hp
    · rw [hcw] at hpx
      exact absurd hpx.symm hs
  · rfl

theorem findStrategicMove_spec (b : Board) (s : Player) (hvalid : GetValidColumns b ≠ []) :
    findStrategicMove b s ∈ GetValidColumns b ∧
    ∀ x ∈ GetValidColumns b,
      columnScore b x s ≤ columnScore b (findStrategicMove b s) s ∧
      (x < findStrategicMove b s → columnScore b x s < columnScore b (findStrategicMove b s) s) := by
  have hsorted := GetValidColumns_pairwise b
  have hf : ∀ x ∈ GetValidColumns b, evaluateColumn b x s = some (columnScore b x s) :=
    fun x hx => evaluateColumn_eq_columnScore s hx
  rcases hl : GetValidColumns b with _ | ⟨y, ys⟩
  · exact absurd hl hvalid
  · rw [hl] at hsorted hf
    rw [List.pairwise_cons] at hsorted
    obtain ⟨c, hc, hmem, hall⟩ := strategicFold_spec (fun x => evaluateColumn b x s)
      (fun x => columnScore b x s) ys [y] y (by simpa using hf) (by simp)
      (by
        intro x hx z hz
        have : x = y := by simpa using hx
        subst this
        exact hsorted.1 z hz)
      hsorted.2
      (by
        intro x hx
        have : x = y := by simpa using hx
        subst this
        exact ⟨le_refl _, fun h => absurd h (lt_irrefl _)⟩)
    have hfirst : (if scoreGt (evaluateColumn b y s) (none, (-1 : Int)).1 = true
        then (evaluateColumn b y s, y) else (none, -1)) = (some (columnScore b y s), y) := by
      rw [hf y (by simp)]
      rfl
    have hfold : (GetValidColumns b).foldl (fun (best : Option Int × Int) x =>
        if scoreGt (evaluateColumn b x s) best.1 then (evaluateColumn b x s, x) else best)
        (none, -1) = (some (columnScore b c s), c) := by
      rw [hl, List.foldl_cons, hfirst]
      exact hc
    have hres : findStrategicMove b s = c := congrArg Prod.snd hfold
    rw [hres]
    exact ⟨by simpa using hmem, by simpa using hall⟩

theorem SelectBotMove_eq_strategic {b : Board} {s : Player} (rand : Nat)
    (hs : s = Player1 ∨ s = Player2) (hvalid : GetValidColumns b ≠ [])
    (hnowin : ∀ c, c ∈ GetValidColumns b → ¬ FourInRow (MakeMove b c s).1 s)
    (hnoblock : ∀ c, c ∈ GetValidColumns b →
      ¬ FourInRow (MakeMove b c (if s = Player1 then Player2 else Player1)).1
        (if s = Player1 then Player2 else Player1)) :
    SelectBotMove b s rand = some (findStrategicMove b s) := by
  have hse : s ≠ Empty := by
    rcases hs with h | h <;> rw [h] <;> decide
  have hoe : (if s = Player1 then Player2 else Player1) ≠ Empty := by
    split <;> decide
  unfold SelectBotMove
  simp only []
  rw [findWinningMove_none_of_no_line hse hnowin, if_neg (by simp),
    findWinningMove_none_of_no_line hoe hnoblock, if_neg (by simp),
    if_pos (valid_column_ne_neg_one (findStrategicMove_spec b s hvalid).1)]

set_option maxRecDepth 100000 in
theorem SelectBotMove_CreateBoard (s : Player) (hs : s = Player1 ∨ s = Player2) (rand : Nat) :
    SelectBotMove CreateBoard s rand = some 0 := by
  rcases hs with h | h
  · subst h
    rw [SelectBotMove_eq_strategic rand (Or.inl rfl) (by decide) (by decide) (by decide)]
    decide
  · subst h
    rw [SelectBotMove_eq_strategic rand (Or.inr rfl) (by decide) (by decide) (by decide)]
    decide

/-- C26: on every board with a valid column on which neither the side `s` (side 1 or
side 2) nor its opponent gets four in a row by dropping a piece into a valid column,
`SelectBotMove` returns, whatever the random draw, one and the same column `c`: a valid
column whose total score (`columnScore`: the sum over the four line directions through
the landing cell of `count*10`, `count*5` or `count`, as the specification words it) is
maximal among the valid columns, and the smallest such column; it is the result of
`findStrategicMove`, which is not `-1` and whose scores `evaluateColumn` are these total
scores, so the random fallback is not reached. On the empty board the column is 0. -/
theorem C26_selectBotMove_strategic (b : Board) (s : Player)
    (hs : s = Player1 ∨ s = Player2)
    (hvalid : GetValidColumns b ≠ [])
    (hnowin : ∀ c, c ∈ GetValidColumns b → ¬ FourInRow (MakeMove b c s).1 s)
    (hnoblock : ∀ c, c ∈ GetValidColumns b →
      ¬ FourInRow (MakeMove b c (if s = Player1 then Player2 else Player1)).1
        (if s = Player1 then Player2 else Player1)) :
    ∃ c, (∀ rand, SelectBotMove b s rand = some c) ∧
      c ∈ GetValidColumns b ∧
      (∀ x ∈ GetValidColumns b, columnScore b x s ≤ columnScore b c s) ∧
      (∀ x ∈ GetValidColumns b, x < c → columnScore b x s < columnScore b c s) ∧
      findStrategicMove b s = c ∧ c ≠ -1 ∧
      (∀ x ∈ GetValidColumns b, evaluateColumn b x s = some (columnScore b x s)) ∧
      (∀ rand, SelectBotMove CreateBoard s rand = some 0) := by
  obtain ⟨hmem, hall⟩ := findStrategicMove_spec b s hvalid
  refine ⟨findStrategicMove b s, fun rand => ?_, hmem, fun x hx => (hall x hx).1,
    fun x hx => (hall x hx).2, rfl, valid_column_ne_neg_one hmem,
    fun x hx => evaluateColumn_eq_columnScore s hx,
    fun rand => ?_⟩
  · exact SelectBotMove_eq_strategic rand hs hvalid hnowin hnoblock
  · exact SelectBotMove_CreateBoard s hs rand

set_option maxRecDepth 100000 in
theorem C26_selectBotMove_strategic_witness :
    (GetValidColumns strategyBoard).map (fun c => columnScore strategyBoard c Player2) =
      [0, 0, 0, 0, 2, 2, 2] ∧
    ∀ rand, SelectBotMove strategyBoard Player2 rand = some 4 := by
  obtain ⟨c, hsel, _, _, _, hres, _⟩ :=
    C26_selectBotMove_strategic strategyBoard Player2 (Or.inr rfl) (by decide) (by decide)
      (by decide)
  have h4 : findStrategicMove strategyBoard Player2 = 4 := by decide
  rw [h4] at hres
  subst hres
  exact ⟨by decide, hsel⟩

/-! ## The participants of a paired game -/

theorem sameNameTrace_reachable : HubReachable sameNameTrace :=
  HubReachable.step
    (HubReachable.step
      (HubReachable.step
        (HubReachable.step
          (HubReachable.step
            (HubReachable.step HubReachable.init (HubStep.serveWS _ "c1"))
            (HubStep.register _ 0))
          (HubStep.serveWS _ "c2"))
        (HubStep.register _ 1))
      (HubStep.join _ 0 "alice" "u1"))
    (HubStep.join _ 1 "alice" "g1")

set_option maxRecDepth 100000 in
/-- C31 (as stated) fails: two connections with the different IDs "c1" and "c2" join with
the same display name "alice" and are paired; the game "g1" the matchmaker creates has
"alice" as both participants, and `HandleMove` computes side 1 for either connection. -/
theorem C31_counterexample_same_display_name :
    HubReachable sameNameTrace ∧
    (sameNameTrace.clientObj 0).ID = "c1" ∧ (sameNameTrace.clientObj 1).ID = "c2" ∧
    GetGame sameNameTrace "g1" = some 0 ∧
    (sameNameTrace.gameObj 0).Player1 = "alice" ∧
    (sameNameTrace.gameObj 0).Player2 = "alice" ∧
    GetGameByPlayer sameNameTrace (sameNameTrace.clientObj 0).Username = some 0 ∧
    GetGameByPlayer sameNameTrace (sameNameTrace.clientObj 1).Username = some 0 ∧
    playerNumberOf (sameNameTrace.gameObj 0) (sameNameTrace.clientObj 0).Username = Player1 ∧
    playerNumberOf (sameNameTrace.gameObj 0) (sameNameTrace.clientObj 1).Username = Player1 :=
  ⟨sameNameTrace_reachable, by decide, by decide, by decide, by decide, by decide, by decide,
    by decide, by decide, by decide⟩

/-- C31 (amended): when `tryMatch(client)` finds a waiting connection `other` and pairs the
two, the game it creates is stored under the drawn game ID, its first participant is the
display name of `client` and its second the display name of `other`, and the two
connections have different connection IDs. The two participants differ exactly when the
two display names differ, and then `HandleMove` tells the sides apart by display name: it
computes side 1 for the first and side 2 for the second participant. -/
theorem C31_paired_game_participants (w : World) (client other : Ptr) (gameID : String)
    (hfind : findOtherPlayer w client = some other) :
    GetGame (tryMatch w client gameID) gameID = some w.nextGame ∧
    ((tryMatch w client gameID).gameObj w.nextGame).Player1 = (w.connObj client).Username ∧
    ((tryMatch w client gameID).gameObj w.nextGame).Player2 = (w.connObj other).Username ∧
    (w.connObj other).ID ≠ (w.connObj client).ID ∧
    (((tryMatch w client gameID).gameObj w.nextGame).Player1 ≠
        ((tryMatch w client gameID).gameObj w.nextGame).Player2 ↔
      (w.connObj client).Username ≠ (w.connObj other).Username) ∧
    ((w.connObj client).Username ≠ (w.connObj other).Username →
      playerNumberOf ((tryMatch w client gameID).gameObj w.nextGame)
        (w.connObj client).Username = Player1 ∧
      playerNumberOf ((tryMatch w client gameID).gameObj w.nextGame)
        (w.connObj other).Username = Player2) := by
  have hid : (w.connObj other).ID ≠ (w.connObj client).ID := by
    have := List.find?_some hfind
    simp only [decide_eq_true_eq] at this
    exact this.1
  have hobj : (tryMatch w client gameID).gameObj w.nextGame =
      (createGame w client other gameID).1.gameObj w.nextGame := by
    unfold tryMatch
    rw [hfind]
  have hgames : (tryMatch w client gameID).matchmaker.games =
      (createGame w client other gameID).1.matchmaker.games := by
    unfold tryMatch
    rw [hfind]
  obtain ⟨h1, h2, _, _⟩ := createGame_gameObj_new w client other gameID
  rw [hobj]
  refine ⟨?_, h1, h2, hid, by rw [h1, h2], fun hne => ?_⟩
  · rw [GetGame, hgames, createGame_games]
    simp [mapSet]
  · unfold playerNumberOf
    rw [h1, h2]
    refine ⟨by rw [if_pos rfl], ?_⟩
    rw [if_neg hne, if_pos rfl]

theorem C31_paired_game_participants_witness :
    findOtherPlayer beforePairingWorld 1 = some 0 ∧
    ((tryMatch beforePairingWorld 1 "g1").gameObj beforePairingWorld.nextGame).Player1 =
      "bob" ∧
    ((tryMatch beforePairingWorld 1 "g1").gameObj beforePairingWorld.nextGame).Player2 =
      "alice" ∧
    playerNumberOf ((tryMatch beforePairingWorld 1 "g1").gameObj beforePairingWorld.nextGame)
      "alice" = Player2 := by
  have h := C31_paired_game_participants beforePairingWorld 1 0 "g1" (by decide)
  exact ⟨by decide, h.2.1.trans (by decide), h.2.2.1.trans (by decide),
    (h.2.2.2.2.2 (by decide)).2⟩

/-! ## The pieces on the board are the moves of the history -/

theorem countOccupied_set (b : Board) {r c : Nat} (p : Player) (hr : r < Rows) (hc : c < Cols)
    (he : b.get r c = Empty) (hp : p ≠ Empty) :
    countOccupied (b.set r c p) = countOccupied b + 1 := by
  have hcell : b ⟨r, hr⟩ ⟨c, hc⟩ = Empty := by rw [← Board.get_of_lt b hr hc]; exact he
  unfold countOccupied
  have hins : Finset.univ.filter (fun rc : Fin Rows × Fin Cols => (b.set r c p) rc.1 rc.2 ≠ Empty) =
      insert (⟨r, hr⟩, ⟨c, hc⟩)
        (Finset.univ.filter (fun rc : Fin Rows × Fin Cols => b rc.1 rc.2 ≠ Empty)) := by
    ext rc
    simp only [Finset.mem_filter, Finset.mem_univ, true_and, Finset.mem_insert, Board.set]
    by_cases hrc : rc.1.val = r ∧ rc.2.val = c
    · rw [if_pos hrc]
      have : rc = (⟨r, hr⟩, ⟨c, hc⟩) := by
        apply Prod.ext <;> apply Fin.ext
        · exact hrc.1
        · exact hrc.2
      exact ⟨fun _ => Or.inl this, fun _ => hp⟩
    · rw [if_neg hrc]
      constructor
      · intro h; exact Or.inr h
      · rintro (h | h)
        · exfalso; apply hrc; rw [h]; exact ⟨rfl, rfl⟩
        · exact h
  rw [hins, Finset.card_insert_of_not_mem]
  simp only [Finset.mem_filter, Finset.mem_univ, true_and]
  exact fun h => h hcell

theorem piecesCounted_after_move {ms : List Move} {b b1 : Board} {c : Int} {p : Player}
    {m : Move} (hinv : PiecesCounted ms b) (hm : MakeMove b c p = (b1, .ok m))
    (hp : p = Player1 ∨ p = Player2) : PiecesCounted (ms ++ [m]) b1 := by
  have hpe : p ≠ Empty := by
    rcases hp with h | h <;> rw [h] <;> decide
  rcases MakeMove_spec b c p with ⟨_, heq⟩ | ⟨_, _, heq⟩ | ⟨hrange, r, hr, he, _, heq⟩
  · rw [heq] at hm; cases hm
  · rw [heq] at hm; cases hm
  · rw [heq] at hm
    have hb : b1 = b.set r c.toNat p := (congrArg Prod.fst hm).symm
    subst hb
    constructor
    · intro i j
      simp only [Board.set]
      split
      · exact Or.inr hp
      · exact hinv.1 i j
    · rw [countOccupied_set b p hr (toNat_lt_Cols hrange.1 hrange.2) he hpe, hinv.2]
      simp

theorem piecesCounted_of_plays {ms : List Move} {b : Board} (h : Plays ms b)
    (hside : ∀ m ∈ ms, m.Player = Player1 ∨ m.Player = Player2) : PiecesCounted ms b := by
  induction h with
  | nil =>
    refine ⟨fun _ _ => Or.inl rfl, ?_⟩
    simp [countOccupied, CreateBoard]
  | @snoc ms b c p m hprev hm ih =>
    have hmm : MakeMove b c p = ((MakeMove b c p).1, .ok m) := Prod.ext rfl hm
    have hp : p = Player1 ∨ p = Player2 := by
      rw [← MakeMove_ok_player hmm]
      exact hside m (by simp)
    exact piecesCounted_after_move (ih (fun x hx => hside x (by simp [hx]))) hmm hp

theorem movesOfCall_sides (w : World) (g client : Ptr) (column : Int) (rand : Nat) :
    ∀ m ∈ movesOfCall w g client column rand, m.Player = Player1 ∨ m.Player = Player2 := by
  by_cases hacc : ∃ b1 m, GetGameByPlayer w (w.clientObj client).Username = some g ∧
      (w.gameObj g).IsFinished = false ∧
      (w.gameObj g).CurrentTurn = playerNumberOf (w.gameObj g) (w.clientObj client).Username ∧
      MakeMove (w.gameObj g).Board column
        (playerNumberOf (w.gameObj g) (w.clientObj client).Username) = (b1, .ok m)
  · obtain ⟨b1, m, hg, hfin, hturn, hm⟩ := hacc
    have hm1 : m.Player = Player1 ∨ m.Player = Player2 := by
      rw [MakeMove_ok_player hm]
      exact playerNumberOf_cases _ _
    rw [movesOfCall_of_accepted rand hg hfin hturn hm]
    intro x hx
    split at hx
    · have : x = m := by simpa using hx
      rw [this]; exact hm1
    · split at hx
      · split at hx
        · have : x = m := by simpa using hx
          rw [this]; exact hm1
        · split at hx
          · have : x = m := by simpa using hx
            rw [this]; exact hm1
          · rename_i botColumn _ _ botMove hbm
            have hx' : x = m ∨ x = botMove := by simpa using hx
            rcases hx' with e | e
            · rw [e]; exact hm1
            · rw [e]
              have : MakeMove b1 botColumn Player2 =
                  ((MakeMove b1 botColumn Player2).1, .ok botMove) := Prod.ext rfl hbm
              exact Or.inr (MakeMove_ok_player this)
      · have : x = m := by simpa using hx
        rw [this]; exact hm1
  · rw [movesOfCall_of_not_accepted rand hacc]
    intro x hx
    cases hx

theorem sides_of_playedMoves {g : Ptr} {w : World} {ms : List Move} (h : PlayedMoves g w ms) :
    ∀ m ∈ ms, m.Player = Player1 ∨ m.Player = Player2 := by
  induction h with
  | start _ => intro m hm; cases hm
  | @call w w' ms client column rand _ _ ih =>
    intro m hm
    rcases List.mem_append.1 hm with h1 | h1
    · exact ih m h1
    · exact movesOfCall_sides w g client column rand m h1

theorem countOccupied_le (b : Board) : countOccupied b ≤ 42 := by
  unfold countOccupied
  refine le_trans (Finset.card_filter_le _ _) ?_
  simp [Rows, Cols]

theorem all_occupied_of_count {b : Board} (h : countOccupied b = 42) :
    ∀ r c, r < Rows → c < Cols → b.get r c ≠ Empty := by
  have hcard : (Finset.univ : Finset (Fin Rows × Fin Cols)).card = 42 := by
    simp [Rows, Cols]
  unfold countOccupied at h
  rw [← hcard, Finset.card_filter_eq_iff] at h
  intro r c hr hc
  rw [Board.get_of_lt b hr hc]
  exact h (⟨r, hr⟩, ⟨c, hc⟩) (Finset.mem_univ _)

theorem countOccupied_eq_countPieces {b : Board}
    (h : ∀ r c, b r c = Empty ∨ b r c = Player1 ∨ b r c = Player2) :
    countOccupied b = countPieces b Player1 + countPieces b Player2 := by
  unfold countOccupied countPieces
  rw [← Finset.card_union_of_disjoint]
  · congr 1
    ext rc
    simp only [Finset.mem_filter, Finset.mem_univ, true_and, Finset.mem_union]
    constructor
    · intro hne
      rcases h rc.1 rc.2 with he | he | he
      · exact absurd he hne
      · exact Or.inl he
      · exact Or.inr he
    · rintro (he | he) <;> rw [he] <;> decide
  · rw [Finset.disjoint_filter]
    intro rc _ h1 h2
    rw [h1] at h2
    revert h2
    decide

/-- One call of `HandleMove` keeps an unfinished game with an empty cell in its top row. -/
theorem HandleMove_keeps_room {w w' : World} {client : Ptr} {column : Int} {rand : Nat}
    (g : Ptr) (h : HandleMove w client column rand = some w')
    (hopen : UnfinishedGameOpen (w.gameObj g))
    (hinv : UnfinishedGameHasRoom (w.gameObj g)) : UnfinishedGameHasRoom (w'.gameObj g) := by
  by_cases hlook : GetGameByPlayer w (w.clientObj client).Username = some g
  · rcases HandleMove_cases w client column with ⟨e, hrej⟩ | ⟨g', b1, m, hg, hfin, hturn, hm⟩
    · rw [HandleMove_of_rejected hrej rand] at h
      injection h with h
      rw [← h, sendError_gameObj]; exact hinv
    · have hgg : g' = g := by
        rw [hg] at hlook; injection hlook
      subst hgg
      obtain ⟨hno, _⟩ := hopen hfin
      obtain ⟨w'', hw'', _, _, _, _, hcases⟩ :=
        HandleMove_accepted_outcome rand hg hfin hturn hm hno
      rw [hw''] at h
      injection h with h
      subst h
      intro hfin'
      rcases hcases with ⟨_, _, hf, _⟩ | ⟨_, _, _, hf, _⟩ | ⟨_, hnf, _, hb, _⟩ |
          ⟨_, _, _, c, b2, m2, _, _, hb, hc2⟩
      · rw [hf] at hfin'; cases hfin'
      · rw [hf] at hfin'; cases hfin'
      · rw [hb]; exact hnf
      · rcases hc2 with ⟨_, hf, _⟩ | ⟨_, _, hf, _⟩ | ⟨_, hnf2, _⟩
        · rw [hf] at hfin'; cases hfin'
        · rw [hf] at hfin'; cases hfin'
        · rw [hb]; exact hnf2
  · rw [HandleMove_frame h g hlook]
    exact hinv

theorem unfinishedGameHasRoom_of_played {g : Ptr} {w : World} (h : PlayedByHandleMove g w) :
    UnfinishedGameHasRoom (w.gameObj g) := by
  induction h with
  | start hfresh =>
    intro _ hfull
    rw [hfresh.1] at hfull
    exact hfull 0 (by decide) (CreateBoard_get 0 0)
  | @move w w' client column rand hprev hstep ih =>
    exact HandleMove_keeps_room g hstep (unfinishedGameOpen_of_played hprev) ih

theorem movesOfCall_of_finished {w : World} {g : Ptr} (client : Ptr) (column : Int)
    (rand : Nat) (hfin : (w.gameObj g).IsFinished = true) :
    movesOfCall w g client column rand = [] := by
  apply movesOfCall_of_not_accepted
  rintro ⟨_, _, _, hf, _⟩
  rw [hfin] at hf
  cases hf

/-- A run of `HandleMove` calls on a state in which the game at `g` is finished leaves the
game as it is and adds no move to its history. -/
theorem playMoves_of_finished {g : Ptr} (rand : Nat) (l : List (Ptr × Int)) :
    ∀ {w w' : World}, (w.gameObj g).IsFinished = true → playMoves w rand l = some w' →
      w'.gameObj g = w.gameObj g ∧ playHistory g w rand l = [] := by
  induction l with
  | nil =>
    intro w w' _ hp
    simp only [RowFlow.playMoves] at hp
    injection hp with hp
    rw [← hp]
    exact ⟨rfl, rfl⟩
  | cons x xs ih =>
    intro w w' hfin hp
    obtain ⟨client, column⟩ := x
    simp only [RowFlow.playMoves] at hp
    cases hstep : HandleMove w client column rand with
    | none => rw [hstep] at hp; cases hp
    | some w1 =>
      rw [hstep] at hp
      have hsame := HandleMove_gameObj_finished hstep hfin
      have hfin1 : (w1.gameObj g).IsFinished = true := by rw [hsame]; exact hfin
      obtain ⟨h1, h2⟩ := ih hfin1 hp
      refine ⟨h1.trans hsame, ?_⟩
      simp only [playHistory, hstep]
      rw [movesOfCall_of_finished client column rand hfin, h2]
      rfl

/-- C32: let the game at `g` be played from a fresh game (empty board) by `HandleMove`
calls, `ms` being the history of its accepted moves (moves of the participants and of the
automated opponent). Then the board holds as many pieces as `ms` has moves (cells of
side 1 plus cells of side 2), at most 42; when all 42 cells are filled, which is the case
after 42 accepted moves, the finished flag is set; and once the flag is set every later
`HandleMove` for the game is answered with "Game is already finished", no call changes
the game or adds a move to its history, whatever run of calls follows. -/
theorem C32_pieces_equal_moves_and_game_ends (g : Ptr) (w : World) (ms : List Move)
    (h : PlayedMoves g w ms) :
    countOccupied (w.gameObj g).Board = ms.length ∧
    countPieces (w.gameObj g).Board Player1 + countPieces (w.gameObj g).Board Player2 =
      ms.length ∧
    ms.length ≤ 42 ∧
    ((∀ r c, r < Rows → c < Cols → (w.gameObj g).Board.get r c ≠ Empty) →
      (w.gameObj g).IsFinished = true) ∧
    (ms.length = 42 →
      (∀ r c, r < Rows → c < Cols → (w.gameObj g).Board.get r c ≠ Empty) ∧
      (w.gameObj g).IsFinished = true) ∧
    ((w.gameObj g).IsFinished = true →
      (∀ client column rand,
        movesOfCall w g client column rand = [] ∧
        (GetGameByPlayer w (w.clientObj client).Username = some g →
          HandleMove w client column rand =
            some (sendError w client "Game is already finished")) ∧
        (∀ w', HandleMove w client column rand = some w' → w'.gameObj g = w.gameObj g)) ∧
      (∀ rand l w', playMoves w rand l = some w' →
        w'.gameObj g = w.gameObj g ∧ playHistory g w rand l = [])) := by
  have hplays := (winnerMovedLast_of_played h).1
  obtain ⟨hcells, hcount⟩ := piecesCounted_of_plays hplays (sides_of_playedMoves h)
  have hroom := unfinishedGameHasRoom_of_played (playedByHandleMove_of_moves h)
  have hfull : (∀ r c, r < Rows → c < Cols → (w.gameObj g).Board.get r c ≠ Empty) →
      (w.gameObj g).IsFinished = true := by
    intro hall
    cases hf : (w.gameObj g).IsFinished
    · exact absurd (fun c hc => hall 0 c (by decide) hc) (hroom hf)
    · rfl
  refine ⟨hcount, ?_, ?_, hfull, fun h42 => ?_, fun hfin => ⟨fun client column rand => ?_,
    fun rand l w' hp => playMoves_of_finished rand l hfin hp⟩⟩
  · rw [← hcount, countOccupied_eq_countPieces hcells]
  · rw [← hcount]; exact countOccupied_le _
  · have hall := all_occupied_of_count (hcount.trans h42)
    exact ⟨hall, hfull hall⟩
  · exact ⟨movesOfCall_of_finished client column rand hfin,
      fun hg => HandleMove_of_rejected (Rejected.alreadyFinished g hg hfin) rand,
      fun w' hw' => HandleMove_gameObj_finished hw' hfin⟩

set_option maxRecDepth 100000 in
theorem C32_pieces_equal_moves_and_game_ends_witness :
    ([] ++ playHistory 0 scenarioStart 0 scenarioMoves).length = 7 ∧
    countOccupied (scenarioFinished.gameObj 0).Board = 7 ∧
    (scenarioFinished.gameObj 0).IsFinished = true ∧
    HandleMove scenarioFinished 1 6 0 =
      some (sendError scenarioFinished 1 "Game is already finished") := by
  have h := C32_pieces_equal_moves_and_game_ends 0 scenarioFinished _
    scenarioFinished_playedMoves
  have h7 : ([] ++ playHistory 0 scenarioStart 0 scenarioMoves).length = 7 := by decide
  have hfin : (scenarioFinished.gameObj 0).IsFinished = true := by decide
  exact ⟨h7, h.1.trans h7, hfin, ((h.2.2.2.2.2 hfin).1 1 6 0).2.1 (by decide)⟩

/-! ## Hub: no connection is ever flagged disconnected -/

theorem trySend_Disconnected (c : Client) (msg : Message) :
    (trySend c msg).Disconnected = c.Disconnected := by
  unfold trySend
  split <;> rfl

theorem sendToParticipants_Disconnected (w : World) (gs : GameState) (msg : Message)
    (p : Ptr) :
    ((sendToParticipants w gs msg).clientObj p).Disconnected =
      (w.clientObj p).Disconnected := by
  unfold sendToParticipants
  simp only []
  split
  · exact trySend_Disconnected _ _
  · rfl

theorem handleGameEnd_Disconnected (w : World) (g : Ptr) (winner : Player) (isDraw : Bool)
    (p : Ptr) :
    ((handleGameEnd w g winner isDraw).clientObj p).Disconnected =
      (w.clientObj p).Disconnected := by
  unfold handleGameEnd
  exact sendToParticipants_Disconnected _ _ _ p

theorem handleBotMove_Disconnected {w w' : World} {g : Ptr} {rand : Nat}
    (h : handleBotMove w g rand = some w') (p : Ptr) :
    (w'.clientObj p).Disconnected = (w.clientObj p).Disconnected := by
  unfold handleBotMove at h
  cases hsel : SelectBotMove (w.gameObj g).Board Player2 rand with
  | none => rw [hsel] at h; cases h
  | some c =>
    rw [hsel] at h
    simp only [] at h
    cases hm : (MakeMove (w.gameObj g).Board c Player2).2 with
    | error e => rw [hm] at h; cases h
    | ok m2 =>
      rw [hm] at h
      simp only [] at h
      split at h
      · injection h with h
        rw [← h, handleGameEnd_Disconnected]
        unfold broadcastMove
        exact sendToParticipants_Disconnected _ _ _ p
      · injection h with h
        rw [← h]
        unfold broadcastMove
        exact sendToParticipants_Disconnected _ _ _ p

theorem HandleMove_apply_Disconnected (w : World) (client : Ptr) (column : Int)
    (gameState : Ptr) (playerNumber : Player) (p : Ptr) :
    (((HandleMove.apply w client column gameState playerNumber).1).clientObj p).Disconnected =
      (w.clientObj p).Disconnected := by
  unfold HandleMove.apply
  simp only []
  split
  · exact sendBlocking_Disconnected _ _ _ p
  · unfold broadcastMove
    exact sendToParticipants_Disconnected _ _ _ p

theorem HandleMove_resolve_Disconnected {w w' : World} {gameState : Ptr} {rand : Nat}
    (h : HandleMove.resolve w gameState rand = some w') (p : Ptr) :
    (w'.clientObj p).Disconnected = (w.clientObj p).Disconnected := by
  unfold HandleMove.resolve at h
  simp only [] at h
  split at h
  · injection h with h
    rw [← h, handleGameEnd_Disconnected]
  · split at h
    · exact handleBotMove_Disconnected h p
    · injection h with h
      rw [← h]

theorem HandleMove_Disconnected {w w' : World} {client : Ptr} {column : Int} {rand : Nat}
    (h : HandleMove w client column rand = some w') (p : Ptr) :
    (w'.clientObj p).Disconnected = (w.clientObj p).Disconnected := by
  rw [HandleMove_eq_sections] at h
  unfold HandleMove.sections at h
  split at h
  · rename_i w1 hchk
    injection h with h
    rw [← h]
    unfold HandleMove.checks at hchk
    split at hchk
    · injection hchk with hchk
      rw [← hchk]
      exact sendBlocking_Disconnected _ _ _ p
    · simp only [] at hchk
      split at hchk
      · injection hchk with hchk
        rw [← hchk]
        exact sendBlocking_Disconnected _ _ _ p
      · split at hchk
        · injection hchk with hchk
          rw [← hchk]
          exact sendBlocking_Disconnected _ _ _ p
        · cases hchk
  · rename_i g q hchk
    have happ := HandleMove_apply_Disconnected w client column g q p
    split at h
    · rename_i w1 heq
      injection h with h
      rw [← h]
      rw [heq] at happ
      exact happ
    · rename_i w1 m heq
      rw [heq] at happ
      rw [HandleMove_resolve_Disconnected h p]
      exact happ

/-- The timer of the forfeit changes nothing in a state without a flagged connection. -/
theorem handleDisconnectionTimeout_of_unflagged {w : World} (h : NoClientDisconnected w)
    (client : Ptr) : handleDisconnectionTimeout w client = w := by
  unfold handleDisconnectionTimeout
  split
  · rw [if_neg (by rw [h client]; decide)]
  · rfl

/-- Every operation of the hub keeps every `Client` object unflagged, given that no
`Client` object carries a game ID. -/
theorem noClientDisconnected_of_step {w w' : World} (hs : HubStep w w')
    (hid : NoClientGameID w) (h : NoClientDisconnected w) : NoClientDisconnected w' := by
  intro p
  cases hs with
  | serveWS id =>
    simp only [ServeWS, setObj]
    split
    · rfl
    · exact h p
  | register client => exact h p
  | unregister client =>
    unfold runUnregister
    split
    · rw [if_neg (not_not.2 (hid client))]
      exact h p
    · exact h p
  | join client username gameID => rw [HandleJoin_Disconnected]; exact h p
  | move _ client column rand hmove => rw [HandleMove_Disconnected hmove p]; exact h p
  | moveApply client column gameState playerNumber =>
    rw [HandleMove_apply_Disconnected]; exact h p
  | moveResolve _ gameState rand hres =>
    rw [HandleMove_resolve_Disconnected hres p]; exact h p
  | gameCreated g =>
    unfold handleGameCreated
    simp only []
    split
    · rw [trySend_Disconnected]; exact h p
    · exact h p
  | matchTimeout client gameID => rw [matchTimeout_clientObj]; exact h p
  | disconnectTimeout client => rw [handleDisconnectionTimeout_of_unflagged h]; exact h p

theorem noClientDisconnected_of_reachable {w : World} (h : HubReachable w) :
    NoClientDisconnected w := by
  induction h with
  | init => intro p; rfl
  | step hw hs ih => exact noClientDisconnected_of_step hs (noClientGameID_of_reachable hw) ih

theorem rejoinTrace_reachable : HubReachable rejoinTrace :=
  HubReachable.step
    (HubReachable.step
      (HubReachable.step pairedTrace_reachable (HubStep.unregister _ 0))
      (HubStep.serveWS _ "c3"))
    (HubStep.register _ 2)

/-- C19: when the forfeit grace period expires for a connection that is in the live set
and flagged disconnected: if its game is unfinished, the game is finished with the other
participant as winner, `game_over` with the reason "opponent_disconnected" is queued to
every live, unflagged connection of the winner, and the connection leaves the live set;
if its game is already finished, the winner and the finished flag of the game stay; if
the connection is not in the live set or not flagged, nothing changes. This holds in
every state the hub reaches (where no connection is flagged, so that only the last case
arises) and in every state, flagged connections included, whose outbound queues have
room. -/
theorem C19_forfeit_after_grace_period (w : World) (client : Ptr)
    (h : HubReachable w ∨ ∀ p, (w.clientObj p).Send.length < SendCapacity) :
    (w.clients client = true → (w.clientObj client).Disconnected = true →
      (handleDisconnectionTimeout w client).clients client = false ∧
      (∀ g, GetGameByPlayer w (w.clientObj client).Username = some g →
        (w.gameObj g).IsFinished = false →
        ((handleDisconnectionTimeout w client).gameObj g).IsFinished = true ∧
        ((handleDisconnectionTimeout w client).gameObj g).Winner =
          (if (w.gameObj g).Player1 = (w.clientObj client).Username
            then (w.gameObj g).Player2 else (w.gameObj g).Player1) ∧
        (∀ p, w.clients p = true →
          (w.clientObj p).Username = ((handleDisconnectionTimeout w client).gameObj g).Winner →
          (w.clientObj p).Disconnected = false →
          (handleDisconnectionTimeout w client).clientObj p =
            { w.clientObj p with
              Send := (w.clientObj p).Send ++
                [Message.gameOver ((handleDisconnectionTimeout w client).gameObj g).Winner
                  (some "opponent_disconnected")] })) ∧
      (∀ g, GetGameByPlayer w (w.clientObj client).Username = some g →
        (w.gameObj g).IsFinished = true →
        ((handleDisconnectionTimeout w client).gameObj g).Winner = (w.gameObj g).Winner ∧
        ((handleDisconnectionTimeout w client).gameObj g).IsFinished = true)) ∧
    ((w.clients client ≠ true ∨ (w.clientObj client).Disconnected ≠ true) →
      handleDisconnectionTimeout w client = w) := by
  refine ⟨fun hreg hflag => ?_, (handleDisconnectionTimeout_effect w client).1⟩
  rcases h with hreach | hroom
  · have := noClientDisconnected_of_reachable hreach client
    rw [hflag] at this
    cases this
  · obtain ⟨hrm, _, _, hopen, hdone⟩ := (handleDisconnectionTimeout_effect w client).2 hreg hflag
    refine ⟨hrm, fun g hg hfin => ?_, fun g hg hfin => ?_⟩
    · obtain ⟨hf, hw1, hw2, _, hsend, _⟩ := hopen g hg hfin
      refine ⟨hf, ?_, fun p hp hu hd => (hsend p hp hu hd).1 (hroom p)⟩
      by_cases h1 : (w.gameObj g).Player1 = (w.clientObj client).Username
      · rw [if_pos h1]; exact hw1 h1
      · rw [if_neg h1]; exact hw2 h1
    · obtain ⟨hgo, _⟩ := hdone g hg hfin
      rw [hgo]
      exact ⟨rfl, hfin⟩

set_option maxRecDepth 100000 in
theorem C19_forfeit_after_grace_period_witness :
    (((handleDisconnectionTimeout forfeitPendingWorld 0).gameObj 0).IsFinished = true ∧
      ((handleDisconnectionTimeout forfeitPendingWorld 0).gameObj 0).Winner = "bob" ∧
      (handleDisconnectionTimeout forfeitPendingWorld 0).clients 0 = false ∧
      (handleDisconnectionTimeout forfeitPendingWorld 0).clientObj 1 =
        { forfeitPendingWorld.clientObj 1 with
          Send := [Message.gameOver "bob" (some "opponent_disconnected")] }) ∧
    (HubReachable pairedTrace ∧ handleDisconnectionTimeout pairedTrace 0 = pairedTrace) := by
  obtain ⟨hrm, hopen, _⟩ :=
    (C19_forfeit_after_grace_period forfeitPendingWorld 0
      (Or.inr (fun p => Nat.zero_lt_succ 255))).1 (by decide) (by decide)
  obtain ⟨hf, hw1, hsend⟩ := hopen 0 (by decide) (by decide)
  have hw : ((handleDisconnectionTimeout forfeitPendingWorld 0).gameObj 0).Winner = "bob" :=
    hw1.trans (by decide)
  have h1 := hsend 1 (by decide) (by rw [hw]; decide) (by decide)
  rw [hw] at h1
  exact ⟨⟨hf, hw, hrm, h1⟩, pairedTrace_reachable,
    (C19_forfeit_after_grace_period pairedTrace 0 (Or.inl pairedTrace_reachable)).2
      (Or.inr (by decide))⟩

/-- C20: in every state the hub reaches, the firing of the grace timer of any connection
forfeits no game, and so it is after a new connection joined under a display name (the
name of a connection that went away included): the state after the timer is the state
before it, so the winner and the finished flag of every game are unchanged and no
`game_over` message is queued to any connection. No state of a run has a connection that
waits flagged for its forfeit. -/
theorem C20_rejoin_keeps_game (w : World) (h : HubReachable w) (old new : Ptr)
    (username gameID : String) :
    handleDisconnectionTimeout w old = w ∧
    HubReachable (HandleJoin w new username gameID) ∧
    handleDisconnectionTimeout (HandleJoin w new username gameID) old =
      HandleJoin w new username gameID ∧
    (∀ g,
      ((handleDisconnectionTimeout (HandleJoin w new username gameID) old).gameObj g).Winner =
        ((HandleJoin w new username gameID).gameObj g).Winner ∧
      ((handleDisconnectionTimeout (HandleJoin w new username gameID) old).gameObj
          g).IsFinished =
        ((HandleJoin w new username gameID).gameObj g).IsFinished) ∧
    (∀ p winner,
      Message.gameOver winner (some "opponent_disconnected") ∈
          ((handleDisconnectionTimeout (HandleJoin w new username gameID) old).clientObj
            p).Send →
        Message.gameOver winner (some "opponent_disconnected") ∈
          ((HandleJoin w new username gameID).clientObj p).Send) := by
  have hr : HubReachable (HandleJoin w new username gameID) :=
    HubReachable.step h (HubStep.join w new username gameID)
  have heq := handleDisconnectionTimeout_of_unflagged (noClientDisconnected_of_reachable hr) old
  rw [heq]
  exact ⟨handleDisconnectionTimeout_of_unflagged (noClientDisconnected_of_reachable h) old,
    hr, rfl, fun _ => ⟨rfl, rfl⟩, fun _ _ hm => hm⟩

set_option maxRecDepth 100000 in
theorem C20_rejoin_keeps_game_witness :
    (rejoinTrace.clientObj 0).Username = "alice" ∧
    rejoinTrace.clients 0 = false ∧
    GetGameByPlayer rejoinTrace "alice" = some 0 ∧
    ((HandleJoin rejoinTrace 2 "alice" "g2").clientObj 2).Username = "alice" ∧
    ((HandleJoin rejoinTrace 2 "alice" "g2").gameObj 0).IsFinished = false ∧
    ((handleDisconnectionTimeout (HandleJoin rejoinTrace 2 "alice" "g2") 0).gameObj
      0).IsFinished = false ∧
    ((handleDisconnectionTimeout (HandleJoin rejoinTrace 2 "alice" "g2") 0).gameObj
      0).Winner = "" := by
  obtain ⟨_, _, heq, _, _⟩ :=
    C20_rejoin_keeps_game rejoinTrace rejoinTrace_reachable 0 2 "alice" "g2"
  rw [heq]
  decide

/-! ## Runs of the hub: serialized calls, overlapped calls, a full outbound queue -/

theorem hubReachable_of_playMoves {rand : Nat} (l : List (Ptr × Int)) {w w' : World}
    (hw : HubReachable w) (h : playMoves w rand l = some w') : HubReachable w' := by
  induction l generalizing w with
  | nil =>
    unfold playMoves at h
    injection h with h
    rw [← h]
    exact hw
  | cons a rest ih =>
    obtain ⟨client, column⟩ := a
    unfold playMoves at h
    cases hm : HandleMove w client column rand with
    | none => rw [hm] at h; cases h
    | some w1 =>
      rw [hm] at h
      exact ih (HubReachable.step hw (HubStep.move _ _ client column rand hm)) h

theorem hubReachable_of_runCallStep {s s' : CallState} {step : CallStep}
    (hw : HubReachable s.1) (h : runCallStep s step = some s') : HubReachable s'.1 := by
  cases step with
  | checks client column rand =>
    simp only [runCallStep] at h
    split at h
    · cases h
    · split at h
      · rename_i w' hchk
        injection h with h
        rw [← h]
        refine HubReachable.step hw (HubStep.move _ _ client column rand ?_)
        rw [HandleMove_eq_sections]
        unfold HandleMove.sections
        rw [hchk]
      · injection h with h
        rw [← h]
        exact hw
  | apply client =>
    simp only [runCallStep] at h
    split at h
    · cases h
    · rename_i f hf
      have hstep := HubStep.moveApply s.1 client f.column f.gameState f.playerNumber
      split at h
      · cases h
      · split at h
        · rename_i w' heq
          injection h with h
          rw [← h]
          rw [heq] at hstep
          exact HubReachable.step hw hstep
        · rename_i w' m heq
          injection h with h
          rw [← h]
          rw [heq] at hstep
          exact HubReachable.step hw hstep
  | resolve client =>
    simp only [runCallStep] at h
    split at h
    · cases h
    · rename_i f hf
      split at h
      · split at h
        · cases h
        · rename_i w' hres
          injection h with h
          rw [← h]
          exact HubReachable.step hw (HubStep.moveResolve _ _ f.gameState f.rand hres)
      · cases h

theorem hubReachable_of_runCallSteps (steps : List CallStep) {s s' : CallState}
    (hw : HubReachable s.1) (h : runCallSteps s steps = some s') : HubReachable s'.1 := by
  induction steps generalizing s with
  | nil =>
    unfold runCallSteps at h
    injection h with h
    rw [← h]
    exact hw
  | cons step rest ih =>
    unfold runCallSteps at h
    cases hs : runCallStep s step with
    | none => rw [hs] at h; cases h
    | some s1 =>
      rw [hs] at h
      exact ih (hubReachable_of_runCallStep hw hs) h

/-- Every state of an overlapped run from a state the hub reaches is a state the hub
reaches. -/
theorem afterCallSteps_reachable {w : World} (hw : HubReachable w) (steps : List CallStep) :
    HubReachable (afterCallSteps w steps) := by
  unfold afterCallSteps
  cases hr : runCallSteps (w, fun _ => none) steps with
  | none => exact hw
  | some s => exact hubReachable_of_runCallSteps steps hw hr

/-- The last section of a `HandleMove` call on a board on which `CheckWinner` finds a line
of the side `p` is `handleGameEnd` for `p`, whether the game is finished or not. -/
theorem resolve_of_winner {w : World} {gameState : Ptr} {p : Player} (rand : Nat)
    (h : CheckWinner (w.gameObj gameState).Board = (p, false)) (hp : p ≠ Empty) :
    HandleMove.resolve w gameState rand = some (handleGameEnd w gameState p false) := by
  unfold HandleMove.resolve
  simp only [h]
  rw [if_pos (Or.inl hp)]

set_option maxRecDepth 1000000 in
theorem spamWorld_reachable : HubReachable spamWorld :=
  hubReachable_of_playMoves spamMoves pairedTrace_reachable
    (playMoves_eq_some_getD pairedTrace pairedTrace 0 spamMoves (by decide))

set_option maxRecDepth 1000000 in
theorem raceStart_reachable : HubReachable raceStart :=
  hubReachable_of_playMoves raceMoves pairedTrace_reachable
    (playMoves_eq_some_getD pairedTrace pairedTrace 0 raceMoves (by decide))

set_option maxRecDepth 1000000 in
/-- C9 (as stated) fails when the outbound queue of the offending connection is full. In
`spamWorld` (two connections paired by the matchmaker, then 255 out-of-turn moves of
"alice") the queue of "alice" holds 256 messages. Her next move is rejected with "Not your
turn", and no message is queued to any connection: the call waits in its send. -/
theorem C9_counterexample_full_queue :
    HubReachable spamWorld ∧
    (spamWorld.clientObj 0).Send.length = SendCapacity ∧
    Rejected spamWorld 0 0 "Not your turn" ∧
    ∃ w', HandleMove spamWorld 0 0 0 = some w' ∧
      (∀ p, (w'.clientObj p).Send = (spamWorld.clientObj p).Send) ∧
      w'.tasks = spamWorld.tasks ++ [Task.blockedSend 0 (Message.error "Not your turn")] := by
  have hrej : Rejected spamWorld 0 0 "Not your turn" :=
    Rejected.notYourTurn 0 (by decide) (by decide) (by decide)
  have hfull : SendCapacity ≤ (spamWorld.clientObj 0).Send.length := by decide
  refine ⟨spamWorld_reachable, by decide, hrej, sendError spamWorld 0 "Not your turn",
    HandleMove_of_rejected hrej 0, ?_, ?_⟩
  · intro p
    unfold sendError
    rw [sendBlocking_full _ hfull]
  · unfold sendError
    rw [sendBlocking_full _ hfull]

set_option maxRecDepth 1000000 in
/-- C25 (failing input): in `spamWorld` the outbound queue of the live connection 0 of the
participant "alice" is full (256 messages). The move of "bob" in column 6 is accepted and
broadcast: "bob" gets the move message, and the connection of "alice" is still in the
live-connection set, its queue open and as it was; the message is dropped for it. The
same holds for `game_over`: when the game is played on to the win of "bob"
(`spamGameMoves`), "bob" gets `game_over` and the connection of "alice" is still live
with its queue as it was. -/
theorem C25_full_queue_participant_stays_live :
    HubReachable spamWorld ∧
    spamWorld.clients 0 = true ∧
    (spamWorld.clientObj 0).Username = (spamWorld.gameObj 0).Player2 ∧
    GetGameByPlayer spamWorld "bob" = some 0 ∧
    (spamWorld.clientObj 0).Send.length = SendCapacity ∧
    (∃ w', HandleMove spamWorld 1 6 0 = some w' ∧
      (w'.gameObj 0).Board.get 5 6 = Player1 ∧
      w'.clients 0 = true ∧ w'.sendClosed 0 = false ∧
      (w'.clientObj 0).Send = (spamWorld.clientObj 0).Send ∧
      (w'.clientObj 1).Send = (spamWorld.clientObj 1).Send ++ [Message.move 5 6 Player1]) ∧
    (∃ w', playMoves spamWorld 0 spamGameMoves = some w' ∧
      (w'.gameObj 0).IsFinished = true ∧ (w'.gameObj 0).Winner = "bob" ∧
      w'.clients 0 = true ∧ w'.sendClosed 0 = false ∧
      (w'.clientObj 0).Send = (spamWorld.clientObj 0).Send ∧
      (w'.clientObj 1).Send.getLast? = some (Message.gameOver "bob" none)) := by
  refine ⟨spamWorld_reachable, by decide, by decide, by decide, by decide,
    ⟨(HandleMove spamWorld 1 6 0).getD spamWorld, ?_, by decide, by decide, by decide,
      by decide, by decide⟩,
    ⟨(playMoves spamWorld 0 spamGameMoves).getD spamWorld,
      playMoves_eq_some_getD spamWorld spamWorld 0 spamGameMoves (by decide), by decide,
      by decide, by decide, by decide, by decide, by decide⟩⟩
  have h : (HandleMove spamWorld 1 6 0).isSome = true := by decide
  exact (Option.some_get h).symm.trans (by rw [Option.get_eq_getD])

set_option maxRecDepth 1000000 in
/-- C7 (failing input): two overlapped calls. In `raceStart` (two connections paired by
the matchmaker, six moves played in turns) the game is unfinished, no side has four in a
row and "bob", side 1, is to move. The run `overlapEarly` is a run of the sections of two
calls, each section the next of its call: both calls pass their checks and both moves are
accepted. The accepted move of "bob" in column 6 completes a four-in-a-row for side 1;
when his call looks for a winner, the fourth piece of "alice" is on column 0, which the
scan meets first. After both calls the game is finished and its winner is "alice", not
the mover "bob"; the same call of "bob" run to its end before the call of "alice" starts
gives the winner "bob". -/
theorem C7_overlapped_moves_wrong_winner :
    HubReachable raceStart ∧
    (raceStart.gameObj 0).Player1 = "bob" ∧ (raceStart.clientObj 1).Username = "bob" ∧
    (raceStart.gameObj 0).Player2 = "alice" ∧ (raceStart.clientObj 0).Username = "alice" ∧
    (raceStart.gameObj 0).IsFinished = false ∧ (raceStart.gameObj 0).Winner = "" ∧
    CheckWinner (raceStart.gameObj 0).Board = (Empty, false) ∧
    (runCallSteps (raceStart, fun _ => none) overlapEarly).isSome = true ∧
    (HandleMove.apply raceStart 1 6 0 Player1).2 =
      some { Column := 6, Row := 2, Player := Player1 } ∧
    FourInRow ((afterCallSteps raceStart (overlapEarly.take 2)).gameObj 0).Board Player1 ∧
    ¬ FourInRow ((afterCallSteps raceStart (overlapEarly.take 2)).gameObj 0).Board Player2 ∧
    ((afterCallSteps raceStart (overlapEarly.take 5)).gameObj 0).IsFinished = true ∧
    ((afterCallSteps raceStart (overlapEarly.take 5)).gameObj 0).Winner = "alice" ∧
    ((afterCallSteps raceStart overlapEarly).gameObj 0).IsFinished = true ∧
    ((afterCallSteps raceStart overlapEarly).gameObj 0).Winner = "alice" ∧
    (((HandleMove raceStart 1 6 0).getD raceStart).gameObj 0).Winner = "bob" := by
  refine ⟨raceStart_reachable, ?_⟩
  decide

set_option maxRecDepth 1000000 in
/-- C27 (failing input): two overlapped calls. The game of `raceStart` was played from a
fresh game by accepted moves. In the run `overlapEarly` the call of "bob" (side 1) passes
its checks and its move in column 6 is accepted; before that call looks for a winner, the
call of "alice" (side 2) passes its checks and her move in column 0 is accepted. On the
board after these two accepted moves both sides have four in a row: side 1, which did not
make the last move, has one too, and `CheckWinner` reports side 2 only because its scan
of the columns meets column 0 before column 6. -/
theorem C27_overlapped_moves_two_lines :
    HubReachable raceStart ∧
    IsFreshGame (pairedTrace.gameObj 0) ∧
    (runCallSteps (raceStart, fun _ => none) (overlapEarly.take 4)).isSome = true ∧
    (HandleMove.apply raceStart 1 6 0 Player1).2 =
      some { Column := 6, Row := 2, Player := Player1 } ∧
    (HandleMove.apply (afterCallSteps raceStart (overlapEarly.take 3)) 0 0 0 Player2).2 =
      some { Column := 0, Row := 2, Player := Player2 } ∧
    HubReachable (afterCallSteps raceStart (overlapEarly.take 4)) ∧
    FourInRow ((afterCallSteps raceStart (overlapEarly.take 4)).gameObj 0).Board Player1 ∧
    FourInRow ((afterCallSteps raceStart (overlapEarly.take 4)).gameObj 0).Board Player2 ∧
    scanVertical ((afterCallSteps raceStart (overlapEarly.take 4)).gameObj 0).Board =
      some Player2 ∧
    CheckWinner ((afterCallSteps raceStart (overlapEarly.take 4)).gameObj 0).Board =
      (Player2, false) := by
  refine ⟨raceStart_reachable, ⟨rfl, rfl, rfl, rfl⟩, by decide, by decide, by decide,
    afterCallSteps_reachable raceStart_reachable _, by decide, by decide, by decide,
    by decide⟩

set_option maxRecDepth 1000000 in
/-- C28 (failing input): two overlapped calls. In the run `overlapLate` from `raceStart`
the call of "alice" passes its checks while the game is unfinished; then the call of
"bob", whose move completed four in a row, ends the game with the winner "bob". The call
of "alice" goes on: her move completes four in a row on column 0, and her last section is
`handleGameEnd` for side 2 on the game, whose finished flag is already set: the winner
"bob" is overwritten with "alice", and "bob" is sent `game_over` twice, with two
winners. -/
theorem C28_overlapped_game_end_overwrites :
    HubReachable (afterCallSteps raceStart (overlapLate.take 5)) ∧
    (runCallSteps (raceStart, fun _ => none) overlapLate).isSome = true ∧
    ((afterCallSteps raceStart (overlapLate.take 3)).gameObj 0).IsFinished = false ∧
    ((afterCallSteps raceStart (overlapLate.take 4)).gameObj 0).IsFinished = true ∧
    ((afterCallSteps raceStart (overlapLate.take 4)).gameObj 0).Winner = "bob" ∧
    ((afterCallSteps raceStart (overlapLate.take 5)).gameObj 0).IsFinished = true ∧
    ((afterCallSteps raceStart (overlapLate.take 5)).gameObj 0).Winner = "bob" ∧
    HandleMove.resolve (afterCallSteps raceStart (overlapLate.take 5)) 0 0 =
      some (handleGameEnd (afterCallSteps raceStart (overlapLate.take 5)) 0 Player2 false) ∧
    ((handleGameEnd (afterCallSteps raceStart (overlapLate.take 5)) 0 Player2 false).gameObj
      0).Winner = "alice" ∧
    ((afterCallSteps raceStart overlapLate).gameObj 0).IsFinished = true ∧
    ((afterCallSteps raceStart overlapLate).gameObj 0).Winner = "alice" ∧
    Message.gameOver "bob" none ∈ ((afterCallSteps raceStart overlapLate).clientObj 1).Send ∧
    Message.gameOver "alice" none ∈
      ((afterCallSteps raceStart overlapLate).clientObj 1).Send := by
  refine ⟨afterCallSteps_reachable raceStart_reachable _, by decide, by decide, by decide,
    by decide, by decide, by decide, resolve_of_winner 0 (by decide) (by decide), ?_⟩
  decide

end RowFlow
